import Mathlib

/-!
# Attention execution core of ScaleLLM (`src/layers/attention.cpp`)

A shallow embedding of the attention layer: the module constructor, the
orchestrating `forward`, the two backend dispatchers and the two reference
("generic") kernels.

Conventions of the embedding.

* A tensor of rank 3 is a nested list `[dim0][dim1][dim2]`.  The sizes the source
  reads with `size(1)` / `size(-1)` are passed next to the tensor, since a
  nested list with no rows forgets its inner sizes.
* Tensor elements range over a linearly ordered field `α` (exact arithmetic: the
  rounding of fp16/fp32 is not modelled, and the casts `to(kFloat)` / `type_as`
  are value-preserving).  The only non-finite value the kernels create themselves
  is the `-inf` of the causal mask, which is why score tensors have elements in
  `Score α`.
* The exponential used by `torch::softmax` is a parameter `expf`; every theorem
  holds for each choice of it.
* A `CHECK` that fails aborts the process: such functions return `Option`.
* In-place writes into a (slice of a) tensor are explicit state passing: the
  kernel receives the old contents and returns the new ones.
-/

namespace llm

/-- A rank-3 tensor as nested rows `[dim0][dim1][dim2]`. -/
abbrev Tensor (β : Type) := List (List (List β))

/-- Element of a 32-bit score tensor: a finite value, or the `-inf` of the mask. -/
inductive Score (α : Type) where
  | fin : α → Score α
  | negInf : Score α
deriving DecidableEq, Repr

namespace Score

variable {α : Type}

/-- Addition of scores: `-inf` absorbs every finite value. -/
def add [Add α] : Score α → Score α → Score α
  | fin x, fin y => fin (x + y)
  | _, _ => negInf

/-- Exponential of a score: `exp(-inf) = 0`. -/
def exp [Zero α] (expf : α → α) : Score α → α
  | fin x => expf x
  | negInf => 0

end Score

/-- The two third-party kernels declared `extern` at lines 19-50
(`third_party/flash_attn`, `third_party/vllm`): parameters of the embedding.
Each returns the new contents of its output tensor, `none` when it raises. `P` is
the type of the raw paged key/value pools. -/
structure Extern (α P : Type) where
  mha_varlen_fwd : (q k v : Tensor α) → (out_ : Option (Tensor α)) →
    (cu_seqlens_q cu_seqlens_k : List Nat) → (alibi_slopes : Option (List α)) →
    (max_seqlen_q max_seqlen_k : Int) → (p_dropout softmax_scale : α) →
    (zero_tensors is_causal : Bool) → (window_size_left window_size_right : Int) →
    (return_softmax : Bool) → Option (Tensor α)
  single_query_cached_kv_attention : (out query : Tensor α) →
    (key_cache value_cache : P) → (head_mapping : List Nat) → (scale : α) →
    (block_tables : List (List Nat)) → (context_lens : List Nat) →
    (block_size : Nat) → (max_context_len : Int) →
    (alibi_slopes : Option (List α)) → Option (Tensor α)

/-- The interface of `KVCache` that the attention layer calls (the class itself is
declared in `memory/kv_cache.h`): `set_kv_cache(slot_ids, k, v)`,
`get_kv_cache(block_table, context_len)`, the raw `get_kv_cache()`, the
`size(1)` of the gathered keys and the `size(3)` of the raw key pool.  `C` is the
cache state, `none` a raised error. -/
structure KVCacheOps (α C P : Type) where
  set_kv_cache : C → List Nat → Tensor α → Tensor α → Option C
  get_kv_cache : C → List Nat → Nat → Option (Tensor α × Tensor α)
  get_kv_cache_raw : C → P × P
  n_kv_heads : C → Nat
  block_size : P → Nat

namespace detail

section Kernels

variable {α : Type} [LinearOrderedField α]

/-- `constexpr float negative_infinity`. -/
def negative_infinity : Score α := Score.negInf

/-- `tensor * scalar`, elementwise. -/
def mul_scalar (t : Tensor α) (c : α) : Tensor α :=
  t.map fun tok => tok.map fun vec => vec.map fun x => x * c

/-- Inner product over the last (`d`) axis. -/
def dot (x y : List α) : α := (List.zipWith (fun a b => a * b) x y).sum

/-- `torch::einsum("qhd,khd->hqk", {q, k})`; `n_heads` is the common `size(1)`. -/
def einsum_qhd_khd_hqk (n_heads : Nat) (q k : Tensor α) : Tensor α :=
  (List.range n_heads).map fun h =>
    q.map fun qt => k.map fun kt => dot (qt.getD h []) (kt.getD h [])

/-- `torch::einsum("hqk,khd->qhd", {scores, value})`; the sizes of the result are
`[n_q, n_heads, head_dim]`. -/
def einsum_hqk_khd_qhd (n_q n_heads head_dim : Nat) (scores value : Tensor α) : Tensor α :=
  (List.range n_q).map fun i =>
    (List.range n_heads).map fun h =>
      (List.range head_dim).map fun d =>
        (List.zipWith (fun p vt => p * (vt.getD h []).getD d 0)
          ((scores.getD h []).getD i []) value).sum

/-- `scores.to(torch::kFloat)`: the finite scores enter the 32-bit score type. -/
def to_float (scores : Tensor α) : Tensor (Score α) :=
  scores.map fun sh => sh.map fun row => row.map Score.fin

/-- Broadcast of a leading dimension of size 1 to `n`. -/
def expand0 {β : Type} (n : Nat) (t : Tensor β) : Tensor β :=
  if t.length = 1 then List.replicate n (t.headD []) else t

/-- Elementwise sum of two score tensors of equal shape. -/
def add_tensor (a b : Tensor (Score α)) : Tensor (Score α) :=
  List.zipWith (List.zipWith (List.zipWith Score.add)) a b

/-- `scores += mask`, the mask `[1 or n_heads, q, k]` broadcast over the heads. -/
def add_mask (scores mask : Tensor (Score α)) : Tensor (Score α) :=
  add_tensor scores (expand0 scores.length mask)

/-- `torch::softmax` of one row: `exp(x_j) / sum_k exp(x_k)`. -/
def softmax_row (expf : α → α) (row : List (Score α)) : List α :=
  (row.map (Score.exp expf)).map fun e => e / (row.map (Score.exp expf)).sum

/-- `torch::softmax(scores, -1)`: softmax along the last axis. -/
def softmax (expf : α → α) (scores : Tensor (Score α)) : Tensor α :=
  scores.map fun sh => sh.map (softmax_row expf)

/-- Lines 139-143 of `masked_self_attention`: the scores handed to the softmax. -/
def attention_scores (query key : Tensor α) (n_heads : Nat)
    (mask : Option (Tensor (Score α))) (scale : α) : Tensor (Score α) :=
  let scores := einsum_qhd_khd_hqk n_heads (mul_scalar query scale) key
  let scores := to_float scores
  match mask with
  | some m => add_mask scores m
  | none => scores

/-- Line 145 of `masked_self_attention`: the attention weights `[h][q][k]`. -/
def attention_weights (expf : α → α) (query key : Tensor α) (n_heads : Nat)
    (mask : Option (Tensor (Score α))) (scale : α) : Tensor α :=
  softmax expf (attention_scores query key n_heads mask scale)

/-- `detail::masked_self_attention`.  `n_heads` and `head_dim` are `query.size(1)`
and `value.size(2)`. -/
def masked_self_attention (expf : α → α) (query key value : Tensor α)
    (n_heads head_dim : Nat) (mask : Option (Tensor (Score α))) (scale : α) : Tensor α :=
  einsum_hqk_khd_qhd query.length n_heads head_dim
    (attention_weights expf query key n_heads mask scale) value

/-- `torch::full({d0, d1, d2}, x)`. -/
def full {β : Type} (d0 d1 d2 : Nat) (x : β) : Tensor β :=
  List.replicate d0 (List.replicate d1 (List.replicate d2 x))

/-- `torch::triu(m, diagonal)`: entries with `j - i >= diagonal` are kept, the
others become 0. -/
def triu (m : Tensor (Score α)) (diagonal : Nat) : Tensor (Score α) :=
  m.map fun mat => mat.mapIdx fun i row => row.mapIdx fun j x =>
    if i + diagonal ≤ j then x else Score.fin 0

/-- `torch::arange(0, n, query.options())`. -/
def arange (n : Nat) : List α := (List.range n).map fun i => Nat.cast i

/-- `bias.unsqueeze(0) - bias.unsqueeze(1)`: entry `[i][j]` is `bias[j] - bias[i]`. -/
def unsqueeze_sub (bias : List α) : List (List α) :=
  bias.map fun bi => bias.map fun bj => bj - bi

/-- Lines 254-257: the ALiBi bias `[n_heads][seq_len][seq_len]`. -/
def alibi_bias (n_heads seq_len : Nat) (alibi_slopes : List α) : Tensor α :=
  let bias := unsqueeze_sub (arange seq_len)
  let bias := List.replicate n_heads bias
  List.zipWith (fun b s => b.map fun row => row.map fun x => x * s) bias alibi_slopes

/-- Lines 245-261: the attention mask of one sequence; the outer `none` is the
failed `CHECK(alibi_slopes.size(0) == n_heads)`, the inner `none` the undefined
tensor. -/
def attention_mask (n_heads seq_len : Nat) (alibi_slopes : Option (List α)) :
    Option (Option (Tensor (Score α))) :=
  if seq_len > 1 then
    let mask : Tensor (Score α) := full 1 seq_len seq_len negative_infinity
    let mask := triu mask 1
    match alibi_slopes with
    | some slopes =>
      if slopes.length = n_heads then
        some (some (add_tensor (expand0 n_heads mask)
          (to_float (alibi_bias n_heads seq_len slopes))))
      else none
    | none => some (some mask)
  else some none

/-- `t.repeat_interleave(repeats, 1)`: along the head axis. -/
def repeat_interleave {β : Type} (t : Tensor β) (repeats : Nat) : Tensor β :=
  t.map fun tok => tok.flatMap fun head => List.replicate repeats head

/-- `t.slice(0, start, end)`: rows `[start, end)`. -/
def slice {β : Type} (t : List β) (start end_ : Nat) : List β :=
  (t.take end_).drop start

/-- `output.index_put_({Slice(start, end), Slice(), Slice()}, src)`. -/
def index_put {β : Type} (output : List β) (start end_ : Nat) (src : List β) : List β :=
  output.mapIdx fun r row => if start ≤ r ∧ r < end_ then src.getD (r - start) row else row

/-- Lines 226-236: keys/values repeated along the head axis when the head counts
differ; `none` is the failed `CHECK(n_heads % n_kv_heads == 0)`. -/
def repeat_kv (key value : Tensor α) (n_heads n_kv_heads : Nat) :
    Option (Tensor α × Tensor α) :=
  if n_heads ≠ n_kv_heads then
    if n_heads % n_kv_heads = 0 then
      let num_goups := n_heads / n_kv_heads
      some (repeat_interleave key num_goups, repeat_interleave value num_goups)
    else none
  else some (key, value)

/-- Body of the loop at lines 238-270, for sequence `i`. -/
def varlen_seq (expf : α → α) (query _key _value : Tensor α)
    (alibi_slopes : Option (List α)) (cu_lens : List Nat) (scale : α)
    (n_heads head_dim : Nat) (output : Tensor α) (i : Nat) : Option (Tensor α) :=
  let start_idx := cu_lens.getD i 0
  let end_idx := cu_lens.getD (i + 1) 0
  let seq_len := end_idx - start_idx
  (attention_mask n_heads seq_len alibi_slopes).map fun mask =>
    let attn := masked_self_attention expf
      (slice query start_idx end_idx) (slice _key start_idx end_idx)
      (slice _value start_idx end_idx) n_heads head_dim mask scale
    index_put output start_idx end_idx attn

/-- `detail::varlen_masked_self_attention_generic`.  `n_heads`, `n_kv_heads` and
`head_dim` are `query.size(1)`, `key.size(1)` and `query.size(-1)`; the result is
the new contents of `output`.  The two `DCHECK`s on `size(0)` are compiled out of
release builds and are not modelled; `cu_seq_lens` holds non-negative offsets, so
`seq_len` is a truncated difference. -/
def varlen_masked_self_attention_generic (expf : α → α) (query key value : Tensor α)
    (n_heads n_kv_heads head_dim : Nat) (alibi_slopes : Option (List α))
    (cu_seq_lens : List Nat) (scale : α) (output : Tensor α) : Option (Tensor α) :=
  let num_seqs := cu_seq_lens.length - 1
  (repeat_kv key value n_heads n_kv_heads).bind fun kv =>
    (List.range num_seqs).foldlM
      (fun out i => varlen_seq expf query kv.1 kv.2 alibi_slopes cu_seq_lens scale
        n_heads head_dim out i) output

/-- The scores that iteration `i` of the prefill loop hands to the softmax: lines
226-236 (head repeat), 240-261 (mask) and 139-143 of `masked_self_attention`. -/
def varlen_seq_scores (query key value : Tensor α) (n_heads n_kv_heads : Nat)
    (alibi_slopes : Option (List α)) (cu_seq_lens : List Nat) (scale : α) (i : Nat) :
    Option (Tensor (Score α)) :=
  (repeat_kv key value n_heads n_kv_heads).bind fun kv =>
    let start_idx := cu_seq_lens.getD i 0
    let end_idx := cu_seq_lens.getD (i + 1) 0
    let seq_len := end_idx - start_idx
    (attention_mask n_heads seq_len alibi_slopes).map fun mask =>
      attention_scores (slice query start_idx end_idx) (slice kv.1 start_idx end_idx)
        n_heads mask scale

/-- The attention weights `[h][q][k]` of iteration `i` of the prefill loop: the
softmax (line 145) of `varlen_seq_scores`. -/
def varlen_seq_weights (expf : α → α) (query key value : Tensor α)
    (n_heads n_kv_heads : Nat) (alibi_slopes : Option (List α))
    (cu_seq_lens : List Nat) (scale : α) (i : Nat) : Option (Tensor α) :=
  (varlen_seq_scores query key value n_heads n_kv_heads alibi_slopes cu_seq_lens scale
    i).map (softmax expf)

/-- The attention of sequence `i` computed at lines 240-268 (`attn`), from the keys
and values already repeated along the head axis; `none` is the failed `CHECK` on
the slopes. -/
def varlen_seq_attn (expf : α → α) (query _key _value : Tensor α)
    (alibi_slopes : Option (List α)) (cu_lens : List Nat) (scale : α)
    (n_heads head_dim : Nat) (i : Nat) : Option (Tensor α) :=
  let start_idx := cu_lens.getD i 0
  let end_idx := cu_lens.getD (i + 1) 0
  let seq_len := end_idx - start_idx
  (attention_mask n_heads seq_len alibi_slopes).map fun mask =>
    masked_self_attention expf
      (slice query start_idx end_idx) (slice _key start_idx end_idx)
      (slice _value start_idx end_idx) n_heads head_dim mask scale

/-- Row `r` of the output after the iterations `seqs` of the loop at lines 238-270,
started from `row`: every iteration whose range `[cu_lens[i], cu_lens[i+1])`
contains `r` replaces the row by row `r - cu_lens[i]` of its attention `attn i`. -/
def varlen_row_after {β : Type} (attn : Nat → List β) (cu_lens : List Nat) (r : Nat)
    (seqs : List Nat) (row : β) : β :=
  seqs.foldl (fun row i =>
    if cu_lens.getD i 0 ≤ r ∧ r < cu_lens.getD (i + 1) 0 then
      (attn i).getD (r - cu_lens.getD i 0) row
    else row) row

/-- The finite pre-softmax score of query position `i` and key position `j` of a
sequence starting at row `lo`, at head `h`: entry `(h, i, j)` of the first einsum
(line 139) plus the ALiBi bias (lines 254-257) when slopes are supplied. -/
def varlen_logit (query _key : Tensor α) (alibi_slopes : Option (List α)) (scale : α)
    (lo h i j : Nat) : α :=
  dot (((query.getD (lo + i) []).getD h []).map fun x => x * scale)
      ((_key.getD (lo + j) []).getD h [])
    + (alibi_slopes.map fun sl => ((j : α) - (i : α)) * sl.getD h 0).getD 0

/-- One iteration of the loop at lines 317-337, for decode row `i`.
`get_kv_cache` is `kv_cache.get_kv_cache(block_table, context_len)`; `num_heads`,
`num_kv_heads` and `head_dim` are `query.size(1)`, `k.size(1)` and `v.size(2)`.
An index past the end of `block_tables` / `context_lens` raises. -/
def single_query_seq (expf : α → α)
    (get_kv_cache : List Nat → Nat → Option (Tensor α × Tensor α))
    (query : Tensor α) (num_heads num_kv_heads head_dim : Nat)
    (block_tables : List (List Nat)) (context_lens : List Nat) (scale : α)
    (output : Tensor α) (i : Nat) : Option (Tensor α) :=
  let q := [query.getD i []]
  block_tables[i]?.bind fun block_table =>
  context_lens[i]?.bind fun context_len =>
  (get_kv_cache block_table context_len).bind fun kv =>
  (repeat_kv kv.1 kv.2 num_heads num_kv_heads).map fun kv =>
    let attn := masked_self_attention expf q kv.1 kv.2 num_heads head_dim none scale
    output.set i (attn.headD [])

/-- The attention of decode row `i` computed at lines 319-335 (`attn`); `none` when
an index, the gather from the cache or the `CHECK` on the head counts fails. -/
def single_query_attn (expf : α → α)
    (get_kv_cache : List Nat → Nat → Option (Tensor α × Tensor α))
    (query : Tensor α) (num_heads num_kv_heads head_dim : Nat)
    (block_tables : List (List Nat)) (context_lens : List Nat) (scale : α)
    (i : Nat) : Option (Tensor α) :=
  let q := [query.getD i []]
  block_tables[i]?.bind fun block_table =>
  context_lens[i]?.bind fun context_len =>
  (get_kv_cache block_table context_len).bind fun kv =>
  (repeat_kv kv.1 kv.2 num_heads num_kv_heads).map fun kv =>
    masked_self_attention expf q kv.1 kv.2 num_heads head_dim none scale

/-- `detail::single_query_masked_self_attention_generic`; the result is the new
contents of `output`. -/
def single_query_masked_self_attention_generic (expf : α → α)
    (get_kv_cache : List Nat → Nat → Option (Tensor α × Tensor α))
    (query : Tensor α) (num_heads num_kv_heads head_dim : Nat)
    (block_tables : List (List Nat)) (context_lens : List Nat) (scale : α)
    (output : Tensor α) : Option (Tensor α) :=
  let num_seq := query.length
  (List.range num_seq).foldlM
    (fun out i => single_query_seq expf get_kv_cache query num_heads num_kv_heads
      head_dim block_tables context_lens scale out i) output

/-- `detail::varlen_masked_self_attention_cuda`. -/
def varlen_masked_self_attention_cuda {P : Type} (ext : Extern α P)
    (query key value : Tensor α) (alibi_slopes : Option (List α))
    (cu_seq_lens : List Nat) (max_seq_len : Int) (scale : α) (output : Tensor α) :
    Option (Tensor α) :=
  ext.mha_varlen_fwd query key value (some output) cu_seq_lens cu_seq_lens alibi_slopes
    max_seq_len max_seq_len 0 scale false true (-1) 0 false

/-- `detail::single_query_masked_self_attention_cuda`. -/
def single_query_masked_self_attention_cuda {C P : Type} (ops : KVCacheOps α C P)
    (ext : Extern α P) (kv_cache : C) (kv_head_mapping : List Nat) (query : Tensor α)
    (block_tables : List (List Nat)) (context_lens : List Nat) (max_context_len : Int)
    (scale : α) (output : Tensor α) : Option (Tensor α) :=
  let key_cache := (ops.get_kv_cache_raw kv_cache).1
  let value_cache := (ops.get_kv_cache_raw kv_cache).2
  let block_size := ops.block_size key_cache
  ext.single_query_cached_kv_attention output query key_cache value_cache
    kv_head_mapping scale block_tables context_lens block_size max_context_len none

/-- `detail::varlen_masked_self_attention`: the prefill dispatcher.  `is_cuda` is
`query.is_cuda()` and `FLAGS_varlen_masked_self_attention` the gflags string. -/
def varlen_masked_self_attention {P : Type} (ext : Extern α P) (expf : α → α)
    (is_cuda : Bool) (FLAGS_varlen_masked_self_attention : String)
    (query key value : Tensor α) (n_heads n_kv_heads head_dim : Nat)
    (alibi_slopes : Option (List α)) (cu_seq_lens : List Nat) (max_seq_len : Int)
    (scale : α) (output : Tensor α) : Option (Tensor α) :=
  if is_cuda ∧ (FLAGS_varlen_masked_self_attention.isEmpty ∨
      FLAGS_varlen_masked_self_attention = "cuda") then
    varlen_masked_self_attention_cuda ext query key value alibi_slopes cu_seq_lens
      max_seq_len scale output
  else
    varlen_masked_self_attention_generic expf query key value n_heads n_kv_heads
      head_dim alibi_slopes cu_seq_lens scale output

/-- `detail::single_query_masked_self_attention`: the decode dispatcher. -/
def single_query_masked_self_attention {C P : Type} (ops : KVCacheOps α C P)
    (ext : Extern α P) (expf : α → α) (is_cuda : Bool)
    (FLAGS_single_query_masked_self_attention : String) (kv_cache : C)
    (kv_head_mapping : List Nat) (query : Tensor α) (num_heads head_dim : Nat)
    (block_tables : List (List Nat)) (context_lens : List Nat) (max_context_len : Int)
    (scale : α) (output : Tensor α) : Option (Tensor α) :=
  if is_cuda ∧ (FLAGS_single_query_masked_self_attention.isEmpty ∨
      FLAGS_single_query_masked_self_attention = "cuda") then
    single_query_masked_self_attention_cuda ops ext kv_cache kv_head_mapping query
      block_tables context_lens max_context_len scale output
  else
    single_query_masked_self_attention_generic expf (ops.get_kv_cache kv_cache) query
      num_heads (ops.n_kv_heads kv_cache) head_dim block_tables context_lens scale output

end Kernels

end detail

/-- The fields of `InputParameters` that `forward` reads. -/
structure InputParameters where
  slot_ids : List Nat
  num_prompt_tokens : Nat
  cu_seq_lens : List Nat
  max_seq_len : Int
  block_tables : List (List Nat)
  context_lens : List Nat
  max_context_len : Int

/-- The members of `AttentionImpl`. -/
structure AttentionImpl (α : Type) where
  n_heads_ : Nat
  n_kv_heads_ : Nat
  head_dim_ : Nat
  scale_ : α
  kv_head_mapping_ : List Nat
deriving DecidableEq, Repr

/-- What one forward pass does to the outside, in order. -/
inductive Event where
  | set_kv_cache
  | varlen_masked_self_attention
  | single_query_masked_self_attention
deriving DecidableEq, Repr

/-- Result of `forward`: the returned tensor `[T, H_q * D]`, the cache after the
pass and the calls made. -/
structure ForwardResult (α C : Type) where
  output : List (List α)
  kv_cache : C
  trace : List Event

section Module

variable {α : Type} [LinearOrderedField α]

/-- The constructor `AttentionImpl::AttentionImpl`.  The head counts are sizes: the `int64_t`
arguments are modelled on their non-negative range.  `none` is the abort of the
`CHECK` (or the trap of a remainder by zero). `dtype` is unused and `device` only
places the mapping. -/
def AttentionImpl.new (n_heads n_kv_heads head_dim : Nat) (scale : α) :
    Option (AttentionImpl α) :=
  if n_kv_heads = 0 then none
  else if n_heads % n_kv_heads = 0 then
    let kv_head_mapping := List.range n_kv_heads
    let num_group := n_heads / n_kv_heads
    let kv_head_mapping :=
      if num_group > 1 then kv_head_mapping.flatMap fun h => List.replicate num_group h
      else kv_head_mapping
    some { n_heads_ := n_heads, n_kv_heads_ := n_kv_heads, head_dim_ := head_dim,
           scale_ := scale, kv_head_mapping_ := kv_head_mapping }
  else none

/-- `x.view({num_tokens, d1, d2})` of a `[num_tokens, d1 * d2]` tensor; raises when
the sizes do not match. -/
def view3 (x : List (List α)) (num_tokens d1 d2 : Nat) : Option (Tensor α) :=
  if x.length = num_tokens ∧ ∀ row ∈ x, row.length = d1 * d2 then
    some (x.map fun row => (List.range d1).map fun h => (row.drop (h * d2)).take d2)
  else none

/-- `torch::empty_like(q)`: a tensor of the shape of `q` with unspecified contents
`junk`. -/
def empty_like (junk : Nat → Nat → Nat → α) (q : Tensor α) : Tensor α :=
  q.mapIdx fun t tok => tok.mapIdx fun h vec => vec.mapIdx fun d _ => junk t h d

/-- `output.view({num_tokens, -1})` (line 126): every row flattened to `H_q * D`
entries.  The size `-1` is inferred from the number of elements; for
`num_tokens = 0` the tensor has no element, the size cannot be inferred and the call
raises. -/
def view_rows (output : Tensor α) (num_tokens : Nat) : Option (List (List α)) :=
  if num_tokens = 0 then none else some (output.map List.flatten)

/-- `AttentionImpl::forward`.  `is_cuda` is the residency of `query`, the two
`FLAGS_` strings are the gflags, `junk` the contents of the freshly allocated
output. The kernels write through slices of `output`: the rows they return are
put back at the slice. -/
def AttentionImpl.forward {C P : Type} (self : AttentionImpl α) (ops : KVCacheOps α C P)
    (ext : Extern α P) (expf : α → α) (is_cuda : Bool)
    (FLAGS_varlen_masked_self_attention FLAGS_single_query_masked_self_attention : String)
    (junk : Nat → Nat → Nat → α)
    (query key value : List (List α)) (kv_cache : C) (input_params : InputParameters) :
    Option (ForwardResult α C) := do
  let num_tokens := query.length
  let q ← view3 query num_tokens self.n_heads_ self.head_dim_
  let k ← view3 key num_tokens self.n_kv_heads_ self.head_dim_
  let v ← view3 value num_tokens self.n_kv_heads_ self.head_dim_
  let kv_cache ← ops.set_kv_cache kv_cache input_params.slot_ids k v
  let trace := [Event.set_kv_cache]
  let output := empty_like junk q
  let num_prompt_tokens := input_params.num_prompt_tokens
  let (output, trace) ←
    if num_prompt_tokens > 0 then do
      let sliced_output := detail.slice output 0 num_prompt_tokens
      let sliced_query := detail.slice q 0 num_prompt_tokens
      let sliced_key := detail.slice k 0 num_prompt_tokens
      let sliced_value := detail.slice v 0 num_prompt_tokens
      let alibi_slopes : Option (List α) := none
      let sliced_output ← detail.varlen_masked_self_attention ext expf is_cuda
        FLAGS_varlen_masked_self_attention sliced_query sliced_key sliced_value
        self.n_heads_ self.n_kv_heads_ self.head_dim_ alibi_slopes
        input_params.cu_seq_lens input_params.max_seq_len self.scale_ sliced_output
      pure (detail.index_put output 0 num_prompt_tokens sliced_output,
            trace ++ [Event.varlen_masked_self_attention])
    else pure (output, trace)
  let (output, trace) ←
    if num_prompt_tokens < num_tokens then do
      let sliced_output := detail.slice output num_prompt_tokens num_tokens
      let sliced_query := detail.slice q num_prompt_tokens num_tokens
      let sliced_output ← detail.single_query_masked_self_attention ops ext expf is_cuda
        FLAGS_single_query_masked_self_attention kv_cache self.kv_head_mapping_
        sliced_query self.n_heads_ self.head_dim_ input_params.block_tables
        input_params.context_lens input_params.max_context_len self.scale_ sliced_output
      pure (detail.index_put output num_prompt_tokens num_tokens sliced_output,
            trace ++ [Event.single_query_masked_self_attention])
    else pure (output, trace)
  let output ← view_rows output num_tokens
  pure { output := output, kv_cache := kv_cache, trace := trace }

end Module

/-- Modelled from the spec: the paged `KVCache` (`memory/kv_cache.h`, not among the
sources).  A pool of pages of `block_size` positions each; a slot id names the
position `(page, offset) = (slot / block_size, slot % block_size)`, so the pools
are indexed by slot: `[slot][H_kv][D]`. -/
structure KVCache (α : Type) where
  block_size : Nat
  n_kv_heads : Nat
  key_cache : Tensor α
  value_cache : Tensor α
deriving DecidableEq, Repr

namespace KVCache

variable {α : Type}

/-- Modelled from the spec: the write of one projection into its pool, row `t` at
slot `slot_ids[t]`. -/
def write (pool : Tensor α) (slot_ids : List Nat) (rows : Tensor α) : Tensor α :=
  (slot_ids.zip rows).foldl (fun p sr => p.set sr.1 sr.2) pool

/-- Modelled from the spec: `set_kv_cache(slot_ids, K, V)` writes `K[t]` and `V[t]` to
the location named by `slot_ids[t]`; it fails on a shape mismatch or if any slot is
out of range. -/
def set_kv_cache (c : KVCache α) (slot_ids : List Nat) (k v : Tensor α) :
    Option (KVCache α) :=
  if slot_ids.length = k.length ∧ slot_ids.length = v.length ∧
      ∀ s ∈ slot_ids, s < c.key_cache.length ∧ s < c.value_cache.length then
    some { c with key_cache := write c.key_cache slot_ids k,
                  value_cache := write c.value_cache slot_ids v }
  else none

/-- Modelled from the spec: `get_kv_cache(block_table, context_len)` gathers the
logical positions `t < context_len`, position `t` resolving to
`(block_table[t / B], t % B)`; it fails on a block table that is too short. -/
def get_kv_cache (c : KVCache α) (block_table : List Nat) (context_len : Nat) :
    Option (Tensor α × Tensor α) :=
  ((List.range context_len).mapM fun t =>
    block_table[t / c.block_size]?.bind fun page =>
    c.key_cache[page * c.block_size + t % c.block_size]?.bind fun kt =>
    c.value_cache[page * c.block_size + t % c.block_size]?.map fun vt => (kt, vt)).map
    List.unzip

/-- Modelled from the spec: the cache as seen through the interface the attention
layer calls; the raw pools carry the page size. -/
def ops : KVCacheOps α (KVCache α) (Nat × Tensor α) where
  set_kv_cache := set_kv_cache
  get_kv_cache := get_kv_cache
  get_kv_cache_raw := fun c => ((c.block_size, c.key_cache), (c.block_size, c.value_cache))
  n_kv_heads := fun c => c.n_kv_heads
  block_size := fun p => p.1

end KVCache

/-! ### The model registry (`src/models/model_registry.h`) -/

/-- `struct ModelMeta`: three `std::function` members, each possibly empty
(`nullptr`, here `none`).  `F`, `A`, `Q` stand for the callable types
`CausalLMFactory`, `ModelArgsLoader` and `QuantizationArgsLoader`. -/
structure ModelMeta (F A Q : Type) where
  causal_lm_factory : Option F
  model_args_loader : Option A
  quant_args_loader : Option Q
deriving DecidableEq, Repr

/-- The state of `ModelRegistry`: the member
`std::map<std::string, ModelMeta> model_registry_`, as an association list. -/
abbrev ModelRegistry (F A Q : Type) := List (String × ModelMeta F A Q)

namespace ModelRegistry

variable {F A Q : Type}

/-- The entry stored under `name`, if the key is present (`std::map::find`). -/
def find? : ModelRegistry F A Q → String → Option (ModelMeta F A Q)
  | [], _ => none
  | (k, v) :: rest, name => if k = name then some v else find? rest name

/-- A value-initialized `ModelMeta`: three empty functions. -/
def empty_meta : ModelMeta F A Q :=
  { causal_lm_factory := none, model_args_loader := none, quant_args_loader := none }

/-- `model_registry_[name]` (`std::map::operator[]`): the map after the access, in
which a value-initialized entry is inserted when the key was absent, and the entry
referred to. -/
def index (m : ModelRegistry F A Q) (name : String) :
    ModelRegistry F A Q × ModelMeta F A Q :=
  match find? m name with
  | some v => (m, v)
  | none => (m ++ [(name, empty_meta)], empty_meta)

/-- Assignment through the reference returned by `model_registry_[name]`. -/
def store (m : ModelRegistry F A Q) (name : String) (v : ModelMeta F A Q) :
    ModelRegistry F A Q :=
  m.map fun kv => if kv.1 = name then (name, v) else kv

/-- `ModelRegistry::register_causallm_factory`; `none` is the failed `CHECK`. -/
def register_causallm_factory (m : ModelRegistry F A Q) (name : String)
    (factory : Option F) : Option (ModelRegistry F A Q) :=
  let m := (index m name).1
  if ((index m name).2.causal_lm_factory).isNone then
    let m := (index m name).1
    some (store m name { (index m name).2 with causal_lm_factory := factory })
  else none

/-- `ModelRegistry::register_model_args_loader`; `none` is the failed `CHECK`. -/
def register_model_args_loader (m : ModelRegistry F A Q) (name : String)
    (loader : Option A) : Option (ModelRegistry F A Q) :=
  let m := (index m name).1
  if ((index m name).2.model_args_loader).isNone then
    let m := (index m name).1
    some (store m name { (index m name).2 with model_args_loader := loader })
  else none

/-- `ModelRegistry::register_quant_args_loader`; `none` is the failed `CHECK`. -/
def register_quant_args_loader (m : ModelRegistry F A Q) (name : String)
    (loader : Option Q) : Option (ModelRegistry F A Q) :=
  let m := (index m name).1
  if ((index m name).2.quant_args_loader).isNone then
    let m := (index m name).1
    some (store m name { (index m name).2 with quant_args_loader := loader })
  else none

/-- `ModelRegistry::get_causallm_factory`: the map after the access and the value
returned. -/
def get_causallm_factory (m : ModelRegistry F A Q) (name : String) :
    ModelRegistry F A Q × Option F :=
  ((index m name).1, (index m name).2.causal_lm_factory)

/-- `ModelRegistry::get_model_args_loader`. -/
def get_model_args_loader (m : ModelRegistry F A Q) (name : String) :
    ModelRegistry F A Q × Option A :=
  ((index m name).1, (index m name).2.model_args_loader)

/-- `ModelRegistry::get_quant_args_loader`. -/
def get_quant_args_loader (m : ModelRegistry F A Q) (name : String) :
    ModelRegistry F A Q × Option Q :=
  ((index m name).1, (index m name).2.quant_args_loader)

end ModelRegistry

/-- A registry with one model, `llama`, that has a factory and a quant-args loader
but no model-args loader (the callables are stood for by numbers). -/
def demoRegistry : ModelRegistry Nat Nat Nat :=
  [("llama", { causal_lm_factory := some 1, model_args_loader := none,
               quant_args_loader := some 3 })]

/-- A rational stand-in for the exponential, positive everywhere, used to
evaluate the kernels on concrete inputs. -/
def expQ (x : ℚ) : ℚ := 1 + x + x * x / 2

/-- Third-party kernels that always raise: the stand-in used when only the
reference path is evaluated. -/
def noExtern (α P : Type) : Extern α P where
  mha_varlen_fwd := fun _ _ _ _ _ _ _ _ _ _ _ _ _ _ _ _ => none
  single_query_cached_kv_attention := fun _ _ _ _ _ _ _ _ _ _ _ => none

/-- A module with one query head, one KV head and `D = 1`, for the mixed-batch
scenario below. -/
def mixedModule : AttentionImpl ℚ :=
  { n_heads_ := 1, n_kv_heads_ := 1, head_dim_ := 1, scale_ := 1, kv_head_mapping_ := [0] }

/-- A pool of three pages of two positions; page 0 holds the two past positions of
the decoding sequence. -/
def mixedCache : KVCache ℚ :=
  { block_size := 2, n_kv_heads := 1,
    key_cache := [[[1]], [[2]], [[0]], [[0]], [[0]], [[0]]],
    value_cache := [[[4]], [[6]], [[0]], [[0]], [[0]], [[0]]] }

/-- A mixed batch: `T = 3`, `P = 2` (one prompt of length 2, written to page 2) and
one decode row of context length 3 whose new position is slot 2. -/
def mixedParams : InputParameters :=
  { slot_ids := [4, 5, 2], num_prompt_tokens := 2, cu_seq_lens := [0, 2], max_seq_len := 2,
    block_tables := [[0, 1]], context_lens := [3], max_context_len := 3 }

/-- The cache of the mixed batch after the write of the pass. -/
def mixedCacheWritten : KVCache ℚ :=
  { block_size := 2, n_kv_heads := 1,
    key_cache := [[[1]], [[2]], [[2]], [[0]], [[0]], [[1]]],
    value_cache := [[[4]], [[6]], [[8]], [[0]], [[1]], [[2]]] }

/-- The descriptor of an empty batch: `T = 0`, `P = 0`, no sequence. -/
def emptyParams : InputParameters :=
  { slot_ids := [], num_prompt_tokens := 0, cu_seq_lens := [0], max_seq_len := 0,
    block_tables := [], context_lens := [], max_context_len := 0 }

/-- A rational stand-in for the single-precision exponential that `torch::softmax`
applies to the `kFloat` scores: below `-104` the result underflows to 0 (the
smallest positive `float` is `2^-149`, about `e^-103.3`), elsewhere it is positive,
and it is 1 at 0. -/
def expUnderflow (x : ℚ) : ℚ := if x < -104 then 0 else expQ x

/-- A pool of one page of two positions, whose keys give one decode query of value 1
the scores `-200` and `0`. -/
def underflowCache : KVCache ℚ :=
  { block_size := 2, n_kv_heads := 1,
    key_cache := [[[-200]], [[0]]],
    value_cache := [[[1]], [[2]]] }

/-! ## Auxiliary lemmas on lists -/

section ListLemmas

variable {β : Type}

theorem getElem?_flatMap_replicate (g : Nat) (hg : 0 < g) (l : List β) (h : Nat) :
    (l.flatMap fun x => List.replicate g x)[h]? = l[h / g]? := by
  induction l generalizing h with
  | nil => simp
  | cons a l ih =>
    rw [List.flatMap_cons]
    by_cases hlt : h < g
    · rw [List.getElem?_append_left (by simpa using hlt)]
      simp [Nat.div_eq_of_lt hlt, hlt]
    · have hge : g ≤ h := Nat.le_of_not_lt hlt
      rw [List.getElem?_append_right (by simpa using hge)]
      simp only [List.length_replicate]
      rw [ih (h - g)]
      have : h / g = (h - g) / g + 1 := by
        rw [Nat.div_eq_sub_div hg hge]
      rw [this, List.getElem?_cons_succ]

theorem length_flatMap_replicate (g : Nat) (l : List β) :
    (l.flatMap fun x => List.replicate g x).length = l.length * g := by
  induction l with
  | nil => simp
  | cons a l ih => simp [List.flatMap_cons, ih, Nat.succ_mul, Nat.add_comm]

theorem flatMap_replicate_one (l : List β) :
    (l.flatMap fun x => List.replicate 1 x) = l := by
  induction l with
  | nil => simp
  | cons a l ih => simp [List.flatMap_cons, ih]

end ListLemmas

/-! ## Auxiliary lemmas on the tensor operations -/

section TensorLemmas

variable {α : Type} [LinearOrderedField α]

theorem Score.add_negInf (x : Score α) : Score.add x Score.negInf = Score.negInf := by
  cases x <;> rfl

theorem Score.negInf_add (x : Score α) : Score.add Score.negInf x = Score.negInf := by
  cases x <;> rfl

theorem getElem?_slice {β : Type} (t : List β) (lo hi i : Nat) :
    (detail.slice t lo hi)[i]? = if lo + i < hi then t[lo + i]? else none := by
  simp [detail.slice, List.getElem?_drop, List.getElem?_take]

theorem length_slice {β : Type} (t : List β) (lo hi : Nat) :
    (detail.slice t lo hi).length = min hi t.length - lo := by
  simp [detail.slice]

theorem slice_set {β : Type} (t : List β) (lo hi c : Nat) (x : β) :
    detail.slice (t.set c x) lo hi =
      if lo ≤ c ∧ c < hi then (detail.slice t lo hi).set (c - lo) x
      else detail.slice t lo hi := by
  apply List.ext_getElem?
  intro n
  by_cases hc : lo ≤ c ∧ c < hi
  · rw [if_pos hc]
    simp only [getElem?_slice, List.getElem?_set, length_slice]
    by_cases hn : lo + n < hi
    · by_cases hcn : c = lo + n
      · subst hcn
        simp only [hn, if_true, Nat.add_sub_cancel_left]
        by_cases hlt : lo + n < t.length
        · have : n < min hi t.length - lo := by
            have := Nat.lt_min.mpr ⟨hn, hlt⟩
            omega
          simp [hlt, this]
        · have : ¬ n < min hi t.length - lo := by
            have := Nat.min_le_right hi t.length
            omega
          simp [hlt, this]
      · have : ¬ c - lo = n := by omega
        simp [hn, hcn, this]
    · have : ¬ c - lo = n := by omega
      simp [hn, this]
  · rw [if_neg hc]
    simp only [getElem?_slice, List.getElem?_set]
    by_cases hn : lo + n < hi
    · have : ¬ c = lo + n := by omega
      simp [hn, this]
    · simp [hn]

theorem getElem?_index_put {β : Type} (output : List β) (lo hi : Nat) (src : List β)
    (r : Nat) :
    (detail.index_put output lo hi src)[r]? =
      output[r]?.map fun row => if lo ≤ r ∧ r < hi then src.getD (r - lo) row else row := by
  simp [detail.index_put, List.getElem?_mapIdx]

theorem length_index_put {β : Type} (output : List β) (lo hi : Nat) (src : List β) :
    (detail.index_put output lo hi src).length = output.length := by
  simp [detail.index_put]

/-- Replacing an operand where the other one is `-inf` does not change the sum. -/
theorem zipWith_add_set (l m : List (Score α)) (c : Nat) (x : Score α)
    (hm : ∀ y, m[c]? = some y → y = Score.negInf) :
    List.zipWith Score.add (l.set c x) m = List.zipWith Score.add l m := by
  apply List.ext_getElem?
  intro n
  simp only [List.getElem?_zipWith, List.getElem?_set]
  by_cases hcn : c = n
  · subst hcn
    rcases hmc : m[c]? with _ | y
    · rcases hl : l[c]? with _ | a <;> by_cases hlt : c < l.length <;> simp [hlt]
    · have hy := hm y hmc
      subst hy
      by_cases hlt : c < l.length
      · simp [hlt, List.getElem?_eq_getElem hlt, Score.add_negInf]
      · simp [hlt, List.getElem?_eq_none (Nat.le_of_not_lt hlt)]
  · simp [hcn]

/-- A term whose weight is 0 does not contribute to the weighted sum. -/
theorem sum_zipWith_set {γ : Type} (f : γ → α) (w : List α) (v : List γ) (c : Nat) (y : γ)
    (hw : ∀ p, w[c]? = some p → p = 0) :
    (List.zipWith (fun p vt => p * f vt) w (v.set c y)).sum =
      (List.zipWith (fun p vt => p * f vt) w v).sum := by
  induction w generalizing v c with
  | nil => simp
  | cons p w ih =>
    cases v with
    | nil => simp
    | cons a v =>
      cases c with
      | zero =>
        have hp : p = 0 := hw p (by simp)
        simp [hp]
      | succ c =>
        simp only [List.set_cons_succ, List.zipWith_cons_cons, List.sum_cons]
        rw [ih v c (fun q hq => hw q (by simpa using hq))]

theorem getD_map_nil {β γ : Type} (f : List β → List γ) (hf : f [] = [])
    (l : List (List β)) (n : Nat) : (l.map f).getD n [] = f (l.getD n []) := by
  have h := List.getD_map l [] (n := n) f
  rw [hf] at h
  exact h

theorem getD_zipWith_nil {β γ δ : Type} (g : β → γ → δ) (a : List (List β))
    (b : List (List γ)) (n : Nat) :
    (List.zipWith (List.zipWith g) a b).getD n [] =
      List.zipWith g (a.getD n []) (b.getD n []) := by
  simp only [List.getD_eq_getElem?_getD, List.getElem?_zipWith]
  rcases a[n]? with _ | x <;> rcases b[n]? with _ | y <;> simp

theorem getD_to_float {α : Type} (t : Tensor α) (h i : Nat) :
    ((detail.to_float t).getD h []).getD i [] = ((t.getD h []).getD i []).map Score.fin := by
  unfold detail.to_float
  rw [getD_map_nil _ rfl, getD_map_nil _ rfl]

theorem getD_range_map {β : Type} (f : Nat → List β) (n h : Nat) (hh : h < n) :
    ((List.range n).map f).getD h [] = f h := by
  simp [List.getD_eq_getElem?_getD, List.getElem?_map, List.getElem?_range hh]

theorem getD_map_of_lt {β γ : Type} (f : β → List γ) (l : List β) (d : β) (i : Nat)
    (hi : i < l.length) : (l.map f).getD i [] = f (l.getD i d) := by
  simp [List.getD_eq_getElem?_getD, List.getElem?_map, List.getElem?_eq_getElem hi]

/-- Row `i` of `query * scale`. -/
theorem getD_mul_scalar (q : Tensor α) (s : α) (i h : Nat) :
    ((detail.mul_scalar q s).getD i []).getD h [] =
      ((q.getD i []).getD h []).map fun x => x * s := by
  unfold detail.mul_scalar
  rw [getD_map_nil _ rfl, getD_map_nil _ rfl]

/-- Row `(h, i)` of the first einsum: the inner products of query row `i` with
every key row, at head `h`. -/
theorem getD_einsum_qhd_khd_hqk (n_heads : Nat) (q k : Tensor α) (h i : Nat)
    (hh : h < n_heads) (hi : i < q.length) :
    ((detail.einsum_qhd_khd_hqk n_heads q k).getD h []).getD i [] =
      k.map fun kt => detail.dot ((q.getD i []).getD h []) (kt.getD h []) := by
  unfold detail.einsum_qhd_khd_hqk
  rw [getD_range_map _ _ _ hh, getD_map_of_lt _ _ [] _ hi]

theorem length_einsum_qhd_khd_hqk (n_heads : Nat) (q k : Tensor α) :
    (detail.einsum_qhd_khd_hqk n_heads q k).length = n_heads := by
  simp [detail.einsum_qhd_khd_hqk]

theorem getD_add_tensor (a b : Tensor (Score α)) (h i : Nat) :
    ((detail.add_tensor a b).getD h []).getD i [] =
      List.zipWith Score.add ((a.getD h []).getD i []) ((b.getD h []).getD i []) := by
  unfold detail.add_tensor
  rw [getD_zipWith_nil, getD_zipWith_nil]

theorem length_mul_scalar (q : Tensor α) (s : α) : (detail.mul_scalar q s).length = q.length := by
  simp [detail.mul_scalar]

/-- Row `(h, i)` of the scores handed to the softmax. -/
theorem getD_attention_scores (q k : Tensor α) (n_heads : Nat)
    (mask : Option (Tensor (Score α))) (s : α) (h i : Nat)
    (hh : h < n_heads) (hi : i < q.length) :
    ((detail.attention_scores q k n_heads mask s).getD h []).getD i [] =
      match mask with
      | none => (k.map fun kt =>
          detail.dot (((q.getD i []).getD h []).map fun x => x * s) (kt.getD h [])).map
            Score.fin
      | some m => List.zipWith Score.add
          ((k.map fun kt =>
            detail.dot (((q.getD i []).getD h []).map fun x => x * s) (kt.getD h [])).map
              Score.fin)
          (((detail.expand0 n_heads m).getD h []).getD i []) := by
  have hq : i < (detail.mul_scalar q s).length := by rw [length_mul_scalar]; exact hi
  cases mask with
  | none =>
    simp only [detail.attention_scores]
    rw [getD_to_float, getD_einsum_qhd_khd_hqk _ _ _ _ _ hh hq, getD_mul_scalar]
  | some m =>
    simp only [detail.attention_scores, detail.add_mask]
    rw [getD_add_tensor, getD_to_float, getD_einsum_qhd_khd_hqk _ _ _ _ _ hh hq,
      getD_mul_scalar]
    simp [detail.to_float, length_einsum_qhd_khd_hqk]

/-- Row `(h, i)` of the attention weights is the softmax of row `(h, i)` of the
scores. -/
theorem getD_attention_weights (expf : α → α) (q k : Tensor α) (n_heads : Nat)
    (mask : Option (Tensor (Score α))) (s : α) (h i : Nat) :
    ((detail.attention_weights expf q k n_heads mask s).getD h []).getD i [] =
      detail.softmax_row expf
        (((detail.attention_scores q k n_heads mask s).getD h []).getD i []) := by
  unfold detail.attention_weights detail.softmax
  rw [getD_map_nil _ rfl, getD_map_nil _ (by simp [detail.softmax_row])]

/-- Output row `i` of `masked_self_attention`. -/
theorem getElem?_masked_self_attention (expf : α → α) (q k v : Tensor α)
    (n_heads head_dim : Nat) (mask : Option (Tensor (Score α))) (s : α) (i : Nat) :
    (detail.masked_self_attention expf q k v n_heads head_dim mask s)[i]? =
      if i < q.length then
        some ((List.range n_heads).map fun h => (List.range head_dim).map fun d =>
          (List.zipWith (fun p vt => p * (vt.getD h []).getD d 0)
            (((detail.attention_weights expf q k n_heads mask s).getD h []).getD i [])
            v).sum)
      else none := by
  unfold detail.masked_self_attention detail.einsum_hqk_khd_qhd
  rw [List.getElem?_map]
  by_cases hi : i < q.length
  · simp [hi, List.getElem?_range hi]
  · simp [hi, List.getElem?_eq_none (l := List.range q.length) (by simpa using hi)]

theorem length_masked_self_attention (expf : α → α) (q k v : Tensor α)
    (n_heads head_dim : Nat) (mask : Option (Tensor (Score α))) (s : α) :
    (detail.masked_self_attention expf q k v n_heads head_dim mask s).length = q.length := by
  simp [detail.masked_self_attention, detail.einsum_hqk_khd_qhd]

/-- The softmax gives weight 0 wherever the score is `-inf`. -/
theorem getElem?_softmax_row (expf : α → α) (row : List (Score α)) (j : Nat) :
    (detail.softmax_row expf row)[j]? =
      row[j]?.map fun x => Score.exp expf x / (row.map (Score.exp expf)).sum := by
  simp only [detail.softmax_row, List.getElem?_map]
  cases row[j]? <;> rfl

theorem mapIdx_replicate {β γ : Type} (f : Nat → β → γ) (n : Nat) (x : β) :
    (List.replicate n x).mapIdx f = (List.range n).map fun j => f j x := by
  apply List.ext_getElem?
  intro j
  simp only [List.getElem?_mapIdx, List.getElem?_replicate, List.getElem?_map]
  by_cases hj : j < n
  · simp [hj, List.getElem?_range hj]
  · simp [hj, List.getElem?_eq_none (l := List.range n) (by simpa using hj)]

theorem getD_replicate {β : Type} (n h : Nat) (x d : β) (hh : h < n) :
    (List.replicate n x).getD h d = x := by
  simp [List.getD_eq_getElem?_getD, List.getElem?_replicate, hh]

theorem expand0_of_length {β : Type} (n : Nat) (t : Tensor β) (ht : t.length = n) :
    detail.expand0 n t = t := by
  unfold detail.expand0
  split
  · next h1 =>
    match t, h1 with
    | [x], _ => simp at ht; subst ht; rfl
  · rfl

/-- Row `i` of the causal mask (lines 247-248), seen from any head: `-inf` strictly
above the diagonal and 0 elsewhere. -/
theorem getD_causal_mask (L n h i : Nat) (hh : h < n) (hi : i < L) :
    ((detail.expand0 n (detail.triu (detail.full 1 L L (detail.negative_infinity (α := α))) 1)).getD
        h []).getD i [] =
      (List.range L).map fun j => if i + 1 ≤ j then Score.negInf else Score.fin (0 : α) := by
  have h1 : detail.triu (detail.full 1 L L (detail.negative_infinity (α := α))) 1 =
      [(List.range L).map fun i => (List.range L).map fun j =>
        if i + 1 ≤ j then Score.negInf else Score.fin (0 : α)] := by
    simp [detail.triu, detail.full, mapIdx_replicate, detail.negative_infinity]
  rw [h1]
  simp only [detail.expand0, List.length_singleton, if_true, List.headD_cons]
  rw [getD_replicate _ _ _ _ hh, getD_range_map _ _ _ hi]

/-- Row `(h, i)` of the ALiBi bias (lines 254-257): `(j - i) * slope[h]`. -/
theorem getD_alibi_bias (n_heads L : Nat) (slopes : List α) (h i : Nat)
    (hh : h < n_heads) (hs : h < slopes.length) (hi : i < L) :
    ((detail.alibi_bias n_heads L slopes).getD h []).getD i [] =
      (List.range L).map fun (j : Nat) => ((j : α) - (i : α)) * slopes.getD h 0 := by
  unfold detail.alibi_bias
  simp only [List.getD_eq_getElem?_getD, List.getElem?_zipWith, List.getElem?_replicate,
    if_pos hh, List.getElem?_eq_getElem hs, Option.getD_some]
  simp only [detail.unsqueeze_sub, detail.arange, List.map_map, List.getElem?_map,
    List.getElem?_range hi, Option.map_some', Option.getD_some, Function.comp_apply]
  rfl

theorem length_alibi_bias (n_heads L : Nat) (slopes : List α) :
    (detail.alibi_bias n_heads L slopes).length = min n_heads slopes.length := by
  simp [detail.alibi_bias]

/-- Row `(h, i)` of the mask of a sequence of length `L > 1`, broadcast to the
heads: the causal mask plus, when slopes are supplied, the ALiBi bias. -/
theorem getD_attention_mask (n_heads L : Nat) (slopes : Option (List α))
    (m : Tensor (Score α)) (hm : detail.attention_mask n_heads L slopes = some (some m))
    (h i : Nat) (hh : h < n_heads) (hi : i < L) :
    ((detail.expand0 n_heads m).getD h []).getD i [] =
      (List.range L).map fun (j : Nat) =>
        Score.add (if i + 1 ≤ j then Score.negInf else Score.fin (0 : α))
          (Score.fin ((slopes.map fun sl => ((j : α) - (i : α)) * sl.getD h 0).getD 0)) := by
  by_cases hL : L > 1
  · cases slopes with
    | none =>
      simp only [detail.attention_mask, hL, if_true, Option.some.injEq] at hm
      subst hm
      rw [getD_causal_mask L n_heads h i hh hi]
      apply List.map_congr_left
      intro j _
      by_cases hij : i + 1 ≤ j <;> simp [hij, Score.add]
    | some sl =>
      by_cases hlen : sl.length = n_heads
      · simp only [detail.attention_mask, hL, if_true, hlen, Option.some.injEq] at hm
        subst hm
        have hs : h < sl.length := by omega
        rw [expand0_of_length, getD_add_tensor, getD_causal_mask L n_heads h i hh hi,
          getD_to_float, getD_alibi_bias n_heads L sl h i hh hs hi]
        · apply List.ext_getElem?
          intro j
          simp only [List.getElem?_zipWith, List.getElem?_map]
          rcases (List.range L)[j]? with _ | x <;> rfl
        · simp [detail.add_tensor, detail.to_float, length_alibi_bias, hlen, detail.expand0,
            detail.triu, detail.full]
      · simp [detail.attention_mask, hL, hlen] at hm
  · simp [detail.attention_mask, hL] at hm

/-- Under a mask that is `-inf` at column `c` of row `i` (for every head), output
row `i` of `masked_self_attention` does not depend on key row `c` and value row
`c`. -/
theorem masked_self_attention_row_set (expf : α → α) (q k v : Tensor α)
    (n_heads head_dim : Nat) (m : Tensor (Score α)) (s : α) (i c : Nat)
    (x y : List (List α))
    (hmask : ∀ h, h < n_heads → ∀ z,
      (((detail.expand0 n_heads m).getD h []).getD i [])[c]? = some z → z = Score.negInf) :
    (detail.masked_self_attention expf q (k.set c x) (v.set c y) n_heads head_dim
        (some m) s)[i]? =
      (detail.masked_self_attention expf q k v n_heads head_dim (some m) s)[i]? := by
  rw [getElem?_masked_self_attention, getElem?_masked_self_attention]
  by_cases hi : i < q.length
  · rw [if_pos hi, if_pos hi]
    congr 1
    apply List.map_congr_left
    intro h hh
    have hh' : h < n_heads := List.mem_range.mp hh
    apply List.map_congr_left
    intro d _
    rw [getD_attention_weights, getD_attention_weights,
      getD_attention_scores _ _ _ _ _ _ _ hh' hi, getD_attention_scores _ _ _ _ _ _ _ hh' hi]
    simp only
    rw [List.map_set, List.map_set, zipWith_add_set _ _ _ _ (hmask h hh')]
    apply sum_zipWith_set (fun vt : List (List α) => (vt.getD h []).getD d 0)
    intro p hp
    rw [getElem?_softmax_row, List.getElem?_zipWith] at hp
    rcases ha : (List.map Score.fin (List.map (fun kt =>
        detail.dot (((q.getD i []).getD h []).map fun x => x * s) (kt.getD h [])) k))[c]?
      with _ | a
    · rw [ha] at hp; simp at hp
    · rcases hb : (((detail.expand0 n_heads m).getD h []).getD i [])[c]? with _ | b
      · rw [ha, hb] at hp; simp at hp
      · rw [ha, hb] at hp
        have hbn := hmask h hh' b hb
        subst hbn
        simp only [Score.add_negInf, Option.map_some', Option.some.injEq, Score.exp] at hp
        rw [← hp]
        simp
  · rw [if_neg hi, if_neg hi]

/-- A mask built for a sequence is never the undefined tensor when `L > 1`. -/
theorem attention_mask_ne_none (n_heads L : Nat) (slopes : Option (List α)) (hL : 1 < L) :
    detail.attention_mask n_heads L slopes ≠ some none := by
  unfold detail.attention_mask
  rw [if_pos hL]
  cases slopes with
  | none => simp
  | some sl => by_cases hlen : sl.length = n_heads <;> simp [hlen]

/-- For `L > 1` and slopes of the right size (if any) the mask is built. -/
theorem attention_mask_isSome (n_heads L : Nat) (slopes : Option (List α)) (hL : 1 < L)
    (hsl : ∀ sl, slopes = some sl → sl.length = n_heads) :
    ∃ m, detail.attention_mask n_heads L slopes = some (some m) := by
  cases slopes with
  | none =>
    exact ⟨detail.triu (detail.full 1 L L detail.negative_infinity) 1,
      by simp [detail.attention_mask, hL]⟩
  | some sl =>
    exact ⟨detail.add_tensor
      (detail.expand0 n_heads (detail.triu (detail.full 1 L L detail.negative_infinity) 1))
      (detail.to_float (detail.alibi_bias n_heads L sl)),
      by simp [detail.attention_mask, hL, hsl sl rfl]⟩

/-- One iteration of the prefill loop: row `r` of the output does not depend on the
key and value rows `c > r`. -/
theorem varlen_seq_row_set (expf : α → α) (query k v : Tensor α)
    (alibi_slopes : Option (List α)) (cu_lens : List Nat) (scale : α)
    (n_heads head_dim : Nat) (out out' : Tensor α) (idx r c : Nat) (hrc : r < c)
    (x y : List (List α)) (hout : out'[r]? = out[r]?) :
    (detail.varlen_seq expf query (k.set c x) (v.set c y) alibi_slopes cu_lens scale
        n_heads head_dim out' idx).map (fun o => o[r]?) =
      (detail.varlen_seq expf query k v alibi_slopes cu_lens scale n_heads head_dim
        out idx).map (fun o => o[r]?) := by
  unfold detail.varlen_seq
  simp only
  generalize hlo : cu_lens.getD idx 0 = lo
  generalize hhi : cu_lens.getD (idx + 1) 0 = hi
  rcases hmask : detail.attention_mask n_heads (hi - lo) alibi_slopes with _ | mask
  · simp only [Option.map_none']
  · simp only [Option.map_some', Option.some.injEq, getElem?_index_put, hout]
    rcases out[r]? with _ | row
    · simp only [Option.map_none']
    · simp only [Option.map_some', Option.some.injEq]
      by_cases hin : lo ≤ r ∧ r < hi
      · rw [if_pos hin, if_pos hin, List.getD_eq_getElem?_getD, List.getD_eq_getElem?_getD]
        apply congrArg (fun t : Option (List (List α)) => t.getD row)
        by_cases hc : lo ≤ c ∧ c < hi
        · rw [slice_set, slice_set, if_pos hc, if_pos hc]
          have hL : 1 < hi - lo := by omega
          cases mask with
          | none => exact absurd hmask (attention_mask_ne_none _ _ _ hL)
          | some m =>
            apply masked_self_attention_row_set
            intro h hh z hz
            rw [getD_attention_mask n_heads (hi - lo) alibi_slopes m hmask h (r - lo) hh
              (by omega), List.getElem?_map] at hz
            have hcl : c - lo < hi - lo := by omega
            rw [List.getElem?_range hcl] at hz
            have hle : r - lo + 1 ≤ c - lo := by omega
            simp only [Option.map_some', if_pos hle, Score.negInf_add,
              Option.some.injEq] at hz
            exact hz.symm
        · rw [slice_set, slice_set, if_neg hc, if_neg hc]
      · rw [if_neg hin, if_neg hin]

/-- The same for the whole loop. -/
theorem varlen_loop_row_set (expf : α → α) (query k v : Tensor α)
    (alibi_slopes : Option (List α)) (cu_lens : List Nat) (scale : α)
    (n_heads head_dim : Nat) (r c : Nat) (hrc : r < c) (x y : List (List α))
    (seqs : List Nat) (out out' : Tensor α) (hout : out'[r]? = out[r]?) :
    (seqs.foldlM (fun o i => detail.varlen_seq expf query (k.set c x) (v.set c y)
        alibi_slopes cu_lens scale n_heads head_dim o i) out').map (fun o => o[r]?) =
      (seqs.foldlM (fun o i => detail.varlen_seq expf query k v alibi_slopes cu_lens
        scale n_heads head_dim o i) out).map (fun o => o[r]?) := by
  induction seqs generalizing out out' with
  | nil => simp [hout]
  | cons idx seqs ih =>
    rw [List.foldlM_cons, List.foldlM_cons]
    have hstep := varlen_seq_row_set expf query k v alibi_slopes cu_lens scale n_heads
      head_dim out out' idx r c hrc x y hout
    rcases h1 : detail.varlen_seq expf query (k.set c x) (v.set c y) alibi_slopes cu_lens
      scale n_heads head_dim out' idx with _ | o' <;>
    rcases h2 : detail.varlen_seq expf query k v alibi_slopes cu_lens scale n_heads
      head_dim out idx with _ | o <;>
    rw [h1, h2] at hstep
    · simp only [Option.bind_eq_bind, Option.none_bind, Option.map_none']
    · simp at hstep
    · simp at hstep
    · simp only [Option.map_some', Option.some.injEq] at hstep
      simp only [Option.bind_eq_bind, Option.some_bind]
      exact ih o o' hstep

/-- The keys and values the loop reads after `repeat_kv`, when row `c` of `key` and
`value` is replaced: row `c` of the repeated tensors is replaced. -/
theorem repeat_kv_set {α : Type} (key value : Tensor α) (n_heads n_kv_heads c : Nat)
    (kc vc : List (List α)) :
    detail.repeat_kv (key.set c kc) (value.set c vc) n_heads n_kv_heads =
      (detail.repeat_kv key value n_heads n_kv_heads).map fun kv =>
        (kv.1.set c (if n_heads ≠ n_kv_heads then
            kc.flatMap fun head => List.replicate (n_heads / n_kv_heads) head else kc),
         kv.2.set c (if n_heads ≠ n_kv_heads then
            vc.flatMap fun head => List.replicate (n_heads / n_kv_heads) head else vc)) := by
  unfold detail.repeat_kv
  by_cases hne : n_heads ≠ n_kv_heads
  · by_cases hdiv : n_heads % n_kv_heads = 0
    · simp [hne, hdiv, detail.repeat_interleave, List.map_set]
    · simp [hne, hdiv]
  · simp [hne]

theorem dot_mul_scalar (x y : List α) (s : α) :
    detail.dot (x.map fun a => a * s) y = s * detail.dot x y := by
  unfold detail.dot
  induction x generalizing y with
  | nil => simp
  | cons a x ih =>
    cases y with
    | nil => simp
    | cons b y =>
      simp only [List.map_cons, List.zipWith_cons_cons, List.sum_cons, ih y]
      ring

theorem repeat_kv_isSome {α : Type} (key value : Tensor α) (n_heads n_kv_heads : Nat)
    (hdiv : n_heads % n_kv_heads = 0) :
    ∃ kv, detail.repeat_kv key value n_heads n_kv_heads = some kv ∧
      kv.1.length = key.length ∧ kv.2.length = value.length ∧
      (∀ t h, h < n_heads →
        (kv.1.getD t []).getD h [] = (key.getD t []).getD (h / (n_heads / n_kv_heads)) []) ∧
      (∀ t h, h < n_heads →
        (kv.2.getD t []).getD h [] =
          (value.getD t []).getD (h / (n_heads / n_kv_heads)) []) := by
  have hrow : ∀ (x : Tensor α) (t h : Nat), h < n_heads → n_heads ≠ n_kv_heads →
      ((detail.repeat_interleave x (n_heads / n_kv_heads)).getD t []).getD h [] =
        (x.getD t []).getD (h / (n_heads / n_kv_heads)) [] := by
    intro x t h hh hne
    have hG : 0 < n_heads / n_kv_heads := by
      rcases Nat.eq_zero_or_pos (n_heads / n_kv_heads) with h0 | h0
      · have := Nat.mul_div_cancel' (Nat.dvd_of_mod_eq_zero hdiv)
        rw [h0] at this; omega
      · exact h0
    unfold detail.repeat_interleave
    rw [getD_map_nil _ rfl, List.getD_eq_getElem?_getD, getElem?_flatMap_replicate _ hG,
      ← List.getD_eq_getElem?_getD]
  unfold detail.repeat_kv
  by_cases hne : n_heads ≠ n_kv_heads
  · rw [if_pos hne, if_pos hdiv]
    refine ⟨_, rfl, by simp [detail.repeat_interleave], by simp [detail.repeat_interleave],
      fun t h hh => hrow key t h hh hne, fun t h hh => hrow value t h hh hne⟩
  · rw [if_neg hne]
    have heq : n_heads = n_kv_heads := by omega
    refine ⟨_, rfl, rfl, rfl, ?_, ?_⟩ <;>
    · intro t h hh
      have : n_heads / n_kv_heads = 1 := by
        rw [← heq]; exact Nat.div_self (by omega)
      rw [this, Nat.div_one]

theorem getD_slice {β : Type} (t : List β) (lo hi i : Nat) (d : β) (hi' : lo + i < hi) :
    (detail.slice t lo hi).getD i d = t.getD (lo + i) d := by
  rw [List.getD_eq_getElem?_getD, getElem?_slice, if_pos hi', ← List.getD_eq_getElem?_getD]

/-- Entry `(h, i, j)` of the scores that iteration `idx` of the prefill loop hands
to the softmax, for a sequence `[lo, hi)` inside the token range. -/
theorem varlen_seq_scores_entry (query key value : Tensor α) (n_heads n_kv_heads : Nat)
    (alibi_slopes : Option (List α)) (cu_seq_lens : List Nat) (scale : α)
    (idx h i j : Nat) (hdiv : n_heads % n_kv_heads = 0)
    (hsl : ∀ sl, alibi_slopes = some sl → sl.length = n_heads)
    (hq : cu_seq_lens.getD (idx + 1) 0 ≤ query.length)
    (hk : cu_seq_lens.getD (idx + 1) 0 ≤ key.length)
    (hh : h < n_heads)
    (hi : i < cu_seq_lens.getD (idx + 1) 0 - cu_seq_lens.getD idx 0)
    (hj : j < cu_seq_lens.getD (idx + 1) 0 - cu_seq_lens.getD idx 0) :
    ∃ sc, detail.varlen_seq_scores query key value n_heads n_kv_heads alibi_slopes
        cu_seq_lens scale idx = some sc ∧
      ((sc.getD h []).getD i [])[j]? = some
        (if 1 < cu_seq_lens.getD (idx + 1) 0 - cu_seq_lens.getD idx 0 then
          Score.add
            (Score.fin (detail.dot
              (((query.getD (cu_seq_lens.getD idx 0 + i) []).getD h []).map fun x => x * scale)
              ((key.getD (cu_seq_lens.getD idx 0 + j) []).getD
                (h / (n_heads / n_kv_heads)) [])))
            (Score.add (if i + 1 ≤ j then Score.negInf else Score.fin (0 : α))
              (Score.fin
                ((alibi_slopes.map fun sl => ((j : α) - (i : α)) * sl.getD h 0).getD 0)))
        else
          Score.fin (detail.dot
            (((query.getD (cu_seq_lens.getD idx 0 + i) []).getD h []).map fun x => x * scale)
            ((key.getD (cu_seq_lens.getD idx 0 + j) []).getD
              (h / (n_heads / n_kv_heads)) []))) := by
  obtain ⟨kv, hkv, hlen, -, hrow, -⟩ := repeat_kv_isSome key value n_heads n_kv_heads hdiv
  unfold detail.varlen_seq_scores
  rw [hkv]
  simp only [Option.some_bind]
  generalize hlo : cu_seq_lens.getD idx 0 = lo at *
  generalize hhi : cu_seq_lens.getD (idx + 1) 0 = hi_ at *
  have hqi : i < (detail.slice query lo hi_).length := by
    rw [length_slice, Nat.min_eq_left hq]; exact hi
  have hkj : lo + j < kv.1.length := by omega
  have hkrow : (detail.slice kv.1 lo hi_)[j]? = some (kv.1.getD (lo + j) []) := by
    rw [getElem?_slice, if_pos (by omega), List.getD_eq_getElem?_getD,
      List.getElem?_eq_getElem hkj, Option.getD_some]
  by_cases hL : 1 < hi_ - lo
  · obtain ⟨m, hm⟩ := attention_mask_isSome n_heads (hi_ - lo) alibi_slopes hL hsl
    refine ⟨_, by rw [hm]; rfl, ?_⟩
    rw [if_pos hL, getD_attention_scores _ _ _ _ _ _ _ hh hqi]
    simp only
    rw [getD_attention_mask n_heads (hi_ - lo) alibi_slopes m hm h i hh hi,
      List.getElem?_zipWith, List.getElem?_map, List.getElem?_map, hkrow,
      List.getElem?_map, List.getElem?_range hj]
    simp only [Option.map_some']
    rw [getD_slice _ _ _ _ _ (by omega), hrow _ _ hh]
  · have hL1 : hi_ - lo = 1 := by omega
    refine ⟨_, by simp [detail.attention_mask, hL]; rfl, ?_⟩
    rw [if_neg hL, getD_attention_scores _ _ _ _ _ _ _ hh hqi]
    simp only
    rw [List.getElem?_map, List.getElem?_map, hkrow]
    simp only [Option.map_some']
    rw [getD_slice _ _ _ _ _ (by omega), hrow _ _ hh]

theorem getD_softmax (expf : α → α) (sc : Tensor (Score α)) (h i : Nat) :
    ((detail.softmax expf sc).getD h []).getD i [] =
      detail.softmax_row expf ((sc.getD h []).getD i []) := by
  unfold detail.softmax
  rw [getD_map_nil _ rfl, getD_map_nil _ (by simp [detail.softmax_row])]

/-- The loop body of the prefill kernel multiplies the weights of
`varlen_seq_weights` with the values of the sequence and stores the product at the
rows of the sequence. -/
theorem varlen_seq_eq_weights (expf : α → α) (query key value : Tensor α)
    (n_heads n_kv_heads head_dim : Nat) (alibi_slopes : Option (List α))
    (cu_seq_lens : List Nat) (scale : α) (output : Tensor α) (i : Nat)
    (kv : Tensor α × Tensor α) (hkv : detail.repeat_kv key value n_heads n_kv_heads = some kv) :
    detail.varlen_seq expf query kv.1 kv.2 alibi_slopes cu_seq_lens scale n_heads head_dim
        output i =
      (detail.varlen_seq_weights expf query key value n_heads n_kv_heads alibi_slopes
        cu_seq_lens scale i).map fun w =>
        detail.index_put output (cu_seq_lens.getD i 0) (cu_seq_lens.getD (i + 1) 0)
          (detail.einsum_hqk_khd_qhd
            (detail.slice query (cu_seq_lens.getD i 0) (cu_seq_lens.getD (i + 1) 0)).length
            n_heads head_dim w
            (detail.slice kv.2 (cu_seq_lens.getD i 0) (cu_seq_lens.getD (i + 1) 0))) := by
  unfold detail.varlen_seq detail.varlen_seq_weights detail.varlen_seq_scores
  rw [hkv]
  simp only [Option.some_bind]
  rcases detail.attention_mask n_heads
    (cu_seq_lens.getD (i + 1) 0 - cu_seq_lens.getD i 0) alibi_slopes with _ | mask
  · rfl
  · rfl

theorem getD_repeat_interleave {β : Type} (x : Tensor β) (g t h : Nat) (hg : 0 < g) :
    ((detail.repeat_interleave x g).getD t []).getD h [] = (x.getD t []).getD (h / g) [] := by
  unfold detail.repeat_interleave
  rw [getD_map_nil _ rfl, List.getD_eq_getElem?_getD, getElem?_flatMap_replicate _ hg,
    ← List.getD_eq_getElem?_getD]

theorem repeat_interleave_one {β : Type} (x : Tensor β) : detail.repeat_interleave x 1 = x := by
  unfold detail.repeat_interleave
  simp [flatMap_replicate_one]

theorem slice_map {β γ : Type} (f : β → γ) (t : List β) (lo hi : Nat) :
    detail.slice (t.map f) lo hi = (detail.slice t lo hi).map f := by
  simp [detail.slice, List.map_take, List.map_drop]

/-- Halving the query and doubling the scale gives the same scaled query. -/
theorem mul_scalar_halve (q : Tensor α) (s : α) :
    detail.mul_scalar (q.map fun tok => tok.map fun vec => vec.map fun x => x / 2) (2 * s) =
      detail.mul_scalar q s := by
  unfold detail.mul_scalar
  rw [List.map_map]
  apply List.map_congr_left
  intro tok _
  simp only [Function.comp_apply, List.map_map]
  apply List.map_congr_left
  intro vec _
  simp only [Function.comp_apply, List.map_map]
  apply List.map_congr_left
  intro x _
  simp only [Function.comp_apply]
  field_simp
  ring

theorem masked_self_attention_halve (expf : α → α) (q k v : Tensor α)
    (n_heads head_dim : Nat) (mask : Option (Tensor (Score α))) (s : α) :
    detail.masked_self_attention expf
        (q.map fun tok => tok.map fun vec => vec.map fun x => x / 2) k v n_heads head_dim
        mask (2 * s) =
      detail.masked_self_attention expf q k v n_heads head_dim mask s := by
  unfold detail.masked_self_attention detail.attention_weights detail.attention_scores
  rw [mul_scalar_halve, List.length_map]

theorem varlen_seq_halve (expf : α → α) (query k v : Tensor α)
    (alibi_slopes : Option (List α)) (cu_lens : List Nat) (scale : α)
    (n_heads head_dim : Nat) (out : Tensor α) (i : Nat) :
    detail.varlen_seq expf (query.map fun tok => tok.map fun vec => vec.map fun x => x / 2)
        k v alibi_slopes cu_lens (2 * scale) n_heads head_dim out i =
      detail.varlen_seq expf query k v alibi_slopes cu_lens scale n_heads head_dim out i := by
  unfold detail.varlen_seq
  simp only [slice_map, masked_self_attention_halve]

theorem single_query_seq_halve (expf : α → α)
    (get_kv_cache : List Nat → Nat → Option (Tensor α × Tensor α))
    (query : Tensor α) (num_heads num_kv_heads head_dim : Nat)
    (block_tables : List (List Nat)) (context_lens : List Nat) (scale : α)
    (out : Tensor α) (i : Nat) :
    detail.single_query_seq expf get_kv_cache
        (query.map fun tok => tok.map fun vec => vec.map fun x => x / 2)
        num_heads num_kv_heads head_dim block_tables context_lens (2 * scale) out i =
      detail.single_query_seq expf get_kv_cache query num_heads num_kv_heads head_dim
        block_tables context_lens scale out i := by
  unfold detail.single_query_seq
  have hq : [(query.map fun tok => tok.map fun vec => vec.map fun x => x / 2).getD i []] =
      ([query.getD i []].map fun tok => tok.map fun vec => vec.map fun x => x / 2) := by
    rw [List.map_singleton, getD_map_nil _ rfl]
  simp only [hq, masked_self_attention_halve]

/-- When the slopes (if any) have the size of the head axis, the mask step of the
loop does not abort. -/
theorem attention_mask_total (n_heads L : Nat) (slopes : Option (List α))
    (hsl : ∀ sl, slopes = some sl → sl.length = n_heads) :
    ∃ mask, detail.attention_mask n_heads L slopes = some mask := by
  by_cases hL : 1 < L
  · obtain ⟨m, hm⟩ := attention_mask_isSome n_heads L slopes hL hsl
    exact ⟨some m, hm⟩
  · exact ⟨none, by simp [detail.attention_mask, hL]⟩

theorem varlen_seq_eq_attn (expf : α → α) (query k v : Tensor α)
    (alibi_slopes : Option (List α)) (cu_lens : List Nat) (scale : α)
    (n_heads head_dim : Nat) (out : Tensor α) (i : Nat) :
    detail.varlen_seq expf query k v alibi_slopes cu_lens scale n_heads head_dim out i =
      (detail.varlen_seq_attn expf query k v alibi_slopes cu_lens scale n_heads head_dim
        i).map fun attn =>
        detail.index_put out (cu_lens.getD i 0) (cu_lens.getD (i + 1) 0) attn := by
  unfold detail.varlen_seq detail.varlen_seq_attn
  simp only
  rcases detail.attention_mask n_heads (cu_lens.getD (i + 1) 0 - cu_lens.getD i 0)
    alibi_slopes with _ | mask
  · simp only [Option.map_none']
  · simp only [Option.map_some']

theorem varlen_seq_attn_isSome (expf : α → α) (query k v : Tensor α)
    (alibi_slopes : Option (List α)) (cu_lens : List Nat) (scale : α)
    (n_heads head_dim : Nat) (i : Nat)
    (hsl : ∀ sl, alibi_slopes = some sl → sl.length = n_heads) :
    ∃ attn, detail.varlen_seq_attn expf query k v alibi_slopes cu_lens scale n_heads
        head_dim i = some attn ∧
      attn.length = (detail.slice query (cu_lens.getD i 0) (cu_lens.getD (i + 1) 0)).length := by
  obtain ⟨mask, hmask⟩ := attention_mask_total n_heads
    (cu_lens.getD (i + 1) 0 - cu_lens.getD i 0) alibi_slopes hsl
  refine ⟨detail.masked_self_attention expf
    (detail.slice query (cu_lens.getD i 0) (cu_lens.getD (i + 1) 0))
    (detail.slice k (cu_lens.getD i 0) (cu_lens.getD (i + 1) 0))
    (detail.slice v (cu_lens.getD i 0) (cu_lens.getD (i + 1) 0)) n_heads head_dim mask
    scale, ?_, ?_⟩
  · simp only [detail.varlen_seq_attn, hmask, Option.map_some']
  · rw [length_masked_self_attention]

theorem varlen_row_after_cons {β : Type} (attn : Nat → List β) (cu_lens : List Nat)
    (r i : Nat) (seqs : List Nat) (row : β) :
    detail.varlen_row_after attn cu_lens r (i :: seqs) row =
      detail.varlen_row_after attn cu_lens r seqs
        (if cu_lens.getD i 0 ≤ r ∧ r < cu_lens.getD (i + 1) 0 then
          (attn i).getD (r - cu_lens.getD i 0) row
        else row) := rfl

/-- Row-wise semantics of the prefill loop: when no iteration aborts, the loop over
`seqs` returns an output of the same length whose row `r` is `varlen_row_after`. -/
theorem varlen_loop_rows (expf : α → α) (query k v : Tensor α)
    (alibi_slopes : Option (List α)) (cu_lens : List Nat) (scale : α)
    (n_heads head_dim : Nat)
    (hsl : ∀ sl, alibi_slopes = some sl → sl.length = n_heads)
    (seqs : List Nat) (out : Tensor α) :
    ∃ o, seqs.foldlM (fun o i => detail.varlen_seq expf query k v alibi_slopes cu_lens
          scale n_heads head_dim o i) out = some o ∧
      o.length = out.length ∧
      ∀ r, o[r]? = out[r]?.map (detail.varlen_row_after
        (fun i => (detail.varlen_seq_attn expf query k v alibi_slopes cu_lens scale
          n_heads head_dim i).getD []) cu_lens r seqs) := by
  induction seqs generalizing out with
  | nil =>
    refine ⟨out, rfl, rfl, ?_⟩
    intro r
    cases out[r]? <;> rfl
  | cons idx seqs ih =>
    obtain ⟨attn, hattn, -⟩ := varlen_seq_attn_isSome expf query k v alibi_slopes cu_lens
      scale n_heads head_dim idx hsl
    obtain ⟨o, ho, hlen, hrow⟩ := ih
      (detail.index_put out (cu_lens.getD idx 0) (cu_lens.getD (idx + 1) 0) attn)
    refine ⟨o, ?_, ?_, ?_⟩
    · rw [List.foldlM_cons, varlen_seq_eq_attn, hattn]
      simp only [Option.map_some', Option.bind_eq_bind, Option.some_bind]
      exact ho
    · rw [hlen, length_index_put]
    · intro r
      rw [hrow r, getElem?_index_put]
      rcases out[r]? with _ | row
      · simp only [Option.map_none']
      · simp only [Option.map_some', varlen_row_after_cons, hattn, Option.getD_some]

/-- Frame: iterations whose range does not contain `r` leave row `r` alone. -/
theorem varlen_row_after_frame {β : Type} (attn : Nat → List β) (cu_lens : List Nat)
    (r : Nat) (seqs : List Nat) (row : β)
    (h : ∀ i ∈ seqs, ¬ (cu_lens.getD i 0 ≤ r ∧ r < cu_lens.getD (i + 1) 0)) :
    detail.varlen_row_after attn cu_lens r seqs row = row := by
  induction seqs generalizing row with
  | nil => rfl
  | cons i seqs ih =>
    rw [varlen_row_after_cons, if_neg (h i (List.mem_cons_self _ _))]
    exact ih row (fun j hj => h j (List.mem_cons_of_mem _ hj))

theorem varlen_row_after_succ {β : Type} (attn : Nat → List β) (cu_lens : List Nat)
    (r n : Nat) (row : β) :
    detail.varlen_row_after attn cu_lens r (List.range (n + 1)) row =
      if cu_lens.getD n 0 ≤ r ∧ r < cu_lens.getD (n + 1) 0 then
        (attn n).getD (r - cu_lens.getD n 0)
          (detail.varlen_row_after attn cu_lens r (List.range n) row)
      else detail.varlen_row_after attn cu_lens r (List.range n) row := by
  simp only [detail.varlen_row_after, List.range_succ, List.foldl_append, List.foldl_cons,
    List.foldl_nil]

/-- For nondecreasing offsets, a row inside the range of sequence `i < n` holds,
after the first `n` iterations, the row that iteration `i` wrote. -/
theorem varlen_row_after_hit {β : Type} (attn : Nat → List β) (cu_lens : List Nat)
    (r n i : Nat) (row x : β)
    (hmono : ∀ a b, a ≤ b → b ≤ n → cu_lens.getD a 0 ≤ cu_lens.getD b 0)
    (hin : i < n) (hlo : cu_lens.getD i 0 ≤ r) (hhi : r < cu_lens.getD (i + 1) 0)
    (hx : (attn i)[r - cu_lens.getD i 0]? = some x) :
    detail.varlen_row_after attn cu_lens r (List.range n) row = x := by
  induction n with
  | zero => omega
  | succ n ih =>
    rw [varlen_row_after_succ]
    by_cases hi : i = n
    · subst hi
      rw [if_pos ⟨hlo, hhi⟩, List.getD_eq_getElem?_getD, hx, Option.getD_some]
    · have hlt : i < n := by omega
      have hle : cu_lens.getD (i + 1) 0 ≤ cu_lens.getD n 0 :=
        hmono (i + 1) n (by omega) (by omega)
      rw [if_neg (by omega)]
      exact ih (fun a b hab hb => hmono a b hab (by omega)) hlt

/-- Every row between the first offset and the `n`-th lies in the range of one of
the first `n` sequences. -/
theorem exists_seq_of_mem (cu_lens : List Nat) (r n : Nat)
    (hlo : cu_lens.getD 0 0 ≤ r) (hhi : r < cu_lens.getD n 0) :
    ∃ i, i < n ∧ cu_lens.getD i 0 ≤ r ∧ r < cu_lens.getD (i + 1) 0 := by
  induction n with
  | zero => omega
  | succ n ih =>
    by_cases h : r < cu_lens.getD n 0
    · obtain ⟨i, hi, h1, h2⟩ := ih h
      exact ⟨i, by omega, h1, h2⟩
    · exact ⟨n, by omega, by omega, hhi⟩

theorem getD_mono_of_pairwise (cu_lens : List Nat) (hcu : cu_lens.Pairwise (· ≤ ·))
    (a b : Nat) (hab : a ≤ b) (hb : b < cu_lens.length) :
    cu_lens.getD a 0 ≤ cu_lens.getD b 0 := by
  have ha : a < cu_lens.length := by omega
  rw [List.getD_eq_getElem?_getD, List.getD_eq_getElem?_getD,
    List.getElem?_eq_getElem ha, List.getElem?_eq_getElem hb, Option.getD_some,
    Option.getD_some]
  rcases Nat.lt_or_eq_of_le hab with hlt | heq
  · exact (List.pairwise_iff_getElem.mp hcu) a b ha hb hlt
  · subst heq; exact Nat.le_refl _

/-- Row-wise semantics of the reference prefill kernel, for divisible head counts and
slopes (if any) of the size of the head axis. -/
theorem varlen_generic_rows (expf : α → α) (query key value : Tensor α)
    (n_heads n_kv_heads head_dim : Nat) (alibi_slopes : Option (List α))
    (cu_seq_lens : List Nat) (scale : α) (output : Tensor α)
    (hdiv : n_heads % n_kv_heads = 0)
    (hsl : ∀ sl, alibi_slopes = some sl → sl.length = n_heads) :
    ∃ kv o, detail.repeat_kv key value n_heads n_kv_heads = some kv ∧
      detail.varlen_masked_self_attention_generic expf query key value n_heads n_kv_heads
        head_dim alibi_slopes cu_seq_lens scale output = some o ∧
      o.length = output.length ∧
      ∀ r, o[r]? = output[r]?.map (detail.varlen_row_after
        (fun i => (detail.varlen_seq_attn expf query kv.1 kv.2 alibi_slopes cu_seq_lens
          scale n_heads head_dim i).getD []) cu_seq_lens r
        (List.range (cu_seq_lens.length - 1))) := by
  obtain ⟨kv, hkv, -⟩ := repeat_kv_isSome key value n_heads n_kv_heads hdiv
  obtain ⟨o, ho, hlen, hrow⟩ := varlen_loop_rows expf query kv.1 kv.2 alibi_slopes
    cu_seq_lens scale n_heads head_dim hsl (List.range (cu_seq_lens.length - 1)) output
  refine ⟨kv, o, hkv, ?_, hlen, hrow⟩
  unfold detail.varlen_masked_self_attention_generic
  simp only [hkv, Option.some_bind]
  exact ho

/-- One iteration of the prefill loop: if the range of the sequence does not contain
both `r` and `c`, row `r` of the output does not depend on row `c` of the query,
keys and values. -/
theorem varlen_seq_row_outside (expf : α → α) (query k v : Tensor α)
    (alibi_slopes : Option (List α)) (cu_lens : List Nat) (scale : α)
    (n_heads head_dim : Nat) (out out' : Tensor α) (idx r c : Nat)
    (w x y : List (List α))
    (hsep : (cu_lens.getD idx 0 ≤ r ∧ r < cu_lens.getD (idx + 1) 0) →
      ¬ (cu_lens.getD idx 0 ≤ c ∧ c < cu_lens.getD (idx + 1) 0))
    (hout : out'[r]? = out[r]?) :
    (detail.varlen_seq expf (query.set c w) (k.set c x) (v.set c y) alibi_slopes cu_lens
        scale n_heads head_dim out' idx).map (fun o => o[r]?) =
      (detail.varlen_seq expf query k v alibi_slopes cu_lens scale n_heads head_dim
        out idx).map (fun o => o[r]?) := by
  unfold detail.varlen_seq
  simp only
  generalize hlo : cu_lens.getD idx 0 = lo at hsep ⊢
  generalize hhi : cu_lens.getD (idx + 1) 0 = hi at hsep ⊢
  rcases hmask : detail.attention_mask n_heads (hi - lo) alibi_slopes with _ | mask
  · simp only [Option.map_none']
  · simp only [Option.map_some', Option.some.injEq, getElem?_index_put, hout]
    rcases out[r]? with _ | row
    · simp only [Option.map_none']
    · simp only [Option.map_some', Option.some.injEq]
      by_cases hin : lo ≤ r ∧ r < hi
      · rw [slice_set, slice_set, slice_set, if_neg (hsep hin), if_neg (hsep hin),
          if_neg (hsep hin)]
      · rw [if_neg hin, if_neg hin]

theorem varlen_loop_row_outside (expf : α → α) (query k v : Tensor α)
    (alibi_slopes : Option (List α)) (cu_lens : List Nat) (scale : α)
    (n_heads head_dim : Nat) (r c : Nat) (w x y : List (List α)) (seqs : List Nat)
    (hsep : ∀ idx ∈ seqs, (cu_lens.getD idx 0 ≤ r ∧ r < cu_lens.getD (idx + 1) 0) →
      ¬ (cu_lens.getD idx 0 ≤ c ∧ c < cu_lens.getD (idx + 1) 0))
    (out out' : Tensor α) (hout : out'[r]? = out[r]?) :
    (seqs.foldlM (fun o i => detail.varlen_seq expf (query.set c w) (k.set c x) (v.set c y)
        alibi_slopes cu_lens scale n_heads head_dim o i) out').map (fun o => o[r]?) =
      (seqs.foldlM (fun o i => detail.varlen_seq expf query k v alibi_slopes cu_lens
        scale n_heads head_dim o i) out).map (fun o => o[r]?) := by
  induction seqs generalizing out out' with
  | nil => simp [hout]
  | cons idx seqs ih =>
    rw [List.foldlM_cons, List.foldlM_cons]
    have hstep := varlen_seq_row_outside expf query k v alibi_slopes cu_lens scale n_heads
      head_dim out out' idx r c w x y (hsep idx (List.mem_cons_self _ _)) hout
    rcases h1 : detail.varlen_seq expf (query.set c w) (k.set c x) (v.set c y) alibi_slopes
      cu_lens scale n_heads head_dim out' idx with _ | o' <;>
    rcases h2 : detail.varlen_seq expf query k v alibi_slopes cu_lens scale n_heads
      head_dim out idx with _ | o <;>
    rw [h1, h2] at hstep
    · simp only [Option.bind_eq_bind, Option.none_bind, Option.map_none']
    · simp at hstep
    · simp at hstep
    · simp only [Option.map_some', Option.some.injEq] at hstep
      simp only [Option.bind_eq_bind, Option.some_bind]
      exact ih (fun j hj => hsep j (List.mem_cons_of_mem _ hj)) o o' hstep

theorem sum_range_ite (f : Nat → α) (L i : Nat) (hi : i < L) :
    ((List.range L).map fun j => if j ≤ i then f j else 0).sum =
      ((List.range (i + 1)).map f).sum := by
  obtain ⟨m, rfl⟩ : ∃ m, L = (i + 1) + m := ⟨L - (i + 1), by omega⟩
  rw [List.range_add, List.map_append, List.sum_append, List.map_map]
  have h1 : ((List.range (i + 1)).map fun j => if j ≤ i then f j else 0) =
      (List.range (i + 1)).map f := by
    apply List.map_congr_left
    intro j hj
    rw [List.mem_range] at hj
    rw [if_pos (by omega)]
  have h2 : ((List.range m).map
      ((fun j => if j ≤ i then f j else 0) ∘ fun x => i + 1 + x)).sum = 0 := by
    apply List.sum_eq_zero
    intro x hx
    rw [List.mem_map] at hx
    obtain ⟨j, -, rfl⟩ := hx
    simp only [Function.comp_apply]
    rw [if_neg (by omega)]
  rw [h1, h2, add_zero]

theorem zipWith_range_map {β γ δ : Type} (g : β → γ → δ) (w : Nat → β) (vs : List γ)
    (d : γ) (L : Nat) (hL : L ≤ vs.length) :
    List.zipWith g ((List.range L).map w) vs =
      (List.range L).map fun j => g (w j) (vs.getD j d) := by
  apply List.ext_getElem?
  intro j
  rw [List.getElem?_zipWith, List.getElem?_map, List.getElem?_map]
  by_cases hj : j < L
  · have hjv : j < vs.length := by omega
    rw [List.getElem?_range hj, List.getElem?_eq_getElem hjv]
    simp only [Option.map_some', List.getD_eq_getElem?_getD, List.getElem?_eq_getElem hjv,
      Option.getD_some]
  · rw [List.getElem?_eq_none (l := List.range L) (by simpa using hj)]
    rfl

theorem softmax_row_range (expf : α → α) (F : Nat → Score α) (L : Nat) :
    detail.softmax_row expf ((List.range L).map F) =
      (List.range L).map fun j =>
        Score.exp expf (F j) / ((List.range L).map fun k => Score.exp expf (F k)).sum := by
  unfold detail.softmax_row
  simp only [List.map_map]
  rfl

/-- Row `(h, i)` of the scores of a sequence `[lo, hi)` inside the token range: the
scaled inner products plus the bias on and below the diagonal, `-inf` above. -/
theorem prefill_scores_row (query k : Tensor α) (n_heads : Nat)
    (alibi_slopes : Option (List α)) (scale : α) (lo hi_ h i : Nat)
    (mask : Option (Tensor (Score α)))
    (hmask : detail.attention_mask n_heads (hi_ - lo) alibi_slopes = some mask)
    (hh : h < n_heads) (hi : i < hi_ - lo) (hq : hi_ ≤ query.length)
    (hk : hi_ ≤ k.length) :
    ((detail.attention_scores (detail.slice query lo hi_) (detail.slice k lo hi_) n_heads
        mask scale).getD h []).getD i [] =
      (List.range (hi_ - lo)).map fun (j : Nat) =>
        if j ≤ i then
          Score.fin (detail.dot (((query.getD (lo + i) []).getD h []).map fun x => x * scale)
              ((k.getD (lo + j) []).getD h [])
            + (alibi_slopes.map fun sl => ((j : α) - (i : α)) * sl.getD h 0).getD 0)
        else Score.negInf := by
  have hqi : i < (detail.slice query lo hi_).length := by
    rw [length_slice, Nat.min_eq_left hq]; exact hi
  rw [getD_attention_scores _ _ _ _ _ _ _ hh hqi, getD_slice _ _ _ _ _ (by omega)]
  apply List.ext_getElem?
  intro j
  rw [List.getElem?_map (l := List.range (hi_ - lo))]
  by_cases hj : j < hi_ - lo
  · have hkj : lo + j < k.length := by omega
    have hkrow : (detail.slice k lo hi_)[j]? = some (k.getD (lo + j) []) := by
      rw [getElem?_slice, if_pos (by omega), List.getD_eq_getElem?_getD,
        List.getElem?_eq_getElem hkj, Option.getD_some]
    rw [List.getElem?_range hj, Option.map_some']
    by_cases hL : 1 < hi_ - lo
    · obtain ⟨m, hm⟩ := attention_mask_isSome n_heads (hi_ - lo) alibi_slopes hL
        (by
          intro sl hs
          by_contra hne
          subst hs
          simp [detail.attention_mask, hL, hne] at hmask)
      rw [hm] at hmask
      cases Option.some.inj hmask
      simp only
      rw [getD_attention_mask n_heads (hi_ - lo) alibi_slopes m hm h i hh hi,
        List.getElem?_zipWith, List.getElem?_map, List.getElem?_map, hkrow,
        List.getElem?_map, List.getElem?_range hj]
      simp only [Option.map_some']
      by_cases hji : j ≤ i
      · have hn : ¬ i + 1 ≤ j := by omega
        simp only [hji, hn, if_true, if_false, Score.add, zero_add]
      · have hp : i + 1 ≤ j := by omega
        simp only [hji, hp, if_true, if_false, Score.negInf_add, Score.add_negInf]
    · have hnone : mask = none := by
        simp only [detail.attention_mask, hL, if_false, Option.some.injEq] at hmask
        exact hmask.symm
      subst hnone
      have hi0 : i = 0 := by omega
      have hj0 : j = 0 := by omega
      subst hi0 hj0
      simp only
      rw [List.getElem?_map, List.getElem?_map, hkrow]
      simp only [Option.map_some', le_refl, if_true, Nat.cast_zero, sub_self, zero_mul]
      cases alibi_slopes <;> simp
  · rw [List.getElem?_eq_none (l := List.range (hi_ - lo)) (by simpa using hj), Option.map_none']
    have hknone : (detail.slice k lo hi_)[j]? = none := by
      rw [getElem?_slice, if_neg (by omega)]
    cases mask with
    | none =>
      simp only
      rw [List.getElem?_map, List.getElem?_map, hknone]
      rfl
    | some m =>
      simp only
      rw [List.getElem?_zipWith, List.getElem?_map, List.getElem?_map, hknone]
      rfl

/-- Row `(h, i)` of the attention weights of a sequence `[lo, hi)` inside the token
range: the softmax over the positions `j ≤ i`, and 0 for `j > i`. -/
theorem prefill_weights_row (expf : α → α) (query k : Tensor α) (n_heads : Nat)
    (alibi_slopes : Option (List α)) (scale : α) (lo hi_ h i : Nat)
    (mask : Option (Tensor (Score α)))
    (hmask : detail.attention_mask n_heads (hi_ - lo) alibi_slopes = some mask)
    (hh : h < n_heads) (hi : i < hi_ - lo) (hq : hi_ ≤ query.length)
    (hk : hi_ ≤ k.length) :
    ((detail.attention_weights expf (detail.slice query lo hi_) (detail.slice k lo hi_)
        n_heads mask scale).getD h []).getD i [] =
      (List.range (hi_ - lo)).map fun (j : Nat) =>
        (if j ≤ i then expf (detail.varlen_logit query k alibi_slopes scale lo h i j)
          else 0) /
        ((List.range (i + 1)).map fun (j' : Nat) =>
          expf (detail.varlen_logit query k alibi_slopes scale lo h i j')).sum := by
  have hexp : ∀ j : Nat, Score.exp expf
      (if j ≤ i then
        Score.fin (detail.varlen_logit query k alibi_slopes scale lo h i j)
      else Score.negInf) =
      if j ≤ i then expf (detail.varlen_logit query k alibi_slopes scale lo h i j)
      else 0 := by
    intro j
    by_cases hji : j ≤ i <;> simp [hji, Score.exp]
  rw [getD_attention_weights,
    prefill_scores_row query k n_heads alibi_slopes scale lo hi_ h i mask hmask hh hi hq hk]
  have hrow : ((List.range (hi_ - lo)).map fun (j : Nat) =>
      if j ≤ i then
        Score.fin (detail.dot (((query.getD (lo + i) []).getD h []).map fun x => x * scale)
            ((k.getD (lo + j) []).getD h [])
          + (alibi_slopes.map fun sl => ((j : α) - (i : α)) * sl.getD h 0).getD 0)
      else Score.negInf) =
      (List.range (hi_ - lo)).map fun (j : Nat) =>
        if j ≤ i then
          Score.fin (detail.varlen_logit query k alibi_slopes scale lo h i j)
        else Score.negInf := rfl
  rw [hrow, softmax_row_range]
  simp only [hexp]
  rw [sum_range_ite _ _ _ hi]

/-- Row `i` of the attention of a sequence `[lo, hi)` inside the token range: causal
attention over the positions `j ≤ i`. -/
theorem prefill_attn_row (expf : α → α) (query k v : Tensor α) (n_heads head_dim : Nat)
    (alibi_slopes : Option (List α)) (scale : α) (lo hi_ i : Nat)
    (mask : Option (Tensor (Score α)))
    (hmask : detail.attention_mask n_heads (hi_ - lo) alibi_slopes = some mask)
    (hi : i < hi_ - lo) (hq : hi_ ≤ query.length) (hk : hi_ ≤ k.length)
    (hv : hi_ ≤ v.length) :
    (detail.masked_self_attention expf (detail.slice query lo hi_) (detail.slice k lo hi_)
        (detail.slice v lo hi_) n_heads head_dim mask scale)[i]? =
      some ((List.range n_heads).map fun h => (List.range head_dim).map fun d =>
        ((List.range (i + 1)).map fun (j : Nat) =>
          expf (detail.varlen_logit query k alibi_slopes scale lo h i j) /
            ((List.range (i + 1)).map fun (j' : Nat) =>
              expf (detail.varlen_logit query k alibi_slopes scale lo h i j')).sum *
          ((v.getD (lo + j) []).getD h []).getD d 0).sum) := by
  have hqi : i < (detail.slice query lo hi_).length := by
    rw [length_slice, Nat.min_eq_left hq]; exact hi
  have hvl : hi_ - lo ≤ (detail.slice v lo hi_).length := by
    rw [length_slice, Nat.min_eq_left hv]
  rw [getElem?_masked_self_attention, if_pos hqi]
  congr 1
  apply List.map_congr_left
  intro h hh
  rw [List.mem_range] at hh
  apply List.map_congr_left
  intro d _
  rw [prefill_weights_row expf query k n_heads alibi_slopes scale lo hi_ h i mask hmask hh hi
    hq hk, zipWith_range_map _ _ _ [] _ hvl]
  have hterm : ((List.range (hi_ - lo)).map fun (j : Nat) =>
      (if j ≤ i then expf (detail.varlen_logit query k alibi_slopes scale lo h i j)
        else 0) /
        ((List.range (i + 1)).map fun (j' : Nat) =>
          expf (detail.varlen_logit query k alibi_slopes scale lo h i j')).sum *
      (((detail.slice v lo hi_).getD j []).getD h []).getD d 0) =
      (List.range (hi_ - lo)).map fun (j : Nat) =>
        if j ≤ i then
          expf (detail.varlen_logit query k alibi_slopes scale lo h i j) /
            ((List.range (i + 1)).map fun (j' : Nat) =>
              expf (detail.varlen_logit query k alibi_slopes scale lo h i j')).sum *
          ((v.getD (lo + j) []).getD h []).getD d 0
        else 0 := by
    apply List.map_congr_left
    intro j hj
    rw [List.mem_range] at hj
    by_cases hji : j ≤ i
    · rw [if_pos hji, if_pos hji, getD_slice _ _ _ _ _ (by omega)]
    · rw [if_neg hji, if_neg hji, zero_div, zero_mul]
  rw [hterm, sum_range_ite _ _ _ hi]

/-- Output row `lo + i` of the reference prefill kernel, for position `i` of a
sequence `[lo, hi)` of nondecreasing `cu_seq_lens` inside the token range: causal
attention over the positions `j ≤ i` of the sequence. -/
theorem prefill_output_row (expf : α → α) (query key value : Tensor α)
    (n_heads n_kv_heads head_dim : Nat) (alibi_slopes : Option (List α))
    (cu_seq_lens : List Nat) (scale : α) (output : Tensor α) (idx i : Nat)
    (hcu : cu_seq_lens.Pairwise (· ≤ ·)) (hidx : idx + 1 < cu_seq_lens.length)
    (hdiv : n_heads % n_kv_heads = 0)
    (hsl : ∀ sl, alibi_slopes = some sl → sl.length = n_heads)
    (hi : i < cu_seq_lens.getD (idx + 1) 0 - cu_seq_lens.getD idx 0)
    (hq : cu_seq_lens.getD (idx + 1) 0 ≤ query.length)
    (hk : cu_seq_lens.getD (idx + 1) 0 ≤ key.length)
    (hv : cu_seq_lens.getD (idx + 1) 0 ≤ value.length)
    (hout : cu_seq_lens.getD idx 0 + i < output.length) :
    ∃ kv o, detail.repeat_kv key value n_heads n_kv_heads = some kv ∧
      detail.varlen_masked_self_attention_generic expf query key value n_heads n_kv_heads
        head_dim alibi_slopes cu_seq_lens scale output = some o ∧
      o[cu_seq_lens.getD idx 0 + i]? =
        some ((List.range n_heads).map fun h => (List.range head_dim).map fun d =>
          ((List.range (i + 1)).map fun (j : Nat) =>
            expf (detail.varlen_logit query kv.1 alibi_slopes scale
                (cu_seq_lens.getD idx 0) h i j) /
              ((List.range (i + 1)).map fun (j' : Nat) =>
                expf (detail.varlen_logit query kv.1 alibi_slopes scale
                  (cu_seq_lens.getD idx 0) h i j')).sum *
            ((kv.2.getD (cu_seq_lens.getD idx 0 + j) []).getD h []).getD d 0).sum) := by
  obtain ⟨kv, o, hkv, ho, -, hrow⟩ := varlen_generic_rows expf query key value n_heads
    n_kv_heads head_dim alibi_slopes cu_seq_lens scale output hdiv hsl
  obtain ⟨kv', hkv', hkl, hvl, -, -⟩ := repeat_kv_isSome key value n_heads n_kv_heads hdiv
  have hkk : kv' = kv := by
    rw [hkv] at hkv'
    exact (Option.some.inj hkv').symm
  subst hkk
  obtain ⟨mask, hmask⟩ := attention_mask_total n_heads
    (cu_seq_lens.getD (idx + 1) 0 - cu_seq_lens.getD idx 0) alibi_slopes hsl
  have hattn : detail.varlen_seq_attn expf query kv'.1 kv'.2 alibi_slopes cu_seq_lens scale
      n_heads head_dim idx = some (detail.masked_self_attention expf
        (detail.slice query (cu_seq_lens.getD idx 0) (cu_seq_lens.getD (idx + 1) 0))
        (detail.slice kv'.1 (cu_seq_lens.getD idx 0) (cu_seq_lens.getD (idx + 1) 0))
        (detail.slice kv'.2 (cu_seq_lens.getD idx 0) (cu_seq_lens.getD (idx + 1) 0))
        n_heads head_dim mask scale) := by
    simp only [detail.varlen_seq_attn, hmask, Option.map_some']
  have hmono : ∀ a b, a ≤ b → b ≤ cu_seq_lens.length - 1 →
      cu_seq_lens.getD a 0 ≤ cu_seq_lens.getD b 0 :=
    fun a b hab hb => getD_mono_of_pairwise cu_seq_lens hcu a b hab (by omega)
  have hx := prefill_attn_row expf query kv'.1 kv'.2 n_heads head_dim alibi_slopes scale
    (cu_seq_lens.getD idx 0) (cu_seq_lens.getD (idx + 1) 0) i mask hmask hi hq
    (by omega) (by omega)
  refine ⟨kv', o, hkv, ho, ?_⟩
  rw [hrow, List.getElem?_eq_getElem hout, Option.map_some']
  congr 1
  apply varlen_row_after_hit _ _ _ _ idx _ _ hmono (by omega) (by omega) (by omega)
  simp only [hattn, Option.getD_some, Nat.add_sub_cancel_left]
  exact hx

theorem range_map_getD {β : Type} (l : List β) (d : β) (n : Nat) (hl : l.length = n) :
    ((List.range n).map fun j => l.getD j d) = l := by
  apply List.ext_getElem?
  intro j
  rw [List.getElem?_map]
  by_cases hj : j < n
  · rw [List.getElem?_range hj, Option.map_some', List.getD_eq_getElem?_getD,
      List.getElem?_eq_getElem (by omega), Option.getD_some]
  · rw [List.getElem?_eq_none (l := List.range n) (by simpa using hj),
      List.getElem?_eq_none (by omega)]
    rfl

theorem expQ_pos (x : ℚ) : 0 < expQ x := by
  unfold expQ
  nlinarith [sq_nonneg (x + 1)]

theorem single_query_seq_eq_attn (expf : α → α)
    (get_kv_cache : List Nat → Nat → Option (Tensor α × Tensor α))
    (query : Tensor α) (num_heads num_kv_heads head_dim : Nat)
    (block_tables : List (List Nat)) (context_lens : List Nat) (scale : α)
    (out : Tensor α) (i : Nat) :
    detail.single_query_seq expf get_kv_cache query num_heads num_kv_heads head_dim
        block_tables context_lens scale out i =
      (detail.single_query_attn expf get_kv_cache query num_heads num_kv_heads head_dim
        block_tables context_lens scale i).map fun attn => out.set i (attn.headD []) := by
  unfold detail.single_query_seq detail.single_query_attn
  simp only
  rcases block_tables[i]? with _ | bt
  · simp only [Option.none_bind, Option.map_none']
  · rcases context_lens[i]? with _ | cl
    · simp only [Option.some_bind, Option.none_bind, Option.map_none']
    · simp only [Option.some_bind]
      generalize get_kv_cache bt cl = g
      rcases g with _ | kv
      · simp only [Option.none_bind, Option.map_none']
      · simp only [Option.some_bind]
        rcases detail.repeat_kv kv.1 kv.2 num_heads num_kv_heads with _ | kv'
        · simp only [Option.map_none']
        · simp only [Option.map_some']

/-- Row-wise semantics of the decode loop: when no iteration fails, the first `n`
iterations return an output of the same length whose rows `r < n` hold the
attention of decode row `r`, the other rows being those of the buffer. -/
theorem single_query_loop_rows (expf : α → α)
    (get_kv_cache : List Nat → Nat → Option (Tensor α × Tensor α))
    (query : Tensor α) (num_heads num_kv_heads head_dim : Nat)
    (block_tables : List (List Nat)) (context_lens : List Nat) (scale : α)
    (n : Nat)
    (hall : ∀ i, i < n → ∃ attn, detail.single_query_attn expf get_kv_cache query num_heads
      num_kv_heads head_dim block_tables context_lens scale i = some attn)
    (out : Tensor α) :
    ∃ o, (List.range n).foldlM (fun o i => detail.single_query_seq expf get_kv_cache query
          num_heads num_kv_heads head_dim block_tables context_lens scale o i) out
        = some o ∧
      o.length = out.length ∧
      ∀ r, o[r]? = if r < n then
          out[r]?.map fun _ => ((detail.single_query_attn expf get_kv_cache query num_heads
            num_kv_heads head_dim block_tables context_lens scale r).getD []).headD []
        else out[r]? := by
  induction n with
  | zero =>
    refine ⟨out, rfl, rfl, ?_⟩
    intro r
    rw [if_neg (by omega)]
  | succ n ih =>
    obtain ⟨o, ho, hlen, hrow⟩ := ih (fun i hi => hall i (by omega))
    obtain ⟨attn, hattn⟩ := hall n (by omega)
    refine ⟨o.set n (attn.headD []), ?_, ?_, ?_⟩
    · rw [List.range_succ, List.foldlM_append, ho]
      simp only [Option.bind_eq_bind, Option.some_bind, List.foldlM_cons, List.foldlM_nil,
        single_query_seq_eq_attn, hattn, Option.map_some', Option.pure_def]
    · rw [List.length_set, hlen]
    · intro r
      rw [List.getElem?_set]
      by_cases hrn : n = r
      · subst hrn
        rw [if_pos rfl, hlen, if_pos (Nat.lt_succ_self n), hattn, Option.getD_some]
        by_cases hlt : n < out.length
        · rw [if_pos hlt, List.getElem?_eq_getElem hlt, Option.map_some']
        · rw [if_neg hlt, List.getElem?_eq_none (by omega), Option.map_none']
      · rw [if_neg hrn, hrow r]
        by_cases hr : r < n
        · rw [if_pos hr, if_pos (by omega)]
        · rw [if_neg hr, if_neg (by omega)]

theorem map_eq_range_map {β γ : Type} (f : β → γ) (l : List β) (d : β) :
    l.map f = (List.range l.length).map fun j => f (l.getD j d) := by
  apply List.ext_getElem?
  intro j
  rw [List.getElem?_map, List.getElem?_map]
  by_cases hj : j < l.length
  · rw [List.getElem?_range hj, List.getElem?_eq_getElem hj, Option.map_some',
      Option.map_some', List.getD_eq_getElem?_getD, List.getElem?_eq_getElem hj,
      Option.getD_some]
  · rw [List.getElem?_eq_none (by omega),
      List.getElem?_eq_none (l := List.range l.length) (by simpa using hj)]
    rfl

/-- The single output row of `masked_self_attention` for one query row and no mask:
attention over all `L` key positions. -/
theorem decode_attn_row (expf : α → α) (qrow : List (List α)) (k v : Tensor α)
    (n_heads head_dim : Nat) (scale : α) (L : Nat) (hk : k.length = L)
    (hv : v.length = L) :
    (detail.masked_self_attention expf [qrow] k v n_heads head_dim none scale).headD [] =
      (List.range n_heads).map fun h => (List.range head_dim).map fun d =>
        ((List.range L).map fun (j : Nat) =>
          expf (detail.dot ((qrow.getD h []).map fun x => x * scale)
              ((k.getD j []).getD h [])) /
            ((List.range L).map fun (j' : Nat) =>
              expf (detail.dot ((qrow.getD h []).map fun x => x * scale)
                ((k.getD j' []).getD h []))).sum *
          ((v.getD j []).getD h []).getD d 0).sum := by
  have h0 := getElem?_masked_self_attention expf [qrow] k v n_heads head_dim none scale 0
  rw [if_pos (by simp)] at h0
  have hhead : ∀ (t : Tensor α) (x : List (List α)), t[0]? = some x → t.headD [] = x := by
    intro t x hx
    cases t with
    | nil => simp at hx
    | cons a t => simpa using hx
  rw [hhead _ _ h0]
  apply List.map_congr_left
  intro h hh
  rw [List.mem_range] at hh
  apply List.map_congr_left
  intro d _
  rw [getD_attention_weights, getD_attention_scores _ _ _ _ _ _ _ hh (by simp)]
  simp only [List.getD_cons_zero]
  rw [map_eq_range_map _ k [], hk, List.map_map, softmax_row_range,
    zipWith_range_map _ _ _ [] _ (by omega)]
  rfl

/-- Independence of the decode loop from the buffer it writes into: on two buffers
of the same length the first `n` iterations fail together or return outputs that
agree on the rows `r < n` and keep the rows of their buffer elsewhere. -/
theorem single_query_loop_rel (expf : α → α)
    (get_kv_cache : List Nat → Nat → Option (Tensor α × Tensor α))
    (query : Tensor α) (num_heads num_kv_heads head_dim : Nat)
    (block_tables : List (List Nat)) (context_lens : List Nat) (scale : α)
    (out1 out2 : Tensor α) (hlen : out1.length = out2.length) (n : Nat) :
    ((List.range n).foldlM (fun o i => detail.single_query_seq expf get_kv_cache query
          num_heads num_kv_heads head_dim block_tables context_lens scale o i) out1 = none ∧
      (List.range n).foldlM (fun o i => detail.single_query_seq expf get_kv_cache query
          num_heads num_kv_heads head_dim block_tables context_lens scale o i) out2 = none) ∨
    ∃ o1 o2,
      (List.range n).foldlM (fun o i => detail.single_query_seq expf get_kv_cache query
          num_heads num_kv_heads head_dim block_tables context_lens scale o i) out1
        = some o1 ∧
      (List.range n).foldlM (fun o i => detail.single_query_seq expf get_kv_cache query
          num_heads num_kv_heads head_dim block_tables context_lens scale o i) out2
        = some o2 ∧
      o1.length = out1.length ∧ o2.length = out2.length ∧
      ∀ r, r < n → o1[r]? = o2[r]? := by
  induction n with
  | zero =>
    right
    exact ⟨out1, out2, rfl, rfl, rfl, rfl, fun r hr => absurd hr (by omega)⟩
  | succ n ih =>
    rw [List.range_succ, List.foldlM_append, List.foldlM_append]
    rcases ih with ⟨h1, h2⟩ | ⟨o1, o2, h1, h2, hl1, hl2, hrow⟩
    · left
      rw [h1, h2]
      exact ⟨rfl, rfl⟩
    · rw [h1, h2]
      simp only [Option.bind_eq_bind, Option.some_bind, List.foldlM_cons, List.foldlM_nil,
        single_query_seq_eq_attn]
      rcases detail.single_query_attn expf get_kv_cache query num_heads num_kv_heads head_dim
        block_tables context_lens scale n with _ | attn
      · left
        exact ⟨rfl, rfl⟩
      · right
        refine ⟨o1.set n (attn.headD []), o2.set n (attn.headD []), rfl, rfl, ?_, ?_, ?_⟩
        · rw [List.length_set, hl1]
        · rw [List.length_set, hl2]
        · intro r hr
          rw [List.getElem?_set, List.getElem?_set]
          by_cases hrn : n = r
          · rw [if_pos hrn, if_pos hrn, hl1, hl2, hlen]
          · rw [if_neg hrn, if_neg hrn]
            exact hrow r (by omega)

end TensorLemmas

/-! ## The module constructor -/

section Constructor

variable {α : Type}

/-- C9: for head counts `H_q, H_kv > 0` with `H_q % H_kv = 0` the constructor
succeeds, and the `kv_head_mapping` it registers has length `H_q` and maps every
query head `h < H_q` to `h / G`, where `G = H_q / H_kv`. -/
theorem kv_head_mapping_spec (H_q H_kv head_dim : Nat) (scale : α)
    (hq : 0 < H_q) (hkv : 0 < H_kv) (hdiv : H_q % H_kv = 0) :
    ∃ m, AttentionImpl.new H_q H_kv head_dim scale = some m ∧
      m.kv_head_mapping_.length = H_q ∧
      ∀ h, h < H_q → m.kv_head_mapping_[h]? = some (h / (H_q / H_kv)) := by
  have hmul : H_kv * (H_q / H_kv) = H_q := Nat.mul_div_cancel' (Nat.dvd_of_mod_eq_zero hdiv)
  have hG : 0 < H_q / H_kv := by
    rcases Nat.eq_zero_or_pos (H_q / H_kv) with h0 | h0
    · rw [h0] at hmul; omega
    · exact h0
  have hnew : AttentionImpl.new H_q H_kv head_dim scale = some
      { n_heads_ := H_q, n_kv_heads_ := H_kv, head_dim_ := head_dim, scale_ := scale,
        kv_head_mapping_ :=
          if H_q / H_kv > 1 then
            (List.range H_kv).flatMap fun h => List.replicate (H_q / H_kv) h
          else List.range H_kv } := by
    simp [AttentionImpl.new, Nat.pos_iff_ne_zero.mp hkv, hdiv]
  refine ⟨_, hnew, ?_, ?_⟩
  · by_cases h1 : H_q / H_kv > 1
    · simp only [h1, if_true, length_flatMap_replicate, List.length_range]
      exact hmul
    · have : H_q / H_kv = 1 := by omega
      simp only [h1, if_false, List.length_range]
      rw [this] at hmul; omega
  · intro h hh
    by_cases h1 : H_q / H_kv > 1
    · simp only [h1, if_true]
      rw [getElem?_flatMap_replicate _ hG]
      apply List.getElem?_range
      apply Nat.div_lt_of_lt_mul
      rw [Nat.mul_comm, hmul]; exact hh
    · have h1' : H_q / H_kv = 1 := by omega
      simp only [h1, if_false]
      rw [h1', Nat.div_one]
      apply List.getElem?_range
      rw [h1'] at hmul; omega

/-- Witness of C9 at `H_q = 4`, `H_kv = 2`. -/
theorem kv_head_mapping_spec_witness :
    ∃ m, AttentionImpl.new 4 2 8 (1 : ℚ) = some m ∧
      m.kv_head_mapping_.length = 4 ∧
      ∀ h, h < 4 → m.kv_head_mapping_[h]? = some (h / (4 / 2)) :=
  kv_head_mapping_spec 4 2 8 1 (by decide) (by decide) (by decide)

/-- C10: for `H_kv > 0`, constructing the module aborts exactly when
`H_q % H_kv ≠ 0`. -/
theorem ctor_fails_iff_indivisible (H_q H_kv head_dim : Nat) (scale : α)
    (hkv : 0 < H_kv) :
    AttentionImpl.new H_q H_kv head_dim scale = none ↔ H_q % H_kv ≠ 0 := by
  unfold AttentionImpl.new
  rw [if_neg (Nat.pos_iff_ne_zero.mp hkv)]
  by_cases h : H_q % H_kv = 0
  · simp [h]
  · simp [h]

/-- Witness of C10 at `H_q = 5`, `H_kv = 2`: the constructor aborts. -/
theorem ctor_fails_iff_indivisible_witness :
    AttentionImpl.new 5 2 8 (1 : ℚ) = none ↔ 5 % 2 ≠ 0 :=
  ctor_fails_iff_indivisible 5 2 8 1 (by decide)

end Constructor

/-! ## The backend dispatchers -/

section Dispatch

variable {α : Type} [LinearOrderedField α]

/-- C1: both dispatchers follow the dispatch table.  With the query in accelerator
memory the empty override (auto) and the override `cuda` run the accelerator
kernel and the override `slow` (reference) runs the reference kernel; with the
query in host memory every override runs the reference kernel. -/
theorem backend_selection {C P : Type} (ops : KVCacheOps α C P) (ext : Extern α P)
    (expf : α → α) (flag : String) (query key value : Tensor α)
    (n_heads n_kv_heads head_dim : Nat) (alibi_slopes : Option (List α))
    (cu_seq_lens : List Nat) (max_seq_len : Int) (scale : α) (output : Tensor α)
    (kv_cache : C) (kv_head_mapping : List Nat) (block_tables : List (List Nat))
    (context_lens : List Nat) (max_context_len : Int) :
    (detail.varlen_masked_self_attention ext expf true "" query key value n_heads
        n_kv_heads head_dim alibi_slopes cu_seq_lens max_seq_len scale output
      = detail.varlen_masked_self_attention_cuda ext query key value alibi_slopes
        cu_seq_lens max_seq_len scale output) ∧
    (detail.varlen_masked_self_attention ext expf true "cuda" query key value n_heads
        n_kv_heads head_dim alibi_slopes cu_seq_lens max_seq_len scale output
      = detail.varlen_masked_self_attention_cuda ext query key value alibi_slopes
        cu_seq_lens max_seq_len scale output) ∧
    (detail.varlen_masked_self_attention ext expf true "slow" query key value n_heads
        n_kv_heads head_dim alibi_slopes cu_seq_lens max_seq_len scale output
      = detail.varlen_masked_self_attention_generic expf query key value n_heads
        n_kv_heads head_dim alibi_slopes cu_seq_lens scale output) ∧
    (detail.varlen_masked_self_attention ext expf false flag query key value n_heads
        n_kv_heads head_dim alibi_slopes cu_seq_lens max_seq_len scale output
      = detail.varlen_masked_self_attention_generic expf query key value n_heads
        n_kv_heads head_dim alibi_slopes cu_seq_lens scale output) ∧
    (detail.single_query_masked_self_attention ops ext expf true "" kv_cache
        kv_head_mapping query n_heads head_dim block_tables context_lens
        max_context_len scale output
      = detail.single_query_masked_self_attention_cuda ops ext kv_cache kv_head_mapping
        query block_tables context_lens max_context_len scale output) ∧
    (detail.single_query_masked_self_attention ops ext expf true "cuda" kv_cache
        kv_head_mapping query n_heads head_dim block_tables context_lens
        max_context_len scale output
      = detail.single_query_masked_self_attention_cuda ops ext kv_cache kv_head_mapping
        query block_tables context_lens max_context_len scale output) ∧
    (detail.single_query_masked_self_attention ops ext expf true "slow" kv_cache
        kv_head_mapping query n_heads head_dim block_tables context_lens
        max_context_len scale output
      = detail.single_query_masked_self_attention_generic expf
        (ops.get_kv_cache kv_cache) query n_heads (ops.n_kv_heads kv_cache) head_dim
        block_tables context_lens scale output) ∧
    (detail.single_query_masked_self_attention ops ext expf false flag kv_cache
        kv_head_mapping query n_heads head_dim block_tables context_lens
        max_context_len scale output
      = detail.single_query_masked_self_attention_generic expf
        (ops.get_kv_cache kv_cache) query n_heads (ops.n_kv_heads kv_cache) head_dim
        block_tables context_lens scale output) := by
  have hslow : ("slow" : String).isEmpty = false := by decide
  have hne : ¬ ("slow" : String) = "cuda" := by decide
  have hempty : ("" : String).isEmpty = true := by decide
  refine ⟨?_, ?_, ?_, ?_, ?_, ?_, ?_, ?_⟩ <;>
    simp [detail.varlen_masked_self_attention, detail.single_query_masked_self_attention,
      hslow, hne, hempty]

/-- C11 (amended): an unrecognized override is not rejected.  Every override other
than the empty string and `cuda`, recognized or not, makes both dispatchers run the
reference kernel, whatever the residency of the query; the empty override behaves
as auto (the accelerator kernel for a query in accelerator memory). -/
theorem unrecognized_override_runs_reference {C P : Type} (ops : KVCacheOps α C P)
    (ext : Extern α P) (expf : α → α) (is_cuda : Bool) (flag : String)
    (query key value : Tensor α) (n_heads n_kv_heads head_dim : Nat)
    (alibi_slopes : Option (List α)) (cu_seq_lens : List Nat) (max_seq_len : Int)
    (scale : α) (output : Tensor α) (kv_cache : C) (kv_head_mapping : List Nat)
    (block_tables : List (List Nat)) (context_lens : List Nat) (max_context_len : Int)
    (hne : flag ≠ "") (hnc : flag ≠ "cuda") :
    detail.varlen_masked_self_attention ext expf is_cuda flag query key value n_heads
        n_kv_heads head_dim alibi_slopes cu_seq_lens max_seq_len scale output
      = detail.varlen_masked_self_attention_generic expf query key value n_heads
        n_kv_heads head_dim alibi_slopes cu_seq_lens scale output ∧
    detail.single_query_masked_self_attention ops ext expf is_cuda flag kv_cache
        kv_head_mapping query n_heads head_dim block_tables context_lens
        max_context_len scale output
      = detail.single_query_masked_self_attention_generic expf
        (ops.get_kv_cache kv_cache) query n_heads (ops.n_kv_heads kv_cache) head_dim
        block_tables context_lens scale output ∧
    detail.varlen_masked_self_attention ext expf true "" query key value n_heads
        n_kv_heads head_dim alibi_slopes cu_seq_lens max_seq_len scale output
      = detail.varlen_masked_self_attention_cuda ext query key value alibi_slopes
        cu_seq_lens max_seq_len scale output ∧
    detail.single_query_masked_self_attention ops ext expf true "" kv_cache
        kv_head_mapping query n_heads head_dim block_tables context_lens
        max_context_len scale output
      = detail.single_query_masked_self_attention_cuda ops ext kv_cache kv_head_mapping
        query block_tables context_lens max_context_len scale output := by
  have hemp : flag.isEmpty = false := by
    rcases h : flag.isEmpty with _ | _
    · rfl
    · exact absurd ((String.isEmpty_iff flag).mp h) hne
  have hempty : ("" : String).isEmpty = true := by decide
  refine ⟨?_, ?_, ?_, ?_⟩ <;>
    simp [detail.varlen_masked_self_attention, detail.single_query_masked_self_attention,
      hemp, hnc, hempty]

/-- Witness of C11 (amended) at the override `bogus`, in accelerator memory. -/
theorem unrecognized_override_runs_reference_witness :
    detail.varlen_masked_self_attention (noExtern ℚ (Nat × Tensor ℚ)) expQ true "bogus"
        [[[1]]] [[[0]]] [[[1]]] 1 1 1 none [0, 1] 1 1 [[[0]]]
      = detail.varlen_masked_self_attention_generic expQ [[[1]]] [[[0]]] [[[1]]] 1 1 1
        none [0, 1] 1 [[[0]]] ∧
    detail.single_query_masked_self_attention KVCache.ops (noExtern ℚ (Nat × Tensor ℚ)) expQ
        true "bogus" mixedCacheWritten [0] [[[1]]] 1 1 [[0, 1]] [3] 3 1 [[[0]]]
      = detail.single_query_masked_self_attention_generic expQ
        (KVCache.ops.get_kv_cache mixedCacheWritten) [[[1]]] 1
        (KVCache.ops.n_kv_heads mixedCacheWritten) 1 [[0, 1]] [3] 1 [[[0]]] ∧
    detail.varlen_masked_self_attention (noExtern ℚ (Nat × Tensor ℚ)) expQ true ""
        [[[1]]] [[[0]]] [[[1]]] 1 1 1 none [0, 1] 1 1 [[[0]]]
      = detail.varlen_masked_self_attention_cuda (noExtern ℚ (Nat × Tensor ℚ)) [[[1]]]
        [[[0]]] [[[1]]] none [0, 1] 1 1 [[[0]]] ∧
    detail.single_query_masked_self_attention KVCache.ops (noExtern ℚ (Nat × Tensor ℚ)) expQ
        true "" mixedCacheWritten [0] [[[1]]] 1 1 [[0, 1]] [3] 3 1 [[[0]]]
      = detail.single_query_masked_self_attention_cuda KVCache.ops
        (noExtern ℚ (Nat × Tensor ℚ)) mixedCacheWritten [0] [[[1]]] [[0, 1]] [3] 3 1
        [[[0]]] :=
  unrecognized_override_runs_reference KVCache.ops (noExtern ℚ (Nat × Tensor ℚ)) expQ true
    "bogus" [[[1]]] [[[0]]] [[[1]]] 1 1 1 none [0, 1] 1 1 [[[0]]] mixedCacheWritten [0]
    [[0, 1]] [3] 3 (by decide) (by decide)

/-- Counterexample to C11 as stated: with the query in accelerator memory the
override `bogus` is accepted by both dispatchers, which return the output of the
reference kernel instead of an error. -/
theorem unrecognized_override_counterexample :
    detail.varlen_masked_self_attention (noExtern ℚ (Nat × Tensor ℚ)) expQ true "bogus"
        [[[1]]] [[[0]]] [[[1]]] 1 1 1 none [0, 1] 1 1 [[[0]]] = some [[[1]]] ∧
    detail.single_query_masked_self_attention KVCache.ops (noExtern ℚ (Nat × Tensor ℚ)) expQ
        true "bogus" mixedCacheWritten [0] [[[1]]] 1 1 [[0, 1]] [3] 3 1 [[[0]]]
      = some [[[32 / 5]]] := by
  decide!

/-- C12 (amended): when the accelerator backend is explicitly selected (override
`cuda`) and the query is in host memory, both dispatchers run the reference
kernel and return its result. -/
theorem accelerator_on_host_runs_reference {C P : Type} (ops : KVCacheOps α C P)
    (ext : Extern α P) (expf : α → α) (query key value : Tensor α)
    (n_heads n_kv_heads head_dim : Nat) (alibi_slopes : Option (List α))
    (cu_seq_lens : List Nat) (max_seq_len : Int) (scale : α) (output : Tensor α)
    (kv_cache : C) (kv_head_mapping : List Nat) (block_tables : List (List Nat))
    (context_lens : List Nat) (max_context_len : Int) :
    detail.varlen_masked_self_attention ext expf false "cuda" query key value n_heads
        n_kv_heads head_dim alibi_slopes cu_seq_lens max_seq_len scale output
      = detail.varlen_masked_self_attention_generic expf query key value n_heads
        n_kv_heads head_dim alibi_slopes cu_seq_lens scale output ∧
    detail.single_query_masked_self_attention ops ext expf false "cuda" kv_cache
        kv_head_mapping query n_heads head_dim block_tables context_lens
        max_context_len scale output
      = detail.single_query_masked_self_attention_generic expf
        (ops.get_kv_cache kv_cache) query n_heads (ops.n_kv_heads kv_cache) head_dim
        block_tables context_lens scale output := by
  constructor <;>
    simp [detail.varlen_masked_self_attention, detail.single_query_masked_self_attention]

/-- Counterexample to C12 as stated: with the override `cuda` and the query in host
memory both dispatchers produce an output (that of the reference kernel), although
the accelerator kernels of this instance always raise. -/
theorem accelerator_on_host_counterexample :
    detail.varlen_masked_self_attention (noExtern ℚ (Nat × Tensor ℚ)) expQ false "cuda"
        [[[1]]] [[[0]]] [[[1]]] 1 1 1 none [0, 1] 1 1 [[[0]]] = some [[[1]]] ∧
    detail.single_query_masked_self_attention KVCache.ops (noExtern ℚ (Nat × Tensor ℚ)) expQ
        false "cuda" mixedCacheWritten [0] [[[1]]] 1 1 [[0, 1]] [3] 3 1 [[[0]]]
      = some [[[32 / 5]]] := by
  decide!

end Dispatch

/-! ## The reference prefill kernel -/

section Prefill

variable {α : Type} [LinearOrderedField α]

/-- C4 (amended to `i < j`): in the reference prefill kernel, output row `lo + i`
is independent of `K[lo + j]` and `V[lo + j]` for all positions `i < j`: replacing
these two rows by any other values leaves the row unchanged (and does not change
whether the kernel aborts).  This holds for every offset `lo`, in particular for
the start of each subsequence. -/
theorem prefill_causality (expf : α → α) (query key value : Tensor α)
    (n_heads n_kv_heads head_dim : Nat) (alibi_slopes : Option (List α))
    (cu_seq_lens : List Nat) (scale : α) (output : Tensor α) (lo i j : Nat)
    (hij : i < j) (kj vj : List (List α)) :
    (detail.varlen_masked_self_attention_generic expf query (key.set (lo + j) kj)
        (value.set (lo + j) vj) n_heads n_kv_heads head_dim alibi_slopes cu_seq_lens
        scale output).map (fun o => o[lo + i]?) =
      (detail.varlen_masked_self_attention_generic expf query key value n_heads
        n_kv_heads head_dim alibi_slopes cu_seq_lens scale output).map
        (fun o => o[lo + i]?) := by
  unfold detail.varlen_masked_self_attention_generic
  rw [repeat_kv_set]
  rcases detail.repeat_kv key value n_heads n_kv_heads with _ | kv
  · rfl
  · simp only [Option.map_some', Option.some_bind]
    exact varlen_loop_row_set expf query kv.1 kv.2 alibi_slopes cu_seq_lens scale n_heads
      head_dim (lo + i) (lo + j) (by omega) _ _ _ output output rfl

/-- Witness of C4: one prompt of length 2, the key and value of position 1 replaced;
output row 0 is the same. -/
theorem prefill_causality_witness :
    (detail.varlen_masked_self_attention_generic expQ [[[1]], [[1]]]
        ([[[0]], [[1]]].set (0 + 1) [[5]]) ([[[1]], [[2]]].set (0 + 1) [[7]])
        1 1 1 none [0, 2] 1 [[[0]], [[0]]]).map (fun o => o[0 + 0]?) =
      (detail.varlen_masked_self_attention_generic expQ [[[1]], [[1]]]
        [[[0]], [[1]]] [[[1]], [[2]]] 1 1 1 none [0, 2] 1 [[[0]], [[0]]]).map
        (fun o => o[0 + 0]?) :=
  prefill_causality expQ [[[1]], [[1]]] [[[0]], [[1]]] [[[1]], [[2]]] 1 1 1 none [0, 2] 1
    [[[0]], [[0]]] 0 0 1 (by decide) [[5]] [[7]]

/-- Counterexample to C4 as stated (`i ≤ j`, here `i = j = 0`): for one prompt of
length 1 the output row 0 is `V[0]`, so replacing `K[0]` and `V[0]` changes it. -/
theorem prefill_causality_diagonal_counterexample :
    detail.varlen_masked_self_attention_generic expQ [[[1]]] [[[0]]] [[[1]]]
        1 1 1 none [0, 1] 1 [[[0]]] = some [[[1]]] ∧
    detail.varlen_masked_self_attention_generic expQ [[[1]]]
        ([[[0]]].set (0 + 0) [[3]]) ([[[1]]].set (0 + 0) [[2]])
        1 1 1 none [0, 1] 1 [[[0]]] = some [[[2]]] ∧
    (detail.varlen_masked_self_attention_generic expQ [[[1]]]
        ([[[0]]].set (0 + 0) [[3]]) ([[[1]]].set (0 + 0) [[2]])
        1 1 1 none [0, 1] 1 [[[0]]]).map (fun o => o[0 + 0]?) ≠
      (detail.varlen_masked_self_attention_generic expQ [[[1]]] [[[0]]] [[[1]]]
        1 1 1 none [0, 1] 1 [[[0]]]).map (fun o => o[0 + 0]?) := by
  decide!

/-- C5: in the reference prefill kernel, for every subsequence `[lo, hi)` inside the
token range, every head `h` and all positions `i < j < L` (so `L > 1`), the
post-softmax attention weight from query position `i` to key position `j` exists
and is exactly 0, with or without ALiBi slopes (of size `H_q`). -/
theorem masked_weight_zero (expf : α → α) (query key value : Tensor α)
    (n_heads n_kv_heads : Nat) (alibi_slopes : Option (List α)) (cu_seq_lens : List Nat)
    (scale : α) (idx h i j : Nat) (hdiv : n_heads % n_kv_heads = 0)
    (hsl : ∀ sl, alibi_slopes = some sl → sl.length = n_heads)
    (hq : cu_seq_lens.getD (idx + 1) 0 ≤ query.length)
    (hk : cu_seq_lens.getD (idx + 1) 0 ≤ key.length)
    (hh : h < n_heads) (hij : i < j)
    (hj : j < cu_seq_lens.getD (idx + 1) 0 - cu_seq_lens.getD idx 0) :
    ∃ w, detail.varlen_seq_weights expf query key value n_heads n_kv_heads alibi_slopes
        cu_seq_lens scale idx = some w ∧
      ((w.getD h []).getD i [])[j]? = some 0 := by
  obtain ⟨sc, hsc, hent⟩ := varlen_seq_scores_entry query key value n_heads n_kv_heads
    alibi_slopes cu_seq_lens scale idx h i j hdiv hsl hq hk hh (by omega) hj
  refine ⟨detail.softmax expf sc, by simp [detail.varlen_seq_weights, hsc], ?_⟩
  have hL : 1 < cu_seq_lens.getD (idx + 1) 0 - cu_seq_lens.getD idx 0 := by omega
  have hle : i + 1 ≤ j := hij
  rw [getD_softmax, getElem?_softmax_row, hent, if_pos hL, if_pos hle, Score.negInf_add,
    Score.add_negInf]
  simp [Score.exp]

/-- Witness of C5: one prompt of length 2 with two query heads sharing one KV head;
the weight from position 0 to position 1 is 0. -/
theorem masked_weight_zero_witness :
    ∃ w, detail.varlen_seq_weights expQ [[[1], [2]], [[1], [0]]] [[[1]], [[3]]]
        [[[1]], [[2]]] 2 1 (some [1 / 2, 1]) [0, 2] 1 0 = some w ∧
      ((w.getD 1 []).getD 0 [])[1]? = some 0 :=
  masked_weight_zero expQ [[[1], [2]], [[1], [0]]] [[[1]], [[3]]] [[[1]], [[2]]] 2 1
    (some [1 / 2, 1]) [0, 2] 1 0 1 0 1 (by decide)
    (by intro sl hsl; cases hsl; rfl) (by decide) (by decide) (by decide) (by decide)
    (by decide)

/-- C6: for `H_kv > 0` and `H_q % H_kv = 0`, with `G = H_q / H_kv`, the reference
prefill kernel on the original `K`, `V` (`H_kv` heads) gives exactly the output it
gives on the `H_q`-head tensors obtained by repeating every KV head `G` times
consecutively; in these, head `h < H_q` is KV head `h / G`. -/
theorem gqa_equivalence (expf : α → α) (query key value : Tensor α)
    (H_q H_kv head_dim : Nat) (alibi_slopes : Option (List α)) (cu_seq_lens : List Nat)
    (scale : α) (output : Tensor α) (hkv : 0 < H_kv) (hdiv : H_q % H_kv = 0) :
    detail.varlen_masked_self_attention_generic expf query key value H_q H_kv head_dim
        alibi_slopes cu_seq_lens scale output =
      detail.varlen_masked_self_attention_generic expf query
        (detail.repeat_interleave key (H_q / H_kv))
        (detail.repeat_interleave value (H_q / H_kv)) H_q H_q head_dim
        alibi_slopes cu_seq_lens scale output ∧
    ∀ t h, h < H_q →
      ((detail.repeat_interleave key (H_q / H_kv)).getD t []).getD h [] =
        (key.getD t []).getD (h / (H_q / H_kv)) [] ∧
      ((detail.repeat_interleave value (H_q / H_kv)).getD t []).getD h [] =
        (value.getD t []).getD (h / (H_q / H_kv)) [] := by
  constructor
  · unfold detail.varlen_masked_self_attention_generic detail.repeat_kv
    by_cases hne : H_q ≠ H_kv
    · simp [hne, hdiv]
    · have heq : H_q = H_kv := by omega
      subst heq
      simp [Nat.div_self hkv, repeat_interleave_one]
  · intro t h hh
    have hG : 0 < H_q / H_kv := by
      rcases Nat.eq_zero_or_pos (H_q / H_kv) with h0 | h0
      · have := Nat.mul_div_cancel' (Nat.dvd_of_mod_eq_zero hdiv)
        rw [h0] at this; omega
      · exact h0
    exact ⟨getD_repeat_interleave key _ t h hG, getD_repeat_interleave value _ t h hG⟩

/-- Witness of C6: scenario S2 (`H_q = 4`, `H_kv = 2`, `D = 2`, one prompt of
length 2). -/
theorem gqa_equivalence_witness :
    detail.varlen_masked_self_attention_generic expQ
        [[[1, 0], [0, 1], [1, 1], [2, 0]], [[0, 1], [1, 0], [1, 2], [0, 0]]]
        [[[1, 2], [0, 1]], [[2, 1], [1, 1]]] [[[1, 0], [0, 3]], [[5, 1], [2, 2]]]
        4 2 2 none [0, 2] (1 / 2) [[], []] =
      detail.varlen_masked_self_attention_generic expQ
        [[[1, 0], [0, 1], [1, 1], [2, 0]], [[0, 1], [1, 0], [1, 2], [0, 0]]]
        (detail.repeat_interleave [[[1, 2], [0, 1]], [[2, 1], [1, 1]]] (4 / 2))
        (detail.repeat_interleave [[[1, 0], [0, 3]], [[5, 1], [2, 2]]] (4 / 2)) 4 4 2
        none [0, 2] (1 / 2) [[], []] ∧
    ∀ t h, h < 4 →
      ((detail.repeat_interleave [[[(1 : ℚ), 2], [0, 1]], [[2, 1], [1, 1]]] (4 / 2)).getD
          t []).getD h [] =
        (([[[(1 : ℚ), 2], [0, 1]], [[2, 1], [1, 1]]] : Tensor ℚ).getD t []).getD
          (h / (4 / 2)) [] ∧
      ((detail.repeat_interleave [[[(1 : ℚ), 0], [0, 3]], [[5, 1], [2, 2]]] (4 / 2)).getD
          t []).getD h [] =
        (([[[(1 : ℚ), 0], [0, 3]], [[5, 1], [2, 2]]] : Tensor ℚ).getD t []).getD
          (h / (4 / 2)) [] :=
  gqa_equivalence expQ _ _ _ 4 2 2 none [0, 2] (1 / 2) [[], []] (by decide) (by decide)

/-- C7: in the reference prefill kernel with ALiBi slopes (of size `H_q`) supplied,
for every subsequence `[lo, hi)` inside the token range of length `L ≥ 1`
(including `L = 1`), every head `h` and all `i, j < L`, the pre-softmax score at
`(h, i, j)` exists and equals
`s * <Q[lo+i,h,:], K[lo+j,h/G,:]> + slope[h] * (j - i)` plus the causal mask
(0 for `j ≤ i`, `-inf` for `j > i`). -/
theorem alibi_pre_softmax_score (query key value : Tensor α) (n_heads n_kv_heads : Nat)
    (slopes : List α) (cu_seq_lens : List Nat) (scale : α) (idx h i j : Nat)
    (hdiv : n_heads % n_kv_heads = 0) (hsl : slopes.length = n_heads)
    (hq : cu_seq_lens.getD (idx + 1) 0 ≤ query.length)
    (hk : cu_seq_lens.getD (idx + 1) 0 ≤ key.length)
    (hh : h < n_heads)
    (hi : i < cu_seq_lens.getD (idx + 1) 0 - cu_seq_lens.getD idx 0)
    (hj : j < cu_seq_lens.getD (idx + 1) 0 - cu_seq_lens.getD idx 0) :
    ∃ sc, detail.varlen_seq_scores query key value n_heads n_kv_heads (some slopes)
        cu_seq_lens scale idx = some sc ∧
      ((sc.getD h []).getD i [])[j]? = some
        (Score.add
          (Score.fin (scale * detail.dot
              ((query.getD (cu_seq_lens.getD idx 0 + i) []).getD h [])
              ((key.getD (cu_seq_lens.getD idx 0 + j) []).getD
                (h / (n_heads / n_kv_heads)) [])
            + slopes.getD h 0 * ((j : α) - (i : α))))
          (if j ≤ i then Score.fin 0 else Score.negInf)) := by
  obtain ⟨sc, hsc, hent⟩ := varlen_seq_scores_entry query key value n_heads n_kv_heads
    (some slopes) cu_seq_lens scale idx h i j hdiv
    (by intro sl hs; cases hs; exact hsl) hq hk hh hi hj
  refine ⟨sc, hsc, ?_⟩
  rw [hent, dot_mul_scalar]
  by_cases hL : 1 < cu_seq_lens.getD (idx + 1) 0 - cu_seq_lens.getD idx 0
  · rw [if_pos hL]
    by_cases hji : j ≤ i
    · have hn : ¬ i + 1 ≤ j := by omega
      simp only [hji, hn, if_true, if_false, Score.add, Option.map_some', Option.getD_some]
      congr 2
      ring
    · have hp : i + 1 ≤ j := by omega
      simp only [hji, hp, if_true, if_false, Score.negInf_add, Score.add_negInf]
  · rw [if_neg hL]
    have hi0 : i = 0 := by omega
    have hj0 : j = 0 := by omega
    subst hi0 hj0
    simp [Score.add]

/-- Witness of C7: scenario S5 (`H_q = 2`, one prompt of length 4, slopes
`[1/2, 1]`), the score at `(h, i, j) = (1, 2, 1)`. -/
theorem alibi_pre_softmax_score_witness :
    ∃ sc, detail.varlen_seq_scores
        [[[1], [2]], [[1], [0]], [[3], [1]], [[0], [1]]]
        [[[1], [1]], [[3], [2]], [[1], [0]], [[2], [2]]]
        [[[1], [1]], [[3], [2]], [[1], [0]], [[2], [2]]] 2 2 (some [1 / 2, 1])
        [0, 4] (1 / 2 : ℚ) 0 = some sc ∧
      ((sc.getD 1 []).getD 2 [])[1]? = some
        (Score.add
          (Score.fin ((1 / 2 : ℚ) * detail.dot
              ((([[[1], [2]], [[1], [0]], [[3], [1]], [[0], [1]]] : Tensor ℚ).getD
                (([0, 4] : List Nat).getD 0 0 + 2) []).getD 1 [])
              ((([[[1], [1]], [[3], [2]], [[1], [0]], [[2], [2]]] : Tensor ℚ).getD
                (([0, 4] : List Nat).getD 0 0 + 1) []).getD (1 / (2 / 2)) [])
            + ([1 / 2, 1] : List ℚ).getD 1 0 * (((1 : Nat) : ℚ) - ((2 : Nat) : ℚ))))
          (if 1 ≤ 2 then Score.fin 0 else Score.negInf)) :=
  alibi_pre_softmax_score _ _ _ 2 2 [1 / 2, 1] [0, 4] (1 / 2) 0 1 2 1 (by decide)
    (by decide) (by decide) (by decide) (by decide) (by decide) (by decide)

/-- C18: for nondecreasing `cu_seq_lens` (of length `S + 1`) within the token range,
the reference prefill kernel returns an output in which every row `r` outside
`[cu_seq_lens[0], cu_seq_lens[S])` is the row of the caller-provided buffer, and
every row inside is overwritten: it is row `r - cu_seq_lens[i]` of the attention of
the sequence `i` containing it, the same for every other buffer of that length.
Hence all `P` rows of the buffer are written exactly when `cu_seq_lens[0] = 0` and
`cu_seq_lens[S] = P`. -/
theorem prefill_frame (expf : α → α) (query key value : Tensor α)
    (n_heads n_kv_heads head_dim : Nat) (alibi_slopes : Option (List α))
    (cu_seq_lens : List Nat) (scale : α) (output : Tensor α)
    (hcu : cu_seq_lens.Pairwise (· ≤ ·))
    (hdiv : n_heads % n_kv_heads = 0)
    (hsl : ∀ sl, alibi_slopes = some sl → sl.length = n_heads)
    (hq : cu_seq_lens.getD (cu_seq_lens.length - 1) 0 ≤ query.length)
    (hout : cu_seq_lens.getD (cu_seq_lens.length - 1) 0 ≤ output.length) :
    ∃ o, detail.varlen_masked_self_attention_generic expf query key value n_heads
        n_kv_heads head_dim alibi_slopes cu_seq_lens scale output = some o ∧
      o.length = output.length ∧
      (∀ r, ¬ (cu_seq_lens.getD 0 0 ≤ r ∧
          r < cu_seq_lens.getD (cu_seq_lens.length - 1) 0) → o[r]? = output[r]?) ∧
      (∀ r, cu_seq_lens.getD 0 0 ≤ r → r < cu_seq_lens.getD (cu_seq_lens.length - 1) 0 →
        (∃ i kv attn, i < cu_seq_lens.length - 1 ∧
          cu_seq_lens.getD i 0 ≤ r ∧ r < cu_seq_lens.getD (i + 1) 0 ∧
          detail.repeat_kv key value n_heads n_kv_heads = some kv ∧
          detail.varlen_seq_attn expf query kv.1 kv.2 alibi_slopes cu_seq_lens scale
            n_heads head_dim i = some attn ∧
          r - cu_seq_lens.getD i 0 < attn.length ∧
          o[r]? = attn[r - cu_seq_lens.getD i 0]?) ∧
        ∀ output' : Tensor α, output'.length = output.length →
          ∃ o', detail.varlen_masked_self_attention_generic expf query key value n_heads
              n_kv_heads head_dim alibi_slopes cu_seq_lens scale output' = some o' ∧
            o'[r]? = o[r]?) ∧
      ((∀ r, r < output.length → cu_seq_lens.getD 0 0 ≤ r ∧
          r < cu_seq_lens.getD (cu_seq_lens.length - 1) 0) ↔
        (cu_seq_lens.getD 0 0 = 0 ∧
          cu_seq_lens.getD (cu_seq_lens.length - 1) 0 = output.length)) := by
  obtain ⟨kv, o, hkv, ho, hlen, hrow⟩ := varlen_generic_rows expf query key value n_heads
    n_kv_heads head_dim alibi_slopes cu_seq_lens scale output hdiv hsl
  have hmono : ∀ a b, a ≤ b → b ≤ cu_seq_lens.length - 1 →
      cu_seq_lens.getD a 0 ≤ cu_seq_lens.getD b 0 := by
    intro a b hab hb
    by_cases hb' : b < cu_seq_lens.length
    · exact getD_mono_of_pairwise cu_seq_lens hcu a b hab hb'
    · have h0 : cu_seq_lens.length = 0 := by omega
      have hnil : cu_seq_lens = [] := List.eq_nil_of_length_eq_zero h0
      subst hnil
      simp
  -- the row that the kernel leaves at a position inside the range
  have hhit : ∀ (out : Tensor α) (r : Nat), cu_seq_lens.getD 0 0 ≤ r →
      r < cu_seq_lens.getD (cu_seq_lens.length - 1) 0 → r < out.length →
      ∃ i attn, i < cu_seq_lens.length - 1 ∧
        cu_seq_lens.getD i 0 ≤ r ∧ r < cu_seq_lens.getD (i + 1) 0 ∧
        detail.varlen_seq_attn expf query kv.1 kv.2 alibi_slopes cu_seq_lens scale
          n_heads head_dim i = some attn ∧
        r - cu_seq_lens.getD i 0 < attn.length ∧
        out[r]?.map (detail.varlen_row_after
          (fun i => (detail.varlen_seq_attn expf query kv.1 kv.2 alibi_slopes cu_seq_lens
            scale n_heads head_dim i).getD []) cu_seq_lens r
          (List.range (cu_seq_lens.length - 1))) = attn[r - cu_seq_lens.getD i 0]? := by
    intro out r h1 h2 h3
    obtain ⟨i, hi, hlo, hhi⟩ := exists_seq_of_mem cu_seq_lens r _ h1 h2
    obtain ⟨attn, hattn, hal⟩ := varlen_seq_attn_isSome expf query kv.1 kv.2 alibi_slopes
      cu_seq_lens scale n_heads head_dim i hsl
    have hle : cu_seq_lens.getD (i + 1) 0 ≤ query.length :=
      Nat.le_trans (hmono (i + 1) _ (by omega) (Nat.le_refl _)) hq
    have hrl : r - cu_seq_lens.getD i 0 < attn.length := by
      rw [hal, length_slice, Nat.min_eq_left hle]; omega
    refine ⟨i, attn, hi, hlo, hhi, hattn, hrl, ?_⟩
    rw [List.getElem?_eq_getElem h3, Option.map_some', List.getElem?_eq_getElem hrl]
    congr 1
    apply varlen_row_after_hit _ _ _ _ i _ _ hmono hi hlo hhi
    simp only [hattn, Option.getD_some]
    exact List.getElem?_eq_getElem hrl
  refine ⟨o, ho, hlen, ?_, ?_, ?_⟩
  · intro r hr
    rw [hrow r]
    rcases hor : output[r]? with _ | row
    · rfl
    · rw [Option.map_some', varlen_row_after_frame]
      intro i hi hin
      rw [List.mem_range] at hi
      apply hr
      exact ⟨Nat.le_trans (hmono 0 i (Nat.zero_le _) (by omega)) hin.1,
        Nat.lt_of_lt_of_le hin.2 (hmono (i + 1) _ (by omega) (Nat.le_refl _))⟩
  · intro r h1 h2
    have h3 : r < output.length := by omega
    obtain ⟨i, attn, hi, hlo, hhi, hattn, hrl, hval⟩ := hhit output r h1 h2 h3
    refine ⟨⟨i, kv, attn, hi, hlo, hhi, hkv, hattn, hrl, by rw [hrow r, hval]⟩, ?_⟩
    intro output' hlen'
    obtain ⟨kv', o', hkv', ho', -, hrow'⟩ := varlen_generic_rows expf query key value
      n_heads n_kv_heads head_dim alibi_slopes cu_seq_lens scale output' hdiv hsl
    have hkk : kv' = kv := by
      rw [hkv] at hkv'
      exact (Option.some.inj hkv').symm
    subst hkk
    refine ⟨o', ho', ?_⟩
    obtain ⟨i', attn', -, hlo', -, hattn', -, hval'⟩ := hhit output' r h1 h2 (by omega)
    -- both buffers end with the row written by the last sequence containing `r`
    have e1 : o'[r]? = some ((detail.varlen_row_after
        (fun i => (detail.varlen_seq_attn expf query kv'.1 kv'.2 alibi_slopes cu_seq_lens
          scale n_heads head_dim i).getD []) cu_seq_lens r
        (List.range (cu_seq_lens.length - 1))) (output'.getD r [])) := by
      rw [hrow' r, List.getD_eq_getElem?_getD output',
        List.getElem?_eq_getElem (show r < output'.length by omega)]
      rfl
    have e2 : o[r]? = some ((detail.varlen_row_after
        (fun i => (detail.varlen_seq_attn expf query kv'.1 kv'.2 alibi_slopes cu_seq_lens
          scale n_heads head_dim i).getD []) cu_seq_lens r
        (List.range (cu_seq_lens.length - 1))) (output.getD r [])) := by
      rw [hrow r, List.getD_eq_getElem?_getD output, List.getElem?_eq_getElem h3]
      rfl
    rw [e1, e2]
    congr 1
    have hx : ((fun i => (detail.varlen_seq_attn expf query kv'.1 kv'.2 alibi_slopes
        cu_seq_lens scale n_heads head_dim i).getD []) i)[r - cu_seq_lens.getD i 0]? =
        some (attn.getD (r - cu_seq_lens.getD i 0) []) := by
      simp only [hattn, Option.getD_some]
      rw [List.getD_eq_getElem?_getD attn, List.getElem?_eq_getElem hrl, Option.getD_some]
    rw [varlen_row_after_hit _ _ _ _ i _ _ hmono hi hlo hhi hx,
      varlen_row_after_hit _ _ _ _ i _ _ hmono hi hlo hhi hx]
  · have h0S := hmono 0 (cu_seq_lens.length - 1) (Nat.zero_le _) (Nat.le_refl _)
    constructor
    · intro hall
      by_cases hP : output.length = 0
      · omega
      · have ha := hall 0 (by omega)
        have hb := hall (output.length - 1) (by omega)
        omega
    · rintro ⟨h0, hS⟩ r hr
      omega

/-- Witness of C18: two prompts covering rows `[1, 4)` of a buffer of five rows;
rows 0 and 4 keep the caller's contents. -/
theorem prefill_frame_witness :
    ∃ o, detail.varlen_masked_self_attention_generic expQ
        [[[1]], [[1]], [[2]], [[1]], [[3]]] [[[1]], [[0]], [[1]], [[2]], [[1]]]
        [[[4]], [[1]], [[2]], [[8]], [[5]]] 1 1 1 none [1, 3, 4] 1
        [[[9]], [[9]], [[9]], [[9]], [[9]]] = some o ∧
      o.length = ([[[9]], [[9]], [[9]], [[9]], [[9]]] : Tensor ℚ).length ∧
      (∀ r, ¬ (([1, 3, 4] : List Nat).getD 0 0 ≤ r ∧
          r < ([1, 3, 4] : List Nat).getD (([1, 3, 4] : List Nat).length - 1) 0) →
        o[r]? = ([[[9]], [[9]], [[9]], [[9]], [[9]]] : Tensor ℚ)[r]?) ∧
      (∀ r, ([1, 3, 4] : List Nat).getD 0 0 ≤ r →
        r < ([1, 3, 4] : List Nat).getD (([1, 3, 4] : List Nat).length - 1) 0 →
        (∃ i kv attn, i < ([1, 3, 4] : List Nat).length - 1 ∧
          ([1, 3, 4] : List Nat).getD i 0 ≤ r ∧ r < ([1, 3, 4] : List Nat).getD (i + 1) 0 ∧
          detail.repeat_kv [[[1]], [[0]], [[1]], [[2]], [[1]]]
            [[[4]], [[1]], [[2]], [[8]], [[5]]] 1 1 = some kv ∧
          detail.varlen_seq_attn expQ [[[1]], [[1]], [[2]], [[1]], [[3]]] kv.1 kv.2 none
            [1, 3, 4] 1 1 1 i = some attn ∧
          r - ([1, 3, 4] : List Nat).getD i 0 < attn.length ∧
          o[r]? = attn[r - ([1, 3, 4] : List Nat).getD i 0]?) ∧
        ∀ output' : Tensor ℚ,
          output'.length = ([[[9]], [[9]], [[9]], [[9]], [[9]]] : Tensor ℚ).length →
          ∃ o', detail.varlen_masked_self_attention_generic expQ
              [[[1]], [[1]], [[2]], [[1]], [[3]]] [[[1]], [[0]], [[1]], [[2]], [[1]]]
              [[[4]], [[1]], [[2]], [[8]], [[5]]] 1 1 1 none [1, 3, 4] 1 output' = some o' ∧
            o'[r]? = o[r]?) ∧
      ((∀ r, r < ([[[9]], [[9]], [[9]], [[9]], [[9]]] : Tensor ℚ).length →
          ([1, 3, 4] : List Nat).getD 0 0 ≤ r ∧
          r < ([1, 3, 4] : List Nat).getD (([1, 3, 4] : List Nat).length - 1) 0) ↔
        (([1, 3, 4] : List Nat).getD 0 0 = 0 ∧
          ([1, 3, 4] : List Nat).getD (([1, 3, 4] : List Nat).length - 1) 0 =
            ([[[9]], [[9]], [[9]], [[9]], [[9]]] : Tensor ℚ).length)) :=
  prefill_frame expQ [[[1]], [[1]], [[2]], [[1]], [[3]]] [[[1]], [[0]], [[1]], [[2]], [[1]]]
    [[[4]], [[1]], [[2]], [[8]], [[5]]] 1 1 1 none [1, 3, 4] 1
    [[[9]], [[9]], [[9]], [[9]], [[9]]] (by decide) (by decide)
    (by intro sl h; cases h) (by decide) (by decide)

/-- C17: for nondecreasing `cu_seq_lens`, the output rows of subsequence `i` (token
range `[cu_seq_lens[i], cu_seq_lens[i+1])`) of the reference prefill kernel depend
only on the rows of `Q`, `K`, `V` inside the range: replacing the rows of `Q`, `K`
and `V` at a token `c` outside the range leaves every output row `r` of the range
unchanged (and does not change whether the kernel aborts). -/
theorem prefill_sequence_isolation (expf : α → α) (query key value : Tensor α)
    (n_heads n_kv_heads head_dim : Nat) (alibi_slopes : Option (List α))
    (cu_seq_lens : List Nat) (scale : α) (output : Tensor α) (i r c : Nat)
    (qc kc vc : List (List α))
    (hcu : cu_seq_lens.Pairwise (· ≤ ·)) (hi : i + 1 < cu_seq_lens.length)
    (hlo : cu_seq_lens.getD i 0 ≤ r) (hhi : r < cu_seq_lens.getD (i + 1) 0)
    (hc : ¬ (cu_seq_lens.getD i 0 ≤ c ∧ c < cu_seq_lens.getD (i + 1) 0)) :
    (detail.varlen_masked_self_attention_generic expf (query.set c qc) (key.set c kc)
        (value.set c vc) n_heads n_kv_heads head_dim alibi_slopes cu_seq_lens
        scale output).map (fun o => o[r]?) =
      (detail.varlen_masked_self_attention_generic expf query key value n_heads
        n_kv_heads head_dim alibi_slopes cu_seq_lens scale output).map
        (fun o => o[r]?) := by
  have hsep : ∀ idx ∈ List.range (cu_seq_lens.length - 1),
      (cu_seq_lens.getD idx 0 ≤ r ∧ r < cu_seq_lens.getD (idx + 1) 0) →
      ¬ (cu_seq_lens.getD idx 0 ≤ c ∧ c < cu_seq_lens.getD (idx + 1) 0) := by
    intro idx hidx hin
    rw [List.mem_range] at hidx
    have heq : idx = i := by
      rcases Nat.lt_trichotomy idx i with hlt | heq | hgt
      · have := getD_mono_of_pairwise cu_seq_lens hcu (idx + 1) i (by omega) (by omega)
        omega
      · exact heq
      · have := getD_mono_of_pairwise cu_seq_lens hcu (i + 1) idx (by omega) (by omega)
        omega
    rw [heq]
    exact hc
  unfold detail.varlen_masked_self_attention_generic
  rw [repeat_kv_set]
  rcases detail.repeat_kv key value n_heads n_kv_heads with _ | kv
  · simp only [Option.map_none', Option.none_bind]
  · simp only [Option.map_some', Option.some_bind]
    exact varlen_loop_row_outside expf query kv.1 kv.2 alibi_slopes cu_seq_lens scale n_heads
      head_dim r c qc _ _ _ hsep output output rfl

/-- Witness of C17: two prompts `[0, 2)` and `[2, 3)`; token 2 is replaced and row 1
of the first prompt is unchanged. -/
theorem prefill_sequence_isolation_witness :
    (detail.varlen_masked_self_attention_generic expQ
        (([[[1]], [[1]], [[2]]] : Tensor ℚ).set 2 [[7]]) ([[[0]], [[1]], [[3]]].set 2 [[5]])
        ([[[1]], [[2]], [[8]]].set 2 [[6]]) 1 1 1 none [0, 2, 3] 1
        [[[0]], [[0]], [[0]]]).map (fun o => o[1]?) =
      (detail.varlen_masked_self_attention_generic expQ [[[1]], [[1]], [[2]]]
        [[[0]], [[1]], [[3]]] [[[1]], [[2]], [[8]]] 1 1 1 none [0, 2, 3] 1
        [[[0]], [[0]], [[0]]]).map (fun o => o[1]?) :=
  prefill_sequence_isolation expQ [[[1]], [[1]], [[2]]] [[[0]], [[1]], [[3]]]
    [[[1]], [[2]], [[8]]] 1 1 1 none [0, 2, 3] 1 [[[0]], [[0]], [[0]]] 0 1 2
    [[7]] [[5]] [[6]] (by decide) (by decide) (by decide) (by decide) (by decide)

/-- C16: in the reference prefill kernel without ALiBi slopes the mask of a sequence
of length `L` is absent when `L ≤ 1`, and for `L > 1` it is 0 on and below the
diagonal and `-inf` strictly above (for every head it is broadcast to).  For
nondecreasing `cu_seq_lens`, every sequence `[lo, hi)` inside the token range, and
every position `i < L`, output row `lo + i` is causal attention: at head `h` it is
`sum over j ≤ i of w_ij * V[lo+j, h/G]`, where `w_i` is the softmax over `j ≤ i` of
`s * <Q[lo+i,h,:], K[lo+j,h/G,:]>`. -/
theorem prefill_causal_attention (expf : α → α) (query key value : Tensor α)
    (n_heads n_kv_heads head_dim : Nat) (cu_seq_lens : List Nat) (scale : α)
    (output : Tensor α) (idx i : Nat)
    (hcu : cu_seq_lens.Pairwise (· ≤ ·)) (hidx : idx + 1 < cu_seq_lens.length)
    (hdiv : n_heads % n_kv_heads = 0)
    (hi : i < cu_seq_lens.getD (idx + 1) 0 - cu_seq_lens.getD idx 0)
    (hq : cu_seq_lens.getD (idx + 1) 0 ≤ query.length)
    (hk : cu_seq_lens.getD (idx + 1) 0 ≤ key.length)
    (hv : cu_seq_lens.getD (idx + 1) 0 ≤ value.length)
    (hout : cu_seq_lens.getD idx 0 + i < output.length) :
    (∀ L, L ≤ 1 → detail.attention_mask n_heads L (none : Option (List α)) = some none) ∧
    (∀ L, 1 < L → ∃ m, detail.attention_mask n_heads L (none : Option (List α)) =
        some (some m) ∧
      ∀ h i' j, h < n_heads → i' < L → j < L →
        (((detail.expand0 n_heads m).getD h []).getD i' [])[j]? =
          some (if j ≤ i' then Score.fin 0 else Score.negInf)) ∧
    ∃ o, detail.varlen_masked_self_attention_generic expf query key value n_heads
        n_kv_heads head_dim none cu_seq_lens scale output = some o ∧
      o[cu_seq_lens.getD idx 0 + i]? =
        some ((List.range n_heads).map fun h => (List.range head_dim).map fun d =>
          ((List.range (i + 1)).map fun (j : Nat) =>
            expf (scale * detail.dot
                ((query.getD (cu_seq_lens.getD idx 0 + i) []).getD h [])
                ((key.getD (cu_seq_lens.getD idx 0 + j) []).getD
                  (h / (n_heads / n_kv_heads)) [])) /
              ((List.range (i + 1)).map fun (j' : Nat) =>
                expf (scale * detail.dot
                  ((query.getD (cu_seq_lens.getD idx 0 + i) []).getD h [])
                  ((key.getD (cu_seq_lens.getD idx 0 + j') []).getD
                    (h / (n_heads / n_kv_heads)) []))).sum *
            ((value.getD (cu_seq_lens.getD idx 0 + j) []).getD
              (h / (n_heads / n_kv_heads)) []).getD d 0).sum) := by
  have hsl : ∀ sl, (none : Option (List α)) = some sl → sl.length = n_heads := by
    intro sl h; cases h
  refine ⟨?_, ?_, ?_⟩
  · intro L hL
    have : ¬ L > 1 := by omega
    simp [detail.attention_mask, this]
  · intro L hL
    obtain ⟨m, hm⟩ := attention_mask_isSome n_heads L (none : Option (List α)) hL hsl
    refine ⟨m, hm, ?_⟩
    intro h i' j hh hi' hj
    rw [getD_attention_mask n_heads L none m hm h i' hh hi', List.getElem?_map,
      List.getElem?_range hj, Option.map_some']
    by_cases hji : j ≤ i'
    · have hn : ¬ i' + 1 ≤ j := by omega
      simp [hji, hn, Score.add]
    · have hp : i' + 1 ≤ j := by omega
      simp [hji, hp, Score.negInf_add]
  · obtain ⟨kv, o, hkv, ho, hrow⟩ := prefill_output_row expf query key value n_heads
      n_kv_heads head_dim none cu_seq_lens scale output idx i hcu hidx hdiv hsl hi hq hk hv
      hout
    obtain ⟨kv', hkv', -, -, hK, hV⟩ := repeat_kv_isSome key value n_heads n_kv_heads hdiv
    have hkk : kv' = kv := by
      rw [hkv] at hkv'
      exact (Option.some.inj hkv').symm
    subst hkk
    refine ⟨o, ho, ?_⟩
    rw [hrow]
    congr 1
    apply List.map_congr_left
    intro h hh
    rw [List.mem_range] at hh
    have hlogit : ∀ j : Nat, detail.varlen_logit query kv'.1 (none : Option (List α)) scale
        (cu_seq_lens.getD idx 0) h i j =
        scale * detail.dot ((query.getD (cu_seq_lens.getD idx 0 + i) []).getD h [])
          ((key.getD (cu_seq_lens.getD idx 0 + j) []).getD
            (h / (n_heads / n_kv_heads)) []) := by
      intro j
      simp only [detail.varlen_logit, Option.map_none', Option.getD_none, add_zero,
        dot_mul_scalar, hK _ h hh]
    have hval : ∀ t : Nat, (kv'.2.getD t []).getD h [] =
        (value.getD t []).getD (h / (n_heads / n_kv_heads)) [] := fun t => hV t h hh
    simp only [hlogit, hval]

/-- Witness of C16: two query heads sharing one KV head, one prompt `[0, 2)`, the
second position. -/
theorem prefill_causal_attention_witness :
    (∀ L, L ≤ 1 → detail.attention_mask 2 L (none : Option (List ℚ)) = some none) ∧
    (∀ L, 1 < L → ∃ m, detail.attention_mask 2 L (none : Option (List ℚ)) =
        some (some m) ∧
      ∀ h i' j, h < 2 → i' < L → j < L →
        (((detail.expand0 2 m).getD h []).getD i' [])[j]? =
          some (if j ≤ i' then Score.fin 0 else Score.negInf)) ∧
    ∃ o, detail.varlen_masked_self_attention_generic expQ [[[1], [2]], [[1], [0]]]
        [[[1]], [[3]]] [[[1]], [[2]]] 2 1 1 none [0, 2] (1 / 2) [[], []] = some o ∧
      o[([0, 2] : List Nat).getD 0 0 + 1]? =
        some ((List.range 2).map fun h => (List.range 1).map fun d =>
          ((List.range (1 + 1)).map fun (j : Nat) =>
            expQ ((1 / 2 : ℚ) * detail.dot
                ((([[[1], [2]], [[1], [0]]] : Tensor ℚ).getD
                  (([0, 2] : List Nat).getD 0 0 + 1) []).getD h [])
                ((([[[1]], [[3]]] : Tensor ℚ).getD (([0, 2] : List Nat).getD 0 0 + j)
                  []).getD (h / (2 / 1)) [])) /
              ((List.range (1 + 1)).map fun (j' : Nat) =>
                expQ ((1 / 2 : ℚ) * detail.dot
                  ((([[[1], [2]], [[1], [0]]] : Tensor ℚ).getD
                    (([0, 2] : List Nat).getD 0 0 + 1) []).getD h [])
                  ((([[[1]], [[3]]] : Tensor ℚ).getD (([0, 2] : List Nat).getD 0 0 + j')
                    []).getD (h / (2 / 1)) []))).sum *
            ((([[[1]], [[2]]] : Tensor ℚ).getD (([0, 2] : List Nat).getD 0 0 + j) []).getD
              (h / (2 / 1)) []).getD d 0).sum) :=
  prefill_causal_attention expQ [[[1], [2]], [[1], [0]]] [[[1]], [[3]]] [[[1]], [[2]]] 2 1 1
    [0, 2] (1 / 2) [[], []] 0 1 (by decide) (by decide) (by decide) (by decide) (by decide)
    (by decide) (by decide) (by decide)

/-- C13: in the reference prefill kernel (the exponential being positive), for
nondecreasing `cu_seq_lens` and every sequence `[lo, hi)` of length `L ≥ 1` inside
the token range, with or without GQA or ALiBi slopes, the softmax row of the first
position is one-hot on position 0 at every head, and the output row at `lo` is
`V[lo]`: query head `h` receives `V[lo, h / G]` (the head vectors of `V[lo]` having
size `head_dim`). -/
theorem prefill_first_row (expf : α → α) (query key value : Tensor α)
    (n_heads n_kv_heads head_dim : Nat) (alibi_slopes : Option (List α))
    (cu_seq_lens : List Nat) (scale : α) (output : Tensor α) (idx : Nat)
    (hexp : ∀ x, 0 < expf x)
    (hcu : cu_seq_lens.Pairwise (· ≤ ·)) (hidx : idx + 1 < cu_seq_lens.length)
    (hdiv : n_heads % n_kv_heads = 0)
    (hsl : ∀ sl, alibi_slopes = some sl → sl.length = n_heads)
    (hL : cu_seq_lens.getD idx 0 < cu_seq_lens.getD (idx + 1) 0)
    (hq : cu_seq_lens.getD (idx + 1) 0 ≤ query.length)
    (hk : cu_seq_lens.getD (idx + 1) 0 ≤ key.length)
    (hv : cu_seq_lens.getD (idx + 1) 0 ≤ value.length)
    (hout : cu_seq_lens.getD idx 0 < output.length)
    (hshape : ∀ h, h < n_heads →
      ((value.getD (cu_seq_lens.getD idx 0) []).getD (h / (n_heads / n_kv_heads)) []).length
        = head_dim) :
    ∃ w o, detail.varlen_seq_weights expf query key value n_heads n_kv_heads alibi_slopes
        cu_seq_lens scale idx = some w ∧
      (∀ h j, h < n_heads →
        j < cu_seq_lens.getD (idx + 1) 0 - cu_seq_lens.getD idx 0 →
        ((w.getD h []).getD 0 [])[j]? = some (if j = 0 then 1 else 0)) ∧
      detail.varlen_masked_self_attention_generic expf query key value n_heads n_kv_heads
        head_dim alibi_slopes cu_seq_lens scale output = some o ∧
      o[cu_seq_lens.getD idx 0]? =
        some ((List.range n_heads).map fun h =>
          (value.getD (cu_seq_lens.getD idx 0) []).getD (h / (n_heads / n_kv_heads)) []) := by
  have hi0 : 0 < cu_seq_lens.getD (idx + 1) 0 - cu_seq_lens.getD idx 0 := by omega
  obtain ⟨kv, o, hkv, ho, hrow⟩ := prefill_output_row expf query key value n_heads
    n_kv_heads head_dim alibi_slopes cu_seq_lens scale output idx 0 hcu hidx hdiv hsl hi0 hq
    hk hv (by omega)
  obtain ⟨kv', hkv', hkl, -, -, hV⟩ := repeat_kv_isSome key value n_heads n_kv_heads hdiv
  have hkk : kv' = kv := by
    rw [hkv] at hkv'
    exact (Option.some.inj hkv').symm
  subst hkk
  obtain ⟨mask, hmask⟩ := attention_mask_total n_heads
    (cu_seq_lens.getD (idx + 1) 0 - cu_seq_lens.getD idx 0) alibi_slopes hsl
  have hone : ∀ f : Nat → α, ((List.range (0 + 1)).map f).sum = f 0 := by
    intro f; simp [List.range_succ]
  refine ⟨detail.attention_weights expf
      (detail.slice query (cu_seq_lens.getD idx 0) (cu_seq_lens.getD (idx + 1) 0))
      (detail.slice kv'.1 (cu_seq_lens.getD idx 0) (cu_seq_lens.getD (idx + 1) 0))
      n_heads mask scale, o, ?_, ?_, ho, ?_⟩
  · simp only [detail.varlen_seq_weights, detail.varlen_seq_scores, hkv, Option.some_bind,
      hmask, Option.map_some', detail.attention_weights]
  · intro h j hh hj
    rw [prefill_weights_row expf query kv'.1 n_heads alibi_slopes scale _ _ h 0 mask hmask hh
      hi0 hq (by omega), List.getElem?_map, List.getElem?_range hj, Option.map_some', hone]
    by_cases hj0 : j = 0
    · subst hj0
      rw [if_pos (Nat.le_refl 0), if_pos rfl, div_self (ne_of_gt (hexp _))]
    · rw [if_neg (by omega), if_neg hj0, zero_div]
  · rw [Nat.add_zero] at hrow
    rw [hrow]
    congr 1
    apply List.map_congr_left
    intro h hh
    rw [List.mem_range] at hh
    simp only [hone, Nat.add_zero, div_self (ne_of_gt (hexp _)), one_mul, hV _ h hh]
    exact range_map_getD _ 0 head_dim (hshape h hh)

/-- Witness of C13: scenario S1 (`H_q = H_kv = 2`, `D = 4`, one prompt of length 3,
`s = 1/2`, the first-token `K`/`V` all zeros). -/
theorem prefill_first_row_witness :
    ∃ w o, detail.varlen_seq_weights expQ
        [[[1, 0, 0, 0], [0, 1, 0, 0]], [[0, 0, 1, 0], [0, 0, 0, 1]],
          [[1, 1, 0, 0], [0, 0, 1, 1]]]
        [[[0, 0, 0, 0], [0, 0, 0, 0]], [[0, 0, 1, 0], [0, 0, 0, 1]],
          [[1, 1, 0, 0], [0, 0, 1, 1]]]
        [[[0, 0, 0, 0], [0, 0, 0, 0]], [[0, 0, 1, 0], [0, 0, 0, 1]],
          [[1, 1, 0, 0], [0, 0, 1, 1]]] 2 2 none [0, 3] (1 / 2) 0 = some w ∧
      (∀ h j, h < 2 → j < ([0, 3] : List Nat).getD (0 + 1) 0 - ([0, 3] : List Nat).getD 0 0 →
        ((w.getD h []).getD 0 [])[j]? = some (if j = 0 then 1 else 0)) ∧
      detail.varlen_masked_self_attention_generic expQ
        [[[1, 0, 0, 0], [0, 1, 0, 0]], [[0, 0, 1, 0], [0, 0, 0, 1]],
          [[1, 1, 0, 0], [0, 0, 1, 1]]]
        [[[0, 0, 0, 0], [0, 0, 0, 0]], [[0, 0, 1, 0], [0, 0, 0, 1]],
          [[1, 1, 0, 0], [0, 0, 1, 1]]]
        [[[0, 0, 0, 0], [0, 0, 0, 0]], [[0, 0, 1, 0], [0, 0, 0, 1]],
          [[1, 1, 0, 0], [0, 0, 1, 1]]] 2 2 4 none [0, 3] (1 / 2) [[], [], []] = some o ∧
      o[([0, 3] : List Nat).getD 0 0]? =
        some ((List.range 2).map fun h =>
          (([[[0, 0, 0, 0], [0, 0, 0, 0]], [[0, 0, 1, 0], [0, 0, 0, 1]],
            [[1, 1, 0, 0], [0, 0, 1, 1]]] : Tensor ℚ).getD
              (([0, 3] : List Nat).getD 0 0) []).getD (h / (2 / 2)) []) :=
  prefill_first_row expQ _ _ _ 2 2 4 none [0, 3] (1 / 2) [[], [], []] 0 expQ_pos
    (by decide) (by decide) (by decide) (by intro sl h; cases h) (by decide) (by decide)
    (by decide) (by decide) (by decide) (by decide)

end Prefill

/-! ## The reference decode kernel -/

section Decode

variable {α : Type} [LinearOrderedField α]

theorem expUnderflow_nonneg (x : ℚ) : 0 ≤ expUnderflow x := by
  unfold expUnderflow
  split
  · exact le_refl 0
  · exact le_of_lt (expQ_pos x)

/-- C14: in the reference decode kernel (the exponential being nonnegative, the
gathers of all rows succeeding and the head counts divisible), for every decode row
`i`, with `(K_i, V_i)` the `L_i = context_lens[i]` positions gathered from the cache
via `block_tables[i]`, output row `i` is the unmasked attention of query `i` against
all `L_i` positions: at head `h` it is `sum over j < L_i of w_j * V_i[j, h/G]`, where
`w` is the softmax over `j < L_i` of `s * <Q[i,h,:], K_i[j,h/G,:]>`, and every
`w_j >= 0`. -/
theorem decode_attention (expf : α → α)
    (get_kv_cache : List Nat → Nat → Option (Tensor α × Tensor α))
    (query : Tensor α) (n_heads n_kv_heads head_dim : Nat)
    (block_tables : List (List Nat)) (context_lens : List Nat) (scale : α)
    (output : Tensor α) (i : Nat) (K_i V_i : Tensor α)
    (hexp : ∀ x, 0 ≤ expf x) (hdiv : n_heads % n_kv_heads = 0)
    (hbt : query.length ≤ block_tables.length) (hcl : query.length ≤ context_lens.length)
    (hget : ∀ i', i' < query.length →
      ∃ kv, get_kv_cache (block_tables.getD i' []) (context_lens.getD i' 0) = some kv)
    (hi : i < query.length) (hout : i < output.length)
    (hkv : get_kv_cache (block_tables.getD i []) (context_lens.getD i 0) = some (K_i, V_i))
    (hK : K_i.length = context_lens.getD i 0) (hV : V_i.length = context_lens.getD i 0) :
    ∃ o, detail.single_query_masked_self_attention_generic expf get_kv_cache query n_heads
        n_kv_heads head_dim block_tables context_lens scale output = some o ∧
      o[i]? = some ((List.range n_heads).map fun h => (List.range head_dim).map fun d =>
        ((List.range (context_lens.getD i 0)).map fun (j : Nat) =>
          expf (scale * detail.dot ((query.getD i []).getD h [])
              ((K_i.getD j []).getD (h / (n_heads / n_kv_heads)) [])) /
            ((List.range (context_lens.getD i 0)).map fun (j' : Nat) =>
              expf (scale * detail.dot ((query.getD i []).getD h [])
                ((K_i.getD j' []).getD (h / (n_heads / n_kv_heads)) []))).sum *
          ((V_i.getD j []).getD (h / (n_heads / n_kv_heads)) []).getD d 0).sum) ∧
      ∀ h j, h < n_heads → j < context_lens.getD i 0 →
        0 ≤ expf (scale * detail.dot ((query.getD i []).getD h [])
              ((K_i.getD j []).getD (h / (n_heads / n_kv_heads)) [])) /
            ((List.range (context_lens.getD i 0)).map fun (j' : Nat) =>
              expf (scale * detail.dot ((query.getD i []).getD h [])
                ((K_i.getD j' []).getD (h / (n_heads / n_kv_heads)) []))).sum := by
  have hattn : ∀ i', i' < query.length → ∀ kv,
      get_kv_cache (block_tables.getD i' []) (context_lens.getD i' 0) = some kv →
      ∃ kv', detail.repeat_kv kv.1 kv.2 n_heads n_kv_heads = some kv' ∧
        kv'.1.length = kv.1.length ∧ kv'.2.length = kv.2.length ∧
        (∀ t h, h < n_heads →
          (kv'.1.getD t []).getD h [] = (kv.1.getD t []).getD (h / (n_heads / n_kv_heads)) []) ∧
        (∀ t h, h < n_heads →
          (kv'.2.getD t []).getD h [] = (kv.2.getD t []).getD (h / (n_heads / n_kv_heads)) []) ∧
        detail.single_query_attn expf get_kv_cache query n_heads n_kv_heads head_dim
          block_tables context_lens scale i' = some (detail.masked_self_attention expf
            [query.getD i' []] kv'.1 kv'.2 n_heads head_dim none scale) := by
    intro i' hi' kv hkv'
    obtain ⟨kv', hr, h1, h2, h3, h4⟩ := repeat_kv_isSome kv.1 kv.2 n_heads n_kv_heads hdiv
    refine ⟨kv', hr, h1, h2, h3, h4, ?_⟩
    have hb : block_tables[i']? = some (block_tables.getD i' []) := by
      rw [List.getD_eq_getElem?_getD, List.getElem?_eq_getElem (by omega), Option.getD_some]
    have hc : context_lens[i']? = some (context_lens.getD i' 0) := by
      rw [List.getD_eq_getElem?_getD, List.getElem?_eq_getElem (by omega), Option.getD_some]
    simp only [detail.single_query_attn, hb, hc, Option.some_bind, hkv', hr, Option.map_some']
  have hall : ∀ i', i' < query.length → ∃ attn, detail.single_query_attn expf get_kv_cache
      query n_heads n_kv_heads head_dim block_tables context_lens scale i' = some attn := by
    intro i' hi'
    obtain ⟨kv, hkv'⟩ := hget i' hi'
    obtain ⟨kv', -, -, -, -, -, h⟩ := hattn i' hi' kv hkv'
    exact ⟨_, h⟩
  obtain ⟨o, ho, -, hrow⟩ := single_query_loop_rows expf get_kv_cache query n_heads
    n_kv_heads head_dim block_tables context_lens scale query.length hall output
  obtain ⟨kv', -, hl1, hl2, hrK, hrV, hai⟩ := hattn i hi (K_i, V_i) hkv
  refine ⟨o, ?_, ?_, ?_⟩
  · unfold detail.single_query_masked_self_attention_generic
    exact ho
  · rw [hrow i, if_pos hi, List.getElem?_eq_getElem hout, Option.map_some', hai,
      Option.getD_some,
      decode_attn_row expf _ kv'.1 kv'.2 n_heads head_dim scale (context_lens.getD i 0)
        (by rw [hl1]; exact hK) (by rw [hl2]; exact hV)]
    congr 1
    apply List.map_congr_left
    intro h hh
    rw [List.mem_range] at hh
    have hk' : ∀ t : Nat, (kv'.1.getD t []).getD h [] =
        (K_i.getD t []).getD (h / (n_heads / n_kv_heads)) [] := fun t => hrK t h hh
    have hv' : ∀ t : Nat, (kv'.2.getD t []).getD h [] =
        (V_i.getD t []).getD (h / (n_heads / n_kv_heads)) [] := fun t => hrV t h hh
    simp only [hk', hv', dot_mul_scalar]
  · intro h j _ _
    apply div_nonneg (hexp _)
    apply List.sum_nonneg
    intro x hx
    rw [List.mem_map] at hx
    obtain ⟨j', -, rfl⟩ := hx
    exact hexp _

/-- Witness of C14: one decode token of context length 2 whose two cached positions
have the scores `-200` and `0`, with the exponential that underflows below `-104`. -/
theorem decode_attention_witness :
    ∃ o, detail.single_query_masked_self_attention_generic expUnderflow
        (KVCache.ops.get_kv_cache underflowCache) [[[1]]] 1 1 1 [[0]] [2] 1 [[[0]]]
        = some o ∧
      o[0]? = some ((List.range 1).map fun h => (List.range 1).map fun d =>
        ((List.range (([2] : List Nat).getD 0 0)).map fun (j : Nat) =>
          expUnderflow (1 * detail.dot ((([[[1]]] : Tensor ℚ).getD 0 []).getD h [])
              ((([[[-200]], [[0]]] : Tensor ℚ).getD j []).getD (h / (1 / 1)) [])) /
            ((List.range (([2] : List Nat).getD 0 0)).map fun (j' : Nat) =>
              expUnderflow (1 * detail.dot ((([[[1]]] : Tensor ℚ).getD 0 []).getD h [])
                ((([[[-200]], [[0]]] : Tensor ℚ).getD j' []).getD (h / (1 / 1)) []))).sum *
          ((([[[1]], [[2]]] : Tensor ℚ).getD j []).getD (h / (1 / 1)) []).getD d 0).sum) ∧
      ∀ h j, h < 1 → j < ([2] : List Nat).getD 0 0 →
        0 ≤ expUnderflow (1 * detail.dot ((([[[1]]] : Tensor ℚ).getD 0 []).getD h [])
              ((([[[-200]], [[0]]] : Tensor ℚ).getD j []).getD (h / (1 / 1)) [])) /
            ((List.range (([2] : List Nat).getD 0 0)).map fun (j' : Nat) =>
              expUnderflow (1 * detail.dot ((([[[1]]] : Tensor ℚ).getD 0 []).getD h [])
                ((([[[-200]], [[0]]] : Tensor ℚ).getD j' []).getD
                  (h / (1 / 1)) []))).sum :=
  decode_attention expUnderflow (KVCache.ops.get_kv_cache underflowCache) [[[1]]] 1 1 1
    [[0]] [2] 1 [[[0]]] 0 [[[-200]], [[0]]] [[[1]], [[2]]] expUnderflow_nonneg (by decide)
    (by decide) (by decide)
    (by
      intro i' hi'
      have h0 : i' = 0 := by simpa using hi'
      subst h0
      exact ⟨([[[-200]], [[0]]], [[[1]], [[2]]]), by decide!⟩)
    (by decide) (by decide) (by decide!) (by decide) (by decide)

/-- Counterexample to C14 as stated (every `w_j > 0`): one decode row of context
length 2 whose cached keys give the scores `-200` and `0`.  The exponential of
`-200` underflows to 0 in the single-precision softmax, so the weights of the row
are `[0, 1]`, the output is `V[1] = 2`, and the weight of position 0 is not
positive although no position is masked. -/
theorem decode_weight_underflow_counterexample :
    KVCache.ops.get_kv_cache underflowCache [0] 2 =
        some ([[[-200]], [[0]]], [[[1]], [[2]]]) ∧
      detail.attention_scores ([[[1]]] : Tensor ℚ) [[[-200]], [[0]]] 1 none 1 =
        [[[Score.fin (-200), Score.fin 0]]] ∧
      detail.attention_weights expUnderflow ([[[1]]] : Tensor ℚ) [[[-200]], [[0]]] 1 none 1 =
        [[[0, 1]]] ∧
      detail.single_query_masked_self_attention_generic expUnderflow
        (KVCache.ops.get_kv_cache underflowCache) [[[1]]] 1 1 1 [[0]] [2] 1 [[[0]]]
        = some [[[2]]] ∧
      ¬ (∀ h j, h < 1 → j < ([2] : List Nat).getD 0 0 →
        0 < expUnderflow (1 * detail.dot ((([[[1]]] : Tensor ℚ).getD 0 []).getD h [])
              ((([[[-200]], [[0]]] : Tensor ℚ).getD j []).getD (h / (1 / 1)) [])) /
            ((List.range (([2] : List Nat).getD 0 0)).map fun (j' : Nat) =>
              expUnderflow (1 * detail.dot ((([[[1]]] : Tensor ℚ).getD 0 []).getD h [])
                ((([[[-200]], [[0]]] : Tensor ℚ).getD j' []).getD
                  (h / (1 / 1)) []))).sum) := by
  refine ⟨by decide!, by decide!, by decide!, by decide!, ?_⟩
  intro hpos
  have h00 := hpos 0 0 (by decide) (by decide)
  revert h00
  decide!

end Decode

/-! ## Scale absorption, in both reference kernels -/

section Scale

variable {α : Type} [LinearOrderedField α]

/-- C8: for every input of the reference prefill kernel and of the reference decode
kernel, doubling the scale `s` while halving `Q` leaves the result (the output, or
the abort) unchanged. -/
theorem scale_absorption (expf : α → α) (query key value : Tensor α)
    (n_heads n_kv_heads head_dim : Nat) (alibi_slopes : Option (List α))
    (cu_seq_lens : List Nat) (scale : α) (output : Tensor α)
    (get_kv_cache : List Nat → Nat → Option (Tensor α × Tensor α))
    (block_tables : List (List Nat)) (context_lens : List Nat) :
    detail.varlen_masked_self_attention_generic expf
        (query.map fun tok => tok.map fun vec => vec.map fun x => x / 2) key value
        n_heads n_kv_heads head_dim alibi_slopes cu_seq_lens (2 * scale) output =
      detail.varlen_masked_self_attention_generic expf query key value n_heads n_kv_heads
        head_dim alibi_slopes cu_seq_lens scale output ∧
    detail.single_query_masked_self_attention_generic expf get_kv_cache
        (query.map fun tok => tok.map fun vec => vec.map fun x => x / 2)
        n_heads n_kv_heads head_dim block_tables context_lens (2 * scale) output =
      detail.single_query_masked_self_attention_generic expf get_kv_cache query
        n_heads n_kv_heads head_dim block_tables context_lens scale output := by
  constructor
  · unfold detail.varlen_masked_self_attention_generic
    simp only [varlen_seq_halve]
  · unfold detail.single_query_masked_self_attention_generic
    simp only [List.length_map, single_query_seq_halve]

end Scale

/-! ## The orchestrator -/

section Forward

variable {α : Type} [LinearOrderedField α]

theorem index_put_eq_append {β : Type} (out src : List β) (lo hi : Nat) (hlo : lo ≤ hi)
    (hhi : hi ≤ out.length) (hsrc : src.length = hi - lo) :
    detail.index_put out lo hi src = out.take lo ++ src ++ out.drop hi := by
  apply List.ext_getElem?
  intro r
  rw [getElem?_index_put]
  by_cases h1 : r < lo
  · have : ¬ (lo ≤ r ∧ r < hi) := by omega
    rw [List.append_assoc, List.getElem?_append_left (by simp; omega), List.getElem?_take]
    simp only [this, if_false, h1, if_true]
    cases out[r]? <;> rfl
  · by_cases h2 : r < hi
    · have h3 : lo ≤ r ∧ r < hi := ⟨by omega, h2⟩
      have hlen : (List.take lo out).length = lo := by simp; omega
      rw [List.getElem?_append_left (by simp; omega),
        List.getElem?_append_right (by omega), hlen]
      have hr : r < out.length := by omega
      have hs : r - lo < src.length := by omega
      simp only [h3, and_self, if_true, List.getElem?_eq_getElem hr, Option.map_some',
        List.getD_eq_getElem?_getD, List.getElem?_eq_getElem hs, Option.getD_some]
    · have h3 : ¬ (lo ≤ r ∧ r < hi) := by omega
      have hlen : (List.take lo out ++ src).length = hi := by simp; omega
      rw [List.getElem?_append_right (by omega), hlen, List.getElem?_drop]
      simp only [h3, if_false]
      have : hi + (r - hi) = r := by omega
      rw [this]
      cases out[r]? <;> rfl

theorem length_view3 {α : Type} (x : List (List α)) (n d1 d2 : Nat) (t : Tensor α)
    (h : view3 x n d1 d2 = some t) : t.length = n := by
  unfold view3 at h
  split at h
  · next hx =>
    simp only [Option.some.injEq] at h
    subst h
    simp [hx.1]
  · simp at h

theorem length_empty_like {α : Type} (junk : Nat → Nat → Nat → α) (q : Tensor α) :
    (empty_like junk q).length = q.length := by
  simp [empty_like]

/-- What one forward pass on a non-empty batch returns, when the reshapes, the cache
write and the kernels it runs succeed (each kernel returning as many rows as it was
given). -/
theorem forward_spec {C P : Type} (self : AttentionImpl α) (ops : KVCacheOps α C P)
    (ext : Extern α P) (expf : α → α) (is_cuda : Bool) (flag_varlen flag_single : String)
    (junk : Nat → Nat → Nat → α) (query key value : List (List α)) (kv_cache : C)
    (input_params : InputParameters) (q k v o1 o2 : Tensor α) (c' : C)
    (hT : 0 < query.length) (hP : input_params.num_prompt_tokens ≤ query.length)
    (hq : view3 query query.length self.n_heads_ self.head_dim_ = some q)
    (hk : view3 key query.length self.n_kv_heads_ self.head_dim_ = some k)
    (hv : view3 value query.length self.n_kv_heads_ self.head_dim_ = some v)
    (hc : ops.set_kv_cache kv_cache input_params.slot_ids k v = some c')
    (hpre : 0 < input_params.num_prompt_tokens →
      detail.varlen_masked_self_attention ext expf is_cuda flag_varlen
        (detail.slice q 0 input_params.num_prompt_tokens)
        (detail.slice k 0 input_params.num_prompt_tokens)
        (detail.slice v 0 input_params.num_prompt_tokens)
        self.n_heads_ self.n_kv_heads_ self.head_dim_ none input_params.cu_seq_lens
        input_params.max_seq_len self.scale_
        (detail.slice (empty_like junk q) 0 input_params.num_prompt_tokens) = some o1 ∧
      o1.length = input_params.num_prompt_tokens)
    (hdec : input_params.num_prompt_tokens < query.length →
      detail.single_query_masked_self_attention ops ext expf is_cuda flag_single c'
        self.kv_head_mapping_
        (detail.slice q input_params.num_prompt_tokens query.length)
        self.n_heads_ self.head_dim_ input_params.block_tables input_params.context_lens
        input_params.max_context_len self.scale_
        (detail.slice (empty_like junk q) input_params.num_prompt_tokens query.length)
        = some o2 ∧
      o2.length = query.length - input_params.num_prompt_tokens) :
    ∃ res, self.forward ops ext expf is_cuda flag_varlen flag_single junk query key value
        kv_cache input_params = some res ∧
      res.output = ((if 0 < input_params.num_prompt_tokens then o1 else []) ++
        (if input_params.num_prompt_tokens < query.length then o2 else [])).map
          List.flatten ∧
      res.kv_cache = c' ∧
      res.trace = [Event.set_kv_cache] ++
        (if 0 < input_params.num_prompt_tokens then [Event.varlen_masked_self_attention]
          else []) ++
        (if input_params.num_prompt_tokens < query.length then
          [Event.single_query_masked_self_attention] else []) := by
  have hE : (empty_like junk q).length = query.length := by
    rw [length_empty_like, length_view3 _ _ _ _ _ hq]
  generalize hEdef : empty_like junk q = E at *
  generalize hPdef : input_params.num_prompt_tokens = Pn at *
  unfold AttentionImpl.forward
  simp only [hq, hk, hv, hc, hPdef, hEdef, Option.bind_eq_bind, Option.some_bind,
    Option.pure_def, gt_iff_lt, view_rows, if_neg (Nat.pos_iff_ne_zero.mp hT)]
  by_cases h0 : 0 < Pn
  · obtain ⟨hpre1, hpre2⟩ := hpre h0
    have hput : detail.index_put E 0 Pn o1 = o1 ++ E.drop Pn := by
      rw [index_put_eq_append _ _ _ _ (Nat.zero_le _) (by omega) (by omega)]
      simp
    by_cases h1 : Pn < query.length
    · obtain ⟨hdec1, hdec2⟩ := hdec h1
      have hsl : detail.slice (o1 ++ E.drop Pn) Pn query.length =
          detail.slice E Pn query.length := by
        apply List.ext_getElem?
        intro n
        rw [getElem?_slice, getElem?_slice,
          List.getElem?_append_right (by omega), List.getElem?_drop, hpre2]
        have : Pn + (Pn + n - Pn) = Pn + n := by omega
        rw [this]
      have hlen12 : (o1 ++ E.drop Pn).length = query.length := by
        simp only [List.length_append, List.length_drop]; omega
      have hput2 : detail.index_put (o1 ++ E.drop Pn) Pn query.length o2 = o1 ++ o2 := by
        have ht : (o1 ++ E.drop Pn).take Pn = o1 := by
          rw [List.take_append_of_le_length (by omega), List.take_of_length_le (by omega)]
        have hd : (o1 ++ E.drop Pn).drop query.length = [] :=
          List.drop_eq_nil_of_le (by omega)
        rw [index_put_eq_append _ _ _ _ (by omega) (by omega) (by omega), ht, hd,
          List.append_nil]
      simp only [h0, h1, if_true, hpre1, Option.some_bind, hput, hsl, hdec1, hput2]
      exact ⟨_, rfl, rfl, rfl, rfl⟩
    · have hPT : Pn = query.length := by omega
      simp only [h0, h1, if_true, if_false, hpre1, Option.some_bind, hput]
      refine ⟨_, rfl, ?_, rfl, rfl⟩
      simp [hPT, ← hE]
  · have hP0 : Pn = 0 := by omega
    subst hP0
    have h1 : 0 < query.length := hT
    obtain ⟨hdec1, hdec2⟩ := hdec h1
    have hput2 : detail.index_put E 0 query.length o2 = o2 := by
      rw [index_put_eq_append _ _ _ _ (by omega) (by omega) (by omega)]
      simp [← hE]
    simp only [h0, h1, if_true, if_false, Option.some_bind, hdec1, hput2]
    exact ⟨_, rfl, by simp, rfl, rfl⟩

theorem length_varlen_loop (expf : α → α) (query k v : Tensor α)
    (alibi_slopes : Option (List α)) (cu_lens : List Nat) (scale : α)
    (n_heads head_dim : Nat) (seqs : List Nat) (out o : Tensor α)
    (h : seqs.foldlM (fun o i => detail.varlen_seq expf query k v alibi_slopes cu_lens
      scale n_heads head_dim o i) out = some o) : o.length = out.length := by
  induction seqs generalizing out with
  | nil =>
    simp only [List.foldlM_nil, Option.pure_def, Option.some.injEq] at h
    rw [← h]
  | cons idx seqs ih =>
    rw [List.foldlM_cons, varlen_seq_eq_attn] at h
    rcases hattn : detail.varlen_seq_attn expf query k v alibi_slopes cu_lens scale n_heads
      head_dim idx with _ | attn
    · rw [hattn] at h
      simp at h
    · rw [hattn] at h
      simp only [Option.map_some', Option.bind_eq_bind, Option.some_bind] at h
      rw [ih _ h, length_index_put]

theorem length_varlen_generic (expf : α → α) (query key value : Tensor α)
    (n_heads n_kv_heads head_dim : Nat) (alibi_slopes : Option (List α))
    (cu_seq_lens : List Nat) (scale : α) (out o : Tensor α)
    (h : detail.varlen_masked_self_attention_generic expf query key value n_heads
      n_kv_heads head_dim alibi_slopes cu_seq_lens scale out = some o) :
    o.length = out.length := by
  unfold detail.varlen_masked_self_attention_generic at h
  rcases hkv : detail.repeat_kv key value n_heads n_kv_heads with _ | kv
  · rw [hkv] at h
    simp at h
  · rw [hkv] at h
    simp only [Option.some_bind] at h
    exact length_varlen_loop expf query kv.1 kv.2 alibi_slopes cu_seq_lens scale n_heads
      head_dim _ out o h

/-- For cumulative lengths that start at 0 and end at the number of rows, the result
of the reference prefill kernel does not depend on the contents of the buffer it
is given. -/
theorem varlen_generic_buffer_indep (expf : α → α) (query key value : Tensor α)
    (n_heads n_kv_heads head_dim : Nat) (alibi_slopes : Option (List α))
    (cu_seq_lens : List Nat) (scale : α) (out1 out2 : Tensor α)
    (hcu : cu_seq_lens.Pairwise (· ≤ ·)) (hcu0 : cu_seq_lens.getD 0 0 = 0)
    (hcuS : cu_seq_lens.getD (cu_seq_lens.length - 1) 0 = out1.length)
    (hsl : ∀ sl, alibi_slopes = some sl → sl.length = n_heads)
    (hq : out1.length ≤ query.length) (hlen : out1.length = out2.length) :
    detail.varlen_masked_self_attention_generic expf query key value n_heads n_kv_heads
        head_dim alibi_slopes cu_seq_lens scale out1 =
      detail.varlen_masked_self_attention_generic expf query key value n_heads n_kv_heads
        head_dim alibi_slopes cu_seq_lens scale out2 := by
  by_cases hdiv : n_heads % n_kv_heads = 0
  · obtain ⟨kv, o, hkv, ho, hol, hrow⟩ := varlen_generic_rows expf query key value n_heads
      n_kv_heads head_dim alibi_slopes cu_seq_lens scale out1 hdiv hsl
    obtain ⟨kv2, o2, hkv2, ho2, hol2, hrow2⟩ := varlen_generic_rows expf query key value
      n_heads n_kv_heads head_dim alibi_slopes cu_seq_lens scale out2 hdiv hsl
    have hkk : kv2 = kv := by
      rw [hkv] at hkv2
      exact (Option.some.inj hkv2).symm
    subst hkk
    have hmono : ∀ a b, a ≤ b → b ≤ cu_seq_lens.length - 1 →
        cu_seq_lens.getD a 0 ≤ cu_seq_lens.getD b 0 := by
      intro a b hab hb
      by_cases hb' : b < cu_seq_lens.length
      · exact getD_mono_of_pairwise cu_seq_lens hcu a b hab hb'
      · have h0 : cu_seq_lens.length = 0 := by omega
        have hnil : cu_seq_lens = [] := List.eq_nil_of_length_eq_zero h0
        subst hnil
        simp
    rw [ho, ho2]
    congr 1
    apply List.ext_getElem?
    intro r
    by_cases hr : r < out1.length
    · obtain ⟨i, hi, hlo, hhi⟩ := exists_seq_of_mem cu_seq_lens r (cu_seq_lens.length - 1)
        (by omega) (by omega)
      obtain ⟨attn, hattn, hal⟩ := varlen_seq_attn_isSome expf query kv2.1 kv2.2
        alibi_slopes cu_seq_lens scale n_heads head_dim i hsl
      have hle : cu_seq_lens.getD (i + 1) 0 ≤ query.length := by
        have := hmono (i + 1) _ (by omega) (Nat.le_refl _)
        omega
      have hrl : r - cu_seq_lens.getD i 0 < attn.length := by
        rw [hal, length_slice, Nat.min_eq_left hle]; omega
      have hx : ((fun i => (detail.varlen_seq_attn expf query kv2.1 kv2.2 alibi_slopes
          cu_seq_lens scale n_heads head_dim i).getD []) i)[r - cu_seq_lens.getD i 0]? =
          some (attn.getD (r - cu_seq_lens.getD i 0) []) := by
        simp only [hattn, Option.getD_some]
        rw [List.getD_eq_getElem?_getD attn, List.getElem?_eq_getElem hrl, Option.getD_some]
      rw [hrow r, hrow2 r, List.getElem?_eq_getElem hr,
        List.getElem?_eq_getElem (show r < out2.length by omega), Option.map_some',
        Option.map_some', varlen_row_after_hit _ _ _ _ i _ _ hmono hi hlo hhi hx,
        varlen_row_after_hit _ _ _ _ i _ _ hmono hi hlo hhi hx]
    · rw [List.getElem?_eq_none (by omega), List.getElem?_eq_none (by omega)]
  · have hnone : detail.repeat_kv key value n_heads n_kv_heads = none := by
      unfold detail.repeat_kv
      have hne : n_heads ≠ n_kv_heads := by
        intro h
        apply hdiv
        rw [h, Nat.mod_self]
      rw [if_pos hne, if_neg hdiv]
    unfold detail.varlen_masked_self_attention_generic
    simp only [hnone, Option.none_bind]

/-- The result of the reference decode kernel does not depend on the contents of the
buffer it is given (one row per query row). -/
theorem single_query_generic_buffer_indep (expf : α → α)
    (get_kv_cache : List Nat → Nat → Option (Tensor α × Tensor α))
    (query : Tensor α) (num_heads num_kv_heads head_dim : Nat)
    (block_tables : List (List Nat)) (context_lens : List Nat) (scale : α)
    (out1 out2 : Tensor α) (h1 : out1.length = query.length)
    (h2 : out2.length = query.length) :
    detail.single_query_masked_self_attention_generic expf get_kv_cache query num_heads
        num_kv_heads head_dim block_tables context_lens scale out1 =
      detail.single_query_masked_self_attention_generic expf get_kv_cache query num_heads
        num_kv_heads head_dim block_tables context_lens scale out2 := by
  unfold detail.single_query_masked_self_attention_generic
  rcases single_query_loop_rel expf get_kv_cache query num_heads num_kv_heads head_dim
    block_tables context_lens scale out1 out2 (by omega) query.length with
    ⟨e1, e2⟩ | ⟨o1, o2, e1, e2, hl1, hl2, hrow⟩
  · rw [e1, e2]
  · rw [e1, e2]
    congr 1
    apply List.ext_getElem?
    intro r
    by_cases hr : r < query.length
    · exact hrow r hr
    · rw [List.getElem?_eq_none (by omega), List.getElem?_eq_none (by omega)]

theorem length_single_query_generic (expf : α → α)
    (get_kv_cache : List Nat → Nat → Option (Tensor α × Tensor α))
    (query : Tensor α) (num_heads num_kv_heads head_dim : Nat)
    (block_tables : List (List Nat)) (context_lens : List Nat) (scale : α)
    (out o : Tensor α)
    (h : detail.single_query_masked_self_attention_generic expf get_kv_cache query
      num_heads num_kv_heads head_dim block_tables context_lens scale out = some o) :
    o.length = out.length := by
  unfold detail.single_query_masked_self_attention_generic at h
  rcases single_query_loop_rel expf get_kv_cache query num_heads num_kv_heads head_dim
    block_tables context_lens scale out out rfl query.length with
    ⟨e1, -⟩ | ⟨o1, o2, e1, -, hl1, -, -⟩
  · rw [e1] at h
    simp at h
  · rw [e1] at h
    cases Option.some.inj h
    exact hl1

theorem view3_take {α : Type} (x : List (List α)) (n d1 d2 p : Nat) (t : Tensor α)
    (h : view3 x n d1 d2 = some t) (hp : p ≤ n) :
    view3 (x.take p) p d1 d2 = some (t.take p) := by
  unfold view3 at h ⊢
  split at h
  · next hx =>
    simp only [Option.some.injEq] at h
    subst h
    have hl : (x.take p).length = p := by
      rw [List.length_take]; omega
    rw [if_pos ⟨hl, fun row hrow => hx.2 row (List.mem_of_mem_take hrow)⟩, List.map_take]
  · simp at h

theorem view3_drop {α : Type} (x : List (List α)) (n d1 d2 p : Nat) (t : Tensor α)
    (h : view3 x n d1 d2 = some t) :
    view3 (x.drop p) (n - p) d1 d2 = some (t.drop p) := by
  unfold view3 at h ⊢
  split at h
  · next hx =>
    simp only [Option.some.injEq] at h
    subst h
    have hl : (x.drop p).length = n - p := by
      rw [List.length_drop, hx.1]
    rw [if_pos ⟨hl, fun row hrow => hx.2 row (List.mem_of_mem_drop hrow)⟩, List.map_drop]
  · simp at h

/-- The output and the cache returned by a forward pass on a non-empty batch once
the reshapes have succeeded. -/
theorem forward_out {C P : Type} (self : AttentionImpl α) (ops : KVCacheOps α C P)
    (ext : Extern α P) (expf : α → α) (is_cuda : Bool) (flag_varlen flag_single : String)
    (junk : Nat → Nat → Nat → α) (query key value : List (List α)) (kv_cache : C)
    (input_params : InputParameters) (q k v : Tensor α)
    (hq : view3 query query.length self.n_heads_ self.head_dim_ = some q)
    (hk : view3 key query.length self.n_kv_heads_ self.head_dim_ = some k)
    (hv : view3 value query.length self.n_kv_heads_ self.head_dim_ = some v)
    (hT : 0 < query.length) :
    (self.forward ops ext expf is_cuda flag_varlen flag_single junk query key value kv_cache
        input_params).map (fun r => (r.output, r.kv_cache)) =
      (ops.set_kv_cache kv_cache input_params.slot_ids k v).bind fun c' =>
        ((if 0 < input_params.num_prompt_tokens then
            (detail.varlen_masked_self_attention ext expf is_cuda flag_varlen
              (detail.slice q 0 input_params.num_prompt_tokens)
              (detail.slice k 0 input_params.num_prompt_tokens)
              (detail.slice v 0 input_params.num_prompt_tokens)
              self.n_heads_ self.n_kv_heads_ self.head_dim_ none input_params.cu_seq_lens
              input_params.max_seq_len self.scale_
              (detail.slice (empty_like junk q) 0 input_params.num_prompt_tokens)).map
              fun so => detail.index_put (empty_like junk q) 0
                input_params.num_prompt_tokens so
          else some (empty_like junk q)).bind fun out1 =>
          if input_params.num_prompt_tokens < query.length then
            (detail.single_query_masked_self_attention ops ext expf is_cuda flag_single c'
              self.kv_head_mapping_
              (detail.slice q input_params.num_prompt_tokens query.length)
              self.n_heads_ self.head_dim_ input_params.block_tables
              input_params.context_lens input_params.max_context_len self.scale_
              (detail.slice out1 input_params.num_prompt_tokens query.length)).map
              fun so => detail.index_put out1 input_params.num_prompt_tokens query.length so
          else some out1).map fun out2 => (out2.map List.flatten, c') := by
  unfold AttentionImpl.forward
  simp only [hq, hk, hv, Option.bind_eq_bind, Option.some_bind, Option.pure_def, gt_iff_lt,
    view_rows, if_neg (Nat.pos_iff_ne_zero.mp hT)]
  rcases ops.set_kv_cache kv_cache input_params.slot_ids k v with _ | c'
  · simp only [Option.none_bind, Option.map_none']
  · simp only [Option.some_bind]
    by_cases h0 : 0 < input_params.num_prompt_tokens
    · simp only [h0, if_true]
      rcases detail.varlen_masked_self_attention ext expf is_cuda flag_varlen
        (detail.slice q 0 input_params.num_prompt_tokens)
        (detail.slice k 0 input_params.num_prompt_tokens)
        (detail.slice v 0 input_params.num_prompt_tokens)
        self.n_heads_ self.n_kv_heads_ self.head_dim_ none input_params.cu_seq_lens
        input_params.max_seq_len self.scale_
        (detail.slice (empty_like junk q) 0 input_params.num_prompt_tokens) with _ | o1
      · simp only [Option.none_bind, Option.map_none']
      · simp only [Option.some_bind, Option.map_some']
        by_cases h1 : input_params.num_prompt_tokens < query.length
        · simp only [h1, if_true]
          rcases detail.single_query_masked_self_attention ops ext expf is_cuda flag_single
            c' self.kv_head_mapping_
            (detail.slice q input_params.num_prompt_tokens query.length)
            self.n_heads_ self.head_dim_ input_params.block_tables
            input_params.context_lens input_params.max_context_len self.scale_
            (detail.slice (detail.index_put (empty_like junk q) 0
              input_params.num_prompt_tokens o1) input_params.num_prompt_tokens
              query.length) with _ | o2
          · simp only [Option.none_bind, Option.map_none']
          · simp only [Option.some_bind, Option.map_some']
        · simp only [h1, if_false, Option.some_bind, Option.map_some']
    · simp only [h0, if_false, Option.some_bind]
      by_cases h1 : input_params.num_prompt_tokens < query.length
      · simp only [h1, if_true]
        rcases detail.single_query_masked_self_attention ops ext expf is_cuda flag_single
          c' self.kv_head_mapping_
          (detail.slice q input_params.num_prompt_tokens query.length)
          self.n_heads_ self.head_dim_ input_params.block_tables
          input_params.context_lens input_params.max_context_len self.scale_
          (detail.slice (empty_like junk q) input_params.num_prompt_tokens
            query.length) with _ | o2
        · simp only [Option.none_bind, Option.map_none']
        · simp only [Option.some_bind, Option.map_some']
      · simp only [h1, if_false, Option.some_bind, Option.map_some']

/-- The split of a non-empty batch: for a forward call with `T ≥ 1` tokens and
`P = num_prompt_tokens ≤ T` whose reshapes, cache write and kernels succeed, the pass
returns `T` rows; rows `[0, P)` are the result `o1` of the prefill kernel on rows
`[0, P)` of `Q`, `K`, `V`, rows `[P, T)` are the result `o2` of the decode kernel on
rows `[P, T)` of `Q`; the prefill kernel is called iff `P > 0` and the decode kernel
iff `P < T`, so for `P = T` the output is the prefill result alone. -/
theorem forward_split {C P : Type} (self : AttentionImpl α) (ops : KVCacheOps α C P)
    (ext : Extern α P) (expf : α → α) (is_cuda : Bool) (flag_varlen flag_single : String)
    (junk : Nat → Nat → Nat → α) (query key value : List (List α)) (kv_cache : C)
    (input_params : InputParameters) (q k v o1 o2 : Tensor α) (c' : C)
    (hT : 0 < query.length) (hP : input_params.num_prompt_tokens ≤ query.length)
    (hq : view3 query query.length self.n_heads_ self.head_dim_ = some q)
    (hk : view3 key query.length self.n_kv_heads_ self.head_dim_ = some k)
    (hv : view3 value query.length self.n_kv_heads_ self.head_dim_ = some v)
    (hc : ops.set_kv_cache kv_cache input_params.slot_ids k v = some c')
    (hpre : 0 < input_params.num_prompt_tokens →
      detail.varlen_masked_self_attention ext expf is_cuda flag_varlen
        (detail.slice q 0 input_params.num_prompt_tokens)
        (detail.slice k 0 input_params.num_prompt_tokens)
        (detail.slice v 0 input_params.num_prompt_tokens)
        self.n_heads_ self.n_kv_heads_ self.head_dim_ none input_params.cu_seq_lens
        input_params.max_seq_len self.scale_
        (detail.slice (empty_like junk q) 0 input_params.num_prompt_tokens) = some o1 ∧
      o1.length = input_params.num_prompt_tokens)
    (hdec : input_params.num_prompt_tokens < query.length →
      detail.single_query_masked_self_attention ops ext expf is_cuda flag_single c'
        self.kv_head_mapping_
        (detail.slice q input_params.num_prompt_tokens query.length)
        self.n_heads_ self.head_dim_ input_params.block_tables input_params.context_lens
        input_params.max_context_len self.scale_
        (detail.slice (empty_like junk q) input_params.num_prompt_tokens query.length)
        = some o2 ∧
      o2.length = query.length - input_params.num_prompt_tokens) :
    ∃ res, self.forward ops ext expf is_cuda flag_varlen flag_single junk query key value
        kv_cache input_params = some res ∧
      res.output.length = query.length ∧
      (0 < input_params.num_prompt_tokens →
        res.output.take input_params.num_prompt_tokens = o1.map List.flatten) ∧
      (input_params.num_prompt_tokens < query.length →
        res.output.drop input_params.num_prompt_tokens = o2.map List.flatten) ∧
      (Event.varlen_masked_self_attention ∈ res.trace ↔
        0 < input_params.num_prompt_tokens) ∧
      (Event.single_query_masked_self_attention ∈ res.trace ↔
        input_params.num_prompt_tokens < query.length) ∧
      (input_params.num_prompt_tokens = query.length → 0 < query.length →
        res.output = o1.map List.flatten) := by
  obtain ⟨res, hres, hout, -, htr⟩ := forward_spec self ops ext expf is_cuda flag_varlen
    flag_single junk query key value kv_cache input_params q k v o1 o2 c' hT hP hq hk hv
    hc
    hpre hdec
  refine ⟨res, hres, ?_, ?_, ?_, ?_, ?_, ?_⟩
  · rw [hout, List.length_map, List.length_append]
    by_cases h0 : 0 < input_params.num_prompt_tokens <;>
    by_cases h1 : input_params.num_prompt_tokens < query.length
    · simp only [h0, h1, if_true, (hpre h0).2, (hdec h1).2]; omega
    · simp only [h0, h1, if_true, if_false, (hpre h0).2, List.length_nil]; omega
    · simp only [h0, h1, if_true, if_false, (hdec h1).2, List.length_nil]; omega
    · simp only [h0, h1, if_false, List.length_nil]; omega
  · intro h0
    rw [hout, if_pos h0, List.map_append, ← (hpre h0).2,
      List.take_append_of_le_length (by simp), List.take_of_length_le (by simp)]
  · intro h1
    rw [hout, if_pos h1, List.map_append]
    by_cases h0 : 0 < input_params.num_prompt_tokens
    · rw [if_pos h0, List.drop_append_of_le_length (by simp [(hpre h0).2]),
        List.drop_of_length_le (by simp [(hpre h0).2]), List.nil_append]
    · have hP0 : input_params.num_prompt_tokens = 0 := by omega
      rw [if_neg h0, hP0]
      rfl
  · rw [htr]
    by_cases h0 : 0 < input_params.num_prompt_tokens <;>
    by_cases h1 : input_params.num_prompt_tokens < query.length <;>
    simp [h0, h1]
  · rw [htr]
    by_cases h0 : 0 < input_params.num_prompt_tokens <;>
    by_cases h1 : input_params.num_prompt_tokens < query.length <;>
    simp [h0, h1]
  · intro hPT hT
    have h0 : 0 < input_params.num_prompt_tokens := by omega
    have h1 : ¬ input_params.num_prompt_tokens < query.length := by omega
    rw [hout, if_pos h0, if_neg h1, List.append_nil]

/-- The split on the mixed batch (`T = 3`, `P = 2`), reference path. -/
theorem forward_split_witness :
    ∃ res, mixedModule.forward KVCache.ops (noExtern ℚ (Nat × Tensor ℚ)) expQ false "" ""
        (fun _ _ _ => 0) [[1], [1], [1]] [[0], [1], [2]] [[1], [2], [8]] mixedCache
        mixedParams = some res ∧
      res.output.length = ([[1], [1], [1]] : List (List ℚ)).length ∧
      (0 < mixedParams.num_prompt_tokens →
        res.output.take mixedParams.num_prompt_tokens =
          ([[[1]], [[12 / 7]]] : Tensor ℚ).map List.flatten) ∧
      (mixedParams.num_prompt_tokens < ([[1], [1], [1]] : List (List ℚ)).length →
        res.output.drop mixedParams.num_prompt_tokens =
          ([[[32 / 5]]] : Tensor ℚ).map List.flatten) ∧
      (Event.varlen_masked_self_attention ∈ res.trace ↔
        0 < mixedParams.num_prompt_tokens) ∧
      (Event.single_query_masked_self_attention ∈ res.trace ↔
        mixedParams.num_prompt_tokens < ([[1], [1], [1]] : List (List ℚ)).length) ∧
      (mixedParams.num_prompt_tokens = ([[1], [1], [1]] : List (List ℚ)).length →
        0 < ([[1], [1], [1]] : List (List ℚ)).length →
        res.output = ([[[1]], [[12 / 7]]] : Tensor ℚ).map List.flatten) :=
  forward_split mixedModule KVCache.ops (noExtern ℚ (Nat × Tensor ℚ)) expQ false "" ""
    (fun _ _ _ => 0) [[1], [1], [1]] [[0], [1], [2]] [[1], [2], [8]] mixedCache mixedParams
    [[[1]], [[1]], [[1]]] [[[0]], [[1]], [[2]]] [[[1]], [[2]], [[8]]]
    [[[1]], [[12 / 7]]] [[[32 / 5]]] mixedCacheWritten
    (by decide) (by decide) (by decide!) (by decide!) (by decide!) (by decide!)
    (fun _ => by decide!) (fun _ => by decide!)

/-- For an empty batch `forward` returns no output, whatever the module, the cache,
the kernels and the descriptor: if nothing raises before, the final reshape does. -/
theorem forward_empty_batch {C P : Type} (self : AttentionImpl α) (ops : KVCacheOps α C P)
    (ext : Extern α P) (expf : α → α) (is_cuda : Bool) (flag_varlen flag_single : String)
    (junk : Nat → Nat → Nat → α) (key value : List (List α)) (kv_cache : C)
    (input_params : InputParameters) :
    self.forward ops ext expf is_cuda flag_varlen flag_single junk [] key value kv_cache
      input_params = none := by
  unfold AttentionImpl.forward
  simp only [Option.bind_eq_bind, Option.pure_def, gt_iff_lt, List.length_nil,
    Nat.not_lt_zero, if_false, view_rows, if_true, Option.some_bind, Option.bind_none]
  rcases view3 ([] : List (List α)) 0 self.n_heads_ self.head_dim_ with _ | q
  · rfl
  · simp only [Option.some_bind]
    rcases view3 key 0 self.n_kv_heads_ self.head_dim_ with _ | k
    · rfl
    · simp only [Option.some_bind]
      rcases view3 value 0 self.n_kv_heads_ self.head_dim_ with _ | v
      · rfl
      · simp only [Option.some_bind]
        rcases ops.set_kv_cache kv_cache input_params.slot_ids k v with _ | c
        · rfl
        · simp only [Option.some_bind]
          by_cases h0 : 0 < input_params.num_prompt_tokens
          · simp only [h0, if_true]
            rcases detail.varlen_masked_self_attention ext expf is_cuda flag_varlen
              (detail.slice q 0 input_params.num_prompt_tokens)
              (detail.slice k 0 input_params.num_prompt_tokens)
              (detail.slice v 0 input_params.num_prompt_tokens)
              self.n_heads_ self.n_kv_heads_ self.head_dim_ none input_params.cu_seq_lens
              input_params.max_seq_len self.scale_
              (detail.slice (empty_like junk q) 0 input_params.num_prompt_tokens) with _ | o1
            · rfl
            · rfl
          · simp only [h0, if_false, Option.some_bind, Option.none_bind]

/-- C2, at the empty batch (`T = 0`, `P = 0`): the three reshapes and the cache write
succeed and neither kernel is due (`P > 0` and `P < T` are both false), yet
`forward` returns no output, because the final `output.view({num_tokens, -1})`
raises on a tensor without elements. -/
theorem forward_empty_batch_raises :
    view3 ([] : List (List ℚ)) ([] : List (List ℚ)).length mixedModule.n_heads_
        mixedModule.head_dim_ = some [] ∧
      view3 ([] : List (List ℚ)) ([] : List (List ℚ)).length mixedModule.n_kv_heads_
        mixedModule.head_dim_ = some [] ∧
      KVCache.ops.set_kv_cache mixedCache emptyParams.slot_ids [] [] = some mixedCache ∧
      ¬ 0 < emptyParams.num_prompt_tokens ∧
      ¬ emptyParams.num_prompt_tokens < ([] : List (List ℚ)).length ∧
      view_rows (empty_like (fun _ _ _ => (0 : ℚ)) []) ([] : List (List ℚ)).length = none ∧
      mixedModule.forward KVCache.ops (noExtern ℚ (Nat × Tensor ℚ)) expQ false "" ""
        (fun _ _ _ => 0) [] [] [] mixedCache emptyParams = none :=
  ⟨by decide, by decide, by decide!, by decide, by decide, by decide,
    forward_empty_batch mixedModule KVCache.ops (noExtern ℚ (Nat × Tensor ℚ)) expQ false ""
      "" (fun _ _ _ => 0) [] [] mixedCache emptyParams⟩

/-- C3: in a forward pass on `T ≥ 1` tokens the `K` and `V` of all `T` tokens are
written to the cache at `slot_ids` before either kernel is called: a failing write
ends the pass before any kernel, and after a successful one the trace starts with
the write and has no other, the cache returned is the written one, and the decode
rows of the output are what the decode kernel computes from the written cache `c'`.
(For `T = 0` no kernel is due and the pass raises at its final reshape.) -/
theorem cache_write_precedes_kernels {C P : Type} (self : AttentionImpl α)
    (ops : KVCacheOps α C P) (ext : Extern α P) (expf : α → α) (is_cuda : Bool)
    (flag_varlen flag_single : String) (junk : Nat → Nat → Nat → α)
    (query key value : List (List α)) (kv_cache : C)
    (input_params : InputParameters) (q k v o1 o2 : Tensor α) (c' : C)
    (hT : 0 < query.length) (hP : input_params.num_prompt_tokens ≤ query.length)
    (hq : view3 query query.length self.n_heads_ self.head_dim_ = some q)
    (hk : view3 key query.length self.n_kv_heads_ self.head_dim_ = some k)
    (hv : view3 value query.length self.n_kv_heads_ self.head_dim_ = some v)
    (hc : ops.set_kv_cache kv_cache input_params.slot_ids k v = some c')
    (hpre : 0 < input_params.num_prompt_tokens →
      detail.varlen_masked_self_attention ext expf is_cuda flag_varlen
        (detail.slice q 0 input_params.num_prompt_tokens)
        (detail.slice k 0 input_params.num_prompt_tokens)
        (detail.slice v 0 input_params.num_prompt_tokens)
        self.n_heads_ self.n_kv_heads_ self.head_dim_ none input_params.cu_seq_lens
        input_params.max_seq_len self.scale_
        (detail.slice (empty_like junk q) 0 input_params.num_prompt_tokens) = some o1 ∧
      o1.length = input_params.num_prompt_tokens)
    (hdec : input_params.num_prompt_tokens < query.length →
      detail.single_query_masked_self_attention ops ext expf is_cuda flag_single c'
        self.kv_head_mapping_
        (detail.slice q input_params.num_prompt_tokens query.length)
        self.n_heads_ self.head_dim_ input_params.block_tables input_params.context_lens
        input_params.max_context_len self.scale_
        (detail.slice (empty_like junk q) input_params.num_prompt_tokens query.length)
        = some o2 ∧
      o2.length = query.length - input_params.num_prompt_tokens) :
    (k.length = query.length ∧ v.length = query.length) ∧
    (∃ res, self.forward ops ext expf is_cuda flag_varlen flag_single junk query key value
        kv_cache input_params = some res ∧
      res.kv_cache = c' ∧
      res.trace.head? = some Event.set_kv_cache ∧
      Event.set_kv_cache ∉ res.trace.tail ∧
      (input_params.num_prompt_tokens < query.length →
        res.output.drop input_params.num_prompt_tokens = o2.map List.flatten)) ∧
    (∀ stale : C, ops.set_kv_cache stale input_params.slot_ids k v = none →
      self.forward ops ext expf is_cuda flag_varlen flag_single junk query key value
        stale input_params = none) := by
  obtain ⟨res, hres, hout, hcache, htr⟩ := forward_spec self ops ext expf is_cuda
    flag_varlen flag_single junk query key value kv_cache input_params q k v o1 o2 c' hT
    hP hq hk hv hc hpre hdec
  refine ⟨⟨length_view3 _ _ _ _ _ hk, length_view3 _ _ _ _ _ hv⟩,
    ⟨res, hres, hcache, ?_, ?_, ?_⟩, ?_⟩
  · rw [htr]; rfl
  · rw [htr]
    by_cases h0 : 0 < input_params.num_prompt_tokens <;>
    by_cases h1 : input_params.num_prompt_tokens < query.length <;>
    simp [h0, h1]
  · intro h1
    rw [hout, if_pos h1, List.map_append]
    by_cases h0 : 0 < input_params.num_prompt_tokens
    · rw [if_pos h0, List.drop_append_of_le_length (by simp [(hpre h0).2]),
        List.drop_of_length_le (by simp [(hpre h0).2]), List.nil_append]
    · have hP0 : input_params.num_prompt_tokens = 0 := by omega
      rw [if_neg h0, hP0]
      rfl
  · intro stale hstale
    unfold AttentionImpl.forward
    simp only [hq, hk, hv, hstale, Option.bind_eq_bind, Option.some_bind, Option.none_bind]

/-- Witness of C3: the mixed batch; the decode row reads slot 2, written in the same
pass. -/
theorem cache_write_precedes_kernels_witness :
    (([[[0]], [[1]], [[2]]] : Tensor ℚ).length = ([[1], [1], [1]] : List (List ℚ)).length ∧
      ([[[1]], [[2]], [[8]]] : Tensor ℚ).length = ([[1], [1], [1]] : List (List ℚ)).length) ∧
    (∃ res, mixedModule.forward KVCache.ops (noExtern ℚ (Nat × Tensor ℚ)) expQ false "" ""
        (fun _ _ _ => 0) [[1], [1], [1]] [[0], [1], [2]] [[1], [2], [8]] mixedCache
        mixedParams = some res ∧
      res.kv_cache = mixedCacheWritten ∧
      res.trace.head? = some Event.set_kv_cache ∧
      Event.set_kv_cache ∉ res.trace.tail ∧
      (mixedParams.num_prompt_tokens < ([[1], [1], [1]] : List (List ℚ)).length →
        res.output.drop mixedParams.num_prompt_tokens =
          ([[[32 / 5]]] : Tensor ℚ).map List.flatten)) ∧
    (∀ stale : KVCache ℚ,
      KVCache.ops.set_kv_cache stale mixedParams.slot_ids [[[0]], [[1]], [[2]]]
        [[[1]], [[2]], [[8]]] = none →
      mixedModule.forward KVCache.ops (noExtern ℚ (Nat × Tensor ℚ)) expQ false "" ""
        (fun _ _ _ => 0) [[1], [1], [1]] [[0], [1], [2]] [[1], [2], [8]] stale
        mixedParams = none) :=
  cache_write_precedes_kernels mixedModule KVCache.ops (noExtern ℚ (Nat × Tensor ℚ)) expQ
    false "" "" (fun _ _ _ => 0) [[1], [1], [1]] [[0], [1], [2]] [[1], [2], [8]] mixedCache
    mixedParams [[[1]], [[1]], [[1]]] [[[0]], [[1]], [[2]]] [[[1]], [[2]], [[8]]]
    [[[1]], [[12 / 7]]] [[[32 / 5]]] mixedCacheWritten
    (by decide) (by decide) (by decide!) (by decide!) (by decide!) (by decide!)
    (fun _ => by decide!) (fun _ => by decide!)

theorem slice_zero_take {β : Type} (t : List β) (p : Nat) :
    detail.slice (t.take p) 0 p = detail.slice t 0 p := by
  simp [detail.slice, List.take_take]

theorem slice_drop_length {β : Type} (t : List β) (p n : Nat) :
    detail.slice (t.drop p) 0 (n - p) = detail.slice t p n := by
  apply List.ext_getElem?
  intro r
  rw [getElem?_slice, getElem?_slice, List.getElem?_drop, Nat.zero_add]
  by_cases hr : r < n - p
  · rw [if_pos hr, if_pos (by omega)]
  · rw [if_neg hr, if_neg (by omega)]

theorem KVCache.length_write {β : Type} (pool : Tensor β) (slot_ids : List Nat)
    (rows : Tensor β) : (KVCache.write pool slot_ids rows).length = pool.length := by
  unfold KVCache.write
  generalize slot_ids.zip rows = l
  induction l generalizing pool with
  | nil => rfl
  | cons x l ih => rw [List.foldl_cons, ih, List.length_set]

theorem KVCache.write_split {β : Type} (pool : Tensor β) (slot_ids : List Nat)
    (rows : Tensor β) (p : Nat) (h : slot_ids.length = rows.length) :
    KVCache.write pool slot_ids rows =
      KVCache.write (KVCache.write pool (slot_ids.take p) (rows.take p)) (slot_ids.drop p)
        (rows.drop p) := by
  unfold KVCache.write
  rw [← List.foldl_append, ← List.zip_append (by simp [h]), List.take_append_drop,
    List.take_append_drop]

/-- The paged cache writes its rows one after the other: the write of all the slots
is the write of the first `p` followed by the write of the others, and it fails
exactly when one of the two does. -/
theorem KVCache.set_kv_cache_split {β : Type} (c : KVCache β) (slot_ids : List Nat)
    (k v : Tensor β) (p : Nat) :
    c.set_kv_cache slot_ids k v =
      (c.set_kv_cache (slot_ids.take p) (k.take p) (v.take p)).bind fun c1 =>
        c1.set_kv_cache (slot_ids.drop p) (k.drop p) (v.drop p) := by
  unfold KVCache.set_kv_cache
  by_cases h : slot_ids.length = k.length ∧ slot_ids.length = v.length ∧
      ∀ s ∈ slot_ids, s < c.key_cache.length ∧ s < c.value_cache.length
  · obtain ⟨hk, hv, hr⟩ := h
    rw [if_pos ⟨hk, hv, hr⟩, if_pos ⟨by simp [hk], by simp [hv],
      fun s hs => hr s (List.mem_of_mem_take hs)⟩, Option.some_bind,
      if_pos ⟨by simp [hk], by simp [hv], fun s hs => by
        simp only [KVCache.length_write]
        exact hr s (List.mem_of_mem_drop hs)⟩]
    simp only [← KVCache.write_split _ _ _ p hk, ← KVCache.write_split _ _ _ p hv]
  · rw [if_neg h]
    by_cases h1 : (slot_ids.take p).length = (k.take p).length ∧
        (slot_ids.take p).length = (v.take p).length ∧
        ∀ s ∈ slot_ids.take p, s < c.key_cache.length ∧ s < c.value_cache.length
    · rw [if_pos h1, Option.some_bind, if_neg]
      rintro ⟨h2k, h2v, h2r⟩
      apply h
      obtain ⟨h1k, h1v, h1r⟩ := h1
      simp only [List.length_take, List.length_drop] at h1k h1v h2k h2v
      refine ⟨by omega, by omega, fun s hs => ?_⟩
      rw [← List.take_append_drop p slot_ids, List.mem_append] at hs
      rcases hs with hs | hs
      · exact h1r s hs
      · have := h2r s hs
        simpa only [KVCache.length_write] using this
    · rw [if_neg h1, Option.none_bind]

/-- C15: for a mixed batch (`0 < P < T`) whose reshapes succeed, with cumulative prompt
lengths that start at 0 and end at `P`, and a cache whose write of the `T` slots is
the write of the first `P` followed by the write of the others, running `forward`
on the full batch gives the same output rows and the same cache as running it on
the prefill slice (rows `[0, P)`, `slot_ids[0:P]`) and then, on the cache so
obtained, on the decode slice (rows `[P, T)`, `slot_ids[P:T]`): the output is the
prefill output followed by the decode output, whatever the three freshly allocated
buffers hold, and the full pass fails exactly when one of the two passes does.
Where the dispatch selects a third-party kernel, that kernel is assumed to
overwrite its whole output: its result has the rows of the buffer it is given and
does not depend on what the buffer held. -/
theorem forward_batch_split {C P : Type} (self : AttentionImpl α) (ops : KVCacheOps α C P)
    (ext : Extern α P) (expf : α → α) (is_cuda : Bool) (flag_varlen flag_single : String)
    (junk junk1 junk2 : Nat → Nat → Nat → α) (query key value : List (List α))
    (kv_cache : C) (input_params : InputParameters) (q k v : Tensor α)
    (h0 : 0 < input_params.num_prompt_tokens)
    (h1 : input_params.num_prompt_tokens < query.length)
    (hq : view3 query query.length self.n_heads_ self.head_dim_ = some q)
    (hk : view3 key query.length self.n_kv_heads_ self.head_dim_ = some k)
    (hv : view3 value query.length self.n_kv_heads_ self.head_dim_ = some v)
    (hsplit : ops.set_kv_cache kv_cache input_params.slot_ids k v =
      (ops.set_kv_cache kv_cache
        (input_params.slot_ids.take input_params.num_prompt_tokens)
        (k.take input_params.num_prompt_tokens)
        (v.take input_params.num_prompt_tokens)).bind fun c1 =>
          ops.set_kv_cache c1 (input_params.slot_ids.drop input_params.num_prompt_tokens)
            (k.drop input_params.num_prompt_tokens)
            (v.drop input_params.num_prompt_tokens))
    (hcu : input_params.cu_seq_lens.Pairwise (· ≤ ·))
    (hcu0 : input_params.cu_seq_lens.getD 0 0 = 0)
    (hcuS : input_params.cu_seq_lens.getD (input_params.cu_seq_lens.length - 1) 0 =
      input_params.num_prompt_tokens)
    (hext_varlen : is_cuda = true ∧ (flag_varlen.isEmpty ∨ flag_varlen = "cuda") →
      ∀ out1 out2 : Tensor α, out1.length = input_params.num_prompt_tokens →
        out2.length = input_params.num_prompt_tokens →
        detail.varlen_masked_self_attention_cuda ext
            (detail.slice q 0 input_params.num_prompt_tokens)
            (detail.slice k 0 input_params.num_prompt_tokens)
            (detail.slice v 0 input_params.num_prompt_tokens) none
            input_params.cu_seq_lens input_params.max_seq_len self.scale_ out1 =
          detail.varlen_masked_self_attention_cuda ext
            (detail.slice q 0 input_params.num_prompt_tokens)
            (detail.slice k 0 input_params.num_prompt_tokens)
            (detail.slice v 0 input_params.num_prompt_tokens) none
            input_params.cu_seq_lens input_params.max_seq_len self.scale_ out2 ∧
        ∀ o, detail.varlen_masked_self_attention_cuda ext
            (detail.slice q 0 input_params.num_prompt_tokens)
            (detail.slice k 0 input_params.num_prompt_tokens)
            (detail.slice v 0 input_params.num_prompt_tokens) none
            input_params.cu_seq_lens input_params.max_seq_len self.scale_ out1 = some o →
          o.length = out1.length)
    (hext_single : is_cuda = true ∧ (flag_single.isEmpty ∨ flag_single = "cuda") →
      ∀ (c : C) (out1 out2 : Tensor α),
        out1.length = query.length - input_params.num_prompt_tokens →
        out2.length = query.length - input_params.num_prompt_tokens →
        detail.single_query_masked_self_attention_cuda ops ext c self.kv_head_mapping_
            (detail.slice q input_params.num_prompt_tokens query.length)
            input_params.block_tables input_params.context_lens
            input_params.max_context_len self.scale_ out1 =
          detail.single_query_masked_self_attention_cuda ops ext c self.kv_head_mapping_
            (detail.slice q input_params.num_prompt_tokens query.length)
            input_params.block_tables input_params.context_lens
            input_params.max_context_len self.scale_ out2 ∧
        ∀ o, detail.single_query_masked_self_attention_cuda ops ext c self.kv_head_mapping_
            (detail.slice q input_params.num_prompt_tokens query.length)
            input_params.block_tables input_params.context_lens
            input_params.max_context_len self.scale_ out1 = some o →
          o.length = out1.length) :
    (self.forward ops ext expf is_cuda flag_varlen flag_single junk query key value kv_cache
        input_params).map (fun r => (r.output, r.kv_cache)) =
      ((self.forward ops ext expf is_cuda flag_varlen flag_single junk1
          (query.take input_params.num_prompt_tokens)
          (key.take input_params.num_prompt_tokens)
          (value.take input_params.num_prompt_tokens) kv_cache
          { input_params with
            slot_ids := input_params.slot_ids.take input_params.num_prompt_tokens }).map
          (fun r => (r.output, r.kv_cache))).bind fun r1 =>
        ((self.forward ops ext expf is_cuda flag_varlen flag_single junk2
            (query.drop input_params.num_prompt_tokens)
            (key.drop input_params.num_prompt_tokens)
            (value.drop input_params.num_prompt_tokens) r1.2
            { input_params with
              slot_ids := input_params.slot_ids.drop input_params.num_prompt_tokens,
              num_prompt_tokens := 0 }).map
            (fun r => (r.output, r.kv_cache))).map fun r2 => (r1.1 ++ r2.1, r2.2) := by
  generalize hPdef : input_params.num_prompt_tokens = Pn at *
  have hql : q.length = query.length := length_view3 _ _ _ _ _ hq
  have hkl : k.length = query.length := length_view3 _ _ _ _ _ hk
  have hvl : v.length = query.length := length_view3 _ _ _ _ _ hv
  have hTP : (query.take Pn).length = Pn := by rw [List.length_take]; omega
  have hTD : (query.drop Pn).length = query.length - Pn := List.length_drop _ _
  have hq1 : view3 (query.take Pn) (query.take Pn).length self.n_heads_ self.head_dim_ =
      some (q.take Pn) := by rw [hTP]; exact view3_take _ _ _ _ _ _ hq (by omega)
  have hk1 : view3 (key.take Pn) (query.take Pn).length self.n_kv_heads_ self.head_dim_ =
      some (k.take Pn) := by rw [hTP]; exact view3_take _ _ _ _ _ _ hk (by omega)
  have hv1 : view3 (value.take Pn) (query.take Pn).length self.n_kv_heads_ self.head_dim_ =
      some (v.take Pn) := by rw [hTP]; exact view3_take _ _ _ _ _ _ hv (by omega)
  have hq2 : view3 (query.drop Pn) (query.drop Pn).length self.n_heads_ self.head_dim_ =
      some (q.drop Pn) := by rw [hTD]; exact view3_drop _ _ _ _ _ _ hq
  have hk2 : view3 (key.drop Pn) (query.drop Pn).length self.n_kv_heads_ self.head_dim_ =
      some (k.drop Pn) := by rw [hTD]; exact view3_drop _ _ _ _ _ _ hk
  have hv2 : view3 (value.drop Pn) (query.drop Pn).length self.n_kv_heads_ self.head_dim_ =
      some (v.drop Pn) := by rw [hTD]; exact view3_drop _ _ _ _ _ _ hv
  have hEl : (empty_like junk q).length = query.length := by rw [length_empty_like, hql]
  have hE1l : (empty_like junk1 (q.take Pn)).length = Pn := by
    rw [length_empty_like, List.length_take]; omega
  have hE2l : (empty_like junk2 (q.drop Pn)).length = query.length - Pn := by
    rw [length_empty_like, List.length_drop, hql]
  -- the prefill kernel does not see what its buffer held
  have hVbuf : ∀ out1 out2 : Tensor α, out1.length = Pn → out2.length = Pn →
      detail.varlen_masked_self_attention ext expf is_cuda flag_varlen
        (detail.slice q 0 Pn) (detail.slice k 0 Pn) (detail.slice v 0 Pn) self.n_heads_
        self.n_kv_heads_ self.head_dim_ none input_params.cu_seq_lens
        input_params.max_seq_len self.scale_ out1 =
      detail.varlen_masked_self_attention ext expf is_cuda flag_varlen
        (detail.slice q 0 Pn) (detail.slice k 0 Pn) (detail.slice v 0 Pn) self.n_heads_
        self.n_kv_heads_ self.head_dim_ none input_params.cu_seq_lens
        input_params.max_seq_len self.scale_ out2 := by
    intro out1 out2 hl1 hl2
    unfold detail.varlen_masked_self_attention
    by_cases hc : is_cuda = true ∧ (flag_varlen.isEmpty ∨ flag_varlen = "cuda")
    · rw [if_pos hc, if_pos hc]
      exact (hext_varlen hc out1 out2 hl1 hl2).1
    · rw [if_neg hc, if_neg hc]
      apply varlen_generic_buffer_indep _ _ _ _ _ _ _ _ _ _ _ _ hcu hcu0
      · rw [hcuS, hl1]
      · intro sl h; cases h
      · rw [hl1, length_slice, hql]; omega
      · rw [hl1, hl2]
  have hVlen : ∀ out o : Tensor α, out.length = Pn →
      detail.varlen_masked_self_attention ext expf is_cuda flag_varlen
        (detail.slice q 0 Pn) (detail.slice k 0 Pn) (detail.slice v 0 Pn) self.n_heads_
        self.n_kv_heads_ self.head_dim_ none input_params.cu_seq_lens
        input_params.max_seq_len self.scale_ out = some o → o.length = Pn := by
    intro out o hl
    unfold detail.varlen_masked_self_attention
    by_cases hc : is_cuda = true ∧ (flag_varlen.isEmpty ∨ flag_varlen = "cuda")
    · rw [if_pos hc]
      intro h
      rw [(hext_varlen hc out out hl hl).2 o h, hl]
    · rw [if_neg hc]
      intro h
      rw [length_varlen_generic _ _ _ _ _ _ _ _ _ _ _ _ h, hl]
  -- nor does the decode kernel
  have hSbuf : ∀ (c : C) (out1 out2 : Tensor α), out1.length = query.length - Pn →
      out2.length = query.length - Pn →
      detail.single_query_masked_self_attention ops ext expf is_cuda flag_single c
        self.kv_head_mapping_ (detail.slice q Pn query.length) self.n_heads_ self.head_dim_
        input_params.block_tables input_params.context_lens input_params.max_context_len
        self.scale_ out1 =
      detail.single_query_masked_self_attention ops ext expf is_cuda flag_single c
        self.kv_head_mapping_ (detail.slice q Pn query.length) self.n_heads_ self.head_dim_
        input_params.block_tables input_params.context_lens input_params.max_context_len
        self.scale_ out2 := by
    intro c out1 out2 hl1 hl2
    unfold detail.single_query_masked_self_attention
    by_cases hc : is_cuda = true ∧ (flag_single.isEmpty ∨ flag_single = "cuda")
    · rw [if_pos hc, if_pos hc]
      exact (hext_single hc c out1 out2 hl1 hl2).1
    · rw [if_neg hc, if_neg hc]
      apply single_query_generic_buffer_indep
      · rw [hl1, length_slice, hql]; omega
      · rw [hl2, length_slice, hql]; omega
  have hSlen : ∀ (c : C) (out o : Tensor α), out.length = query.length - Pn →
      detail.single_query_masked_self_attention ops ext expf is_cuda flag_single c
        self.kv_head_mapping_ (detail.slice q Pn query.length) self.n_heads_ self.head_dim_
        input_params.block_tables input_params.context_lens input_params.max_context_len
        self.scale_ out = some o → o.length = query.length - Pn := by
    intro c out o hl
    unfold detail.single_query_masked_self_attention
    by_cases hc : is_cuda = true ∧ (flag_single.isEmpty ∨ flag_single = "cuda")
    · rw [if_pos hc]
      intro h
      rw [(hext_single hc c out out hl hl).2 o h, hl]
    · rw [if_neg hc]
      intro h
      rw [length_single_query_generic _ _ _ _ _ _ _ _ _ _ _ h, hl]
  have hpre : detail.varlen_masked_self_attention ext expf is_cuda flag_varlen
      (detail.slice (q.take Pn) 0 Pn) (detail.slice (k.take Pn) 0 Pn)
      (detail.slice (v.take Pn) 0 Pn) self.n_heads_ self.n_kv_heads_ self.head_dim_ none
      input_params.cu_seq_lens input_params.max_seq_len self.scale_
      (detail.slice (empty_like junk1 (q.take Pn)) 0 Pn) =
      detail.varlen_masked_self_attention ext expf is_cuda flag_varlen
      (detail.slice q 0 Pn) (detail.slice k 0 Pn) (detail.slice v 0 Pn) self.n_heads_
      self.n_kv_heads_ self.head_dim_ none input_params.cu_seq_lens
      input_params.max_seq_len self.scale_ (detail.slice (empty_like junk q) 0 Pn) := by
    rw [slice_zero_take, slice_zero_take, slice_zero_take]
    apply hVbuf
    · rw [length_slice, hE1l]; omega
    · rw [length_slice, hEl]; omega
  rw [forward_out self ops ext expf is_cuda flag_varlen flag_single junk query key value
      kv_cache input_params q k v hq hk hv (by omega),
    forward_out self ops ext expf is_cuda flag_varlen flag_single junk1 (query.take Pn)
      (key.take Pn) (value.take Pn) kv_cache _ (q.take Pn) (k.take Pn) (v.take Pn) hq1 hk1
      hv1 (by omega)]
  simp only [forward_out self ops ext expf is_cuda flag_varlen flag_single junk2
      (query.drop Pn) (key.drop Pn) (value.drop Pn) _ _ (q.drop Pn) (k.drop Pn) (v.drop Pn)
      hq2 hk2 hv2 (by omega), hPdef, hTP, hTD, h0, h1, if_true, Nat.lt_irrefl, if_false,
      hpre, hsplit, show 0 < query.length - Pn from by omega]
  rcases ops.set_kv_cache kv_cache (List.take Pn input_params.slot_ids) (List.take Pn k)
    (List.take Pn v) with _ | c1
  · simp only [Option.none_bind]
  · simp only [Option.some_bind]
    rcases hg1 : detail.varlen_masked_self_attention ext expf is_cuda flag_varlen
      (detail.slice q 0 Pn) (detail.slice k 0 Pn) (detail.slice v 0 Pn) self.n_heads_
      self.n_kv_heads_ self.head_dim_ none input_params.cu_seq_lens
      input_params.max_seq_len self.scale_
      (detail.slice (empty_like junk q) 0 Pn) with _ | o1
    · simp only [Option.none_bind, Option.map_none', Option.bind_none]
    · have ho1 : o1.length = Pn :=
        hVlen _ _ (by rw [length_slice, hEl]; omega) hg1
      have hput : detail.index_put (empty_like junk q) 0 Pn o1 =
          o1 ++ (empty_like junk q).drop Pn := by
        rw [index_put_eq_append _ _ _ _ (Nat.zero_le _) (by omega) (by omega)]
        simp
      have hput1 : detail.index_put (empty_like junk1 (q.take Pn)) 0 Pn o1 = o1 := by
        have hnil : (empty_like junk1 (q.take Pn)).drop Pn = [] :=
          List.drop_eq_nil_of_le (by omega)
        rw [index_put_eq_append (empty_like junk1 (q.take Pn)) o1 0 Pn (Nat.zero_le _)
          (by omega) (by omega), hnil]
        simp
      simp only [Option.map_some', Option.some_bind, hput, hput1]
      rcases ops.set_kv_cache c1 (List.drop Pn input_params.slot_ids) (List.drop Pn k)
        (List.drop Pn v) with _ | c2
      · simp only [Option.none_bind, Option.map_none']
      · simp only [Option.some_bind]
        have hlen12 : (o1 ++ (empty_like junk q).drop Pn).length = query.length := by
          simp only [List.length_append, List.length_drop]; omega
        have hdec : detail.single_query_masked_self_attention ops ext expf is_cuda
            flag_single c2 self.kv_head_mapping_
            (detail.slice (q.drop Pn) 0 (query.length - Pn)) self.n_heads_ self.head_dim_
            input_params.block_tables input_params.context_lens
            input_params.max_context_len self.scale_
            (detail.slice (empty_like junk2 (q.drop Pn)) 0 (query.length - Pn)) =
            detail.single_query_masked_self_attention ops ext expf is_cuda
            flag_single c2 self.kv_head_mapping_
            (detail.slice q Pn query.length) self.n_heads_ self.head_dim_
            input_params.block_tables input_params.context_lens
            input_params.max_context_len self.scale_
            (detail.slice (o1 ++ (empty_like junk q).drop Pn) Pn query.length) := by
          rw [slice_drop_length q Pn query.length]
          apply hSbuf
          · rw [length_slice, hE2l]; omega
          · rw [length_slice, hlen12]; omega
        rw [hdec]
        rcases hg2 : detail.single_query_masked_self_attention ops ext expf is_cuda
          flag_single c2 self.kv_head_mapping_
          (detail.slice q Pn query.length) self.n_heads_ self.head_dim_
          input_params.block_tables input_params.context_lens
          input_params.max_context_len self.scale_
          (detail.slice (o1 ++ (empty_like junk q).drop Pn) Pn query.length) with _ | o2
        · simp only [Option.map_none']
        · have ho2 : o2.length = query.length - Pn :=
            hSlen _ _ _ (by rw [length_slice, hlen12]; omega) hg2
          have ht : (o1 ++ (empty_like junk q).drop Pn).take Pn = o1 := by
            rw [List.take_append_of_le_length (by omega), List.take_of_length_le (by omega)]
          have hd : (o1 ++ (empty_like junk q).drop Pn).drop query.length = [] :=
            List.drop_eq_nil_of_le (by omega)
          have hputf : detail.index_put (o1 ++ (empty_like junk q).drop Pn) Pn query.length
              o2 = o1 ++ o2 := by
            rw [index_put_eq_append _ _ _ _ (by omega) (by omega) (by omega), ht, hd,
              List.append_nil]
          have hput2 : detail.index_put (empty_like junk2 (q.drop Pn)) 0
              (query.length - Pn) o2 = o2 := by
            have hnil : (empty_like junk2 (q.drop Pn)).drop (query.length - Pn) = [] :=
              List.drop_eq_nil_of_le (by omega)
            rw [index_put_eq_append (empty_like junk2 (q.drop Pn)) o2 0 (query.length - Pn)
                (Nat.zero_le _) (by omega) (by omega), hnil]
            simp
          simp only [Option.map_some', hputf, hput2, List.map_append]

/-- Witness of C15: the mixed batch (`T = 3`, `P = 2`) on the reference path with the
paged cache, the three output buffers holding different contents. -/
theorem forward_batch_split_witness :
    (mixedModule.forward KVCache.ops (noExtern ℚ (Nat × Tensor ℚ)) expQ false "" ""
        (fun _ _ _ => 0) [[1], [1], [1]] [[0], [1], [2]] [[1], [2], [8]] mixedCache
        mixedParams).map (fun r => (r.output, r.kv_cache)) =
      ((mixedModule.forward KVCache.ops (noExtern ℚ (Nat × Tensor ℚ)) expQ false "" ""
          (fun _ _ _ => 7)
          (([[1], [1], [1]] : List (List ℚ)).take mixedParams.num_prompt_tokens)
          (([[0], [1], [2]] : List (List ℚ)).take mixedParams.num_prompt_tokens)
          (([[1], [2], [8]] : List (List ℚ)).take mixedParams.num_prompt_tokens) mixedCache
          { mixedParams with
            slot_ids := mixedParams.slot_ids.take mixedParams.num_prompt_tokens }).map
          (fun r => (r.output, r.kv_cache))).bind fun r1 =>
        ((mixedModule.forward KVCache.ops (noExtern ℚ (Nat × Tensor ℚ)) expQ false "" ""
            (fun _ _ _ => 9)
            (([[1], [1], [1]] : List (List ℚ)).drop mixedParams.num_prompt_tokens)
            (([[0], [1], [2]] : List (List ℚ)).drop mixedParams.num_prompt_tokens)
            (([[1], [2], [8]] : List (List ℚ)).drop mixedParams.num_prompt_tokens) r1.2
            { mixedParams with
              slot_ids := mixedParams.slot_ids.drop mixedParams.num_prompt_tokens,
              num_prompt_tokens := 0 }).map
            (fun r => (r.output, r.kv_cache))).map fun r2 => (r1.1 ++ r2.1, r2.2) :=
  forward_batch_split mixedModule KVCache.ops (noExtern ℚ (Nat × Tensor ℚ)) expQ false "" ""
    (fun _ _ _ => 0) (fun _ _ _ => 7) (fun _ _ _ => 9) [[1], [1], [1]] [[0], [1], [2]]
    [[1], [2], [8]] mixedCache mixedParams
    [[[1]], [[1]], [[1]]] [[[0]], [[1]], [[2]]] [[[1]], [[2]], [[8]]]
    (by decide) (by decide) (by decide!) (by decide!) (by decide!)
    (KVCache.set_kv_cache_split mixedCache mixedParams.slot_ids [[[0]], [[1]], [[2]]]
      [[[1]], [[2]], [[8]]] mixedParams.num_prompt_tokens)
    (by decide) (by decide) (by decide)
    (fun h => absurd h.1 (by decide)) (fun h => absurd h.1 (by decide))

end Forward

/-! ## The model registry -/

section Registry

variable {F A Q : Type}

theorem ModelRegistry.find?_append (m : ModelRegistry F A Q) (name k : String)
    (v : ModelMeta F A Q) :
    ModelRegistry.find? (m ++ [(k, v)]) name =
      match ModelRegistry.find? m name with
      | some x => some x
      | none => if k = name then some v else none := by
  induction m with
  | nil => simp [ModelRegistry.find?]
  | cons kv m ih =>
    obtain ⟨k', v'⟩ := kv
    by_cases hk : k' = name
    · simp [ModelRegistry.find?, hk]
    · simp [ModelRegistry.find?, hk, ih]

theorem ModelRegistry.store_cons (k : String) (v' v : ModelMeta F A Q)
    (m : ModelRegistry F A Q) (name : String) :
    ModelRegistry.store ((k, v') :: m) name v =
      (if k = name then (name, v) else (k, v')) :: ModelRegistry.store m name v := rfl

theorem ModelRegistry.find?_cons (k : String) (v' : ModelMeta F A Q)
    (m : ModelRegistry F A Q) (name : String) :
    ModelRegistry.find? ((k, v') :: m) name =
      if k = name then some v' else ModelRegistry.find? m name := rfl

theorem ModelRegistry.find?_store_ne (m : ModelRegistry F A Q) (name other : String)
    (v : ModelMeta F A Q) (hne : other ≠ name) :
    ModelRegistry.find? (ModelRegistry.store m name v) other = ModelRegistry.find? m other := by
  induction m with
  | nil => rfl
  | cons kv m ih =>
    obtain ⟨k', v'⟩ := kv
    rw [ModelRegistry.store_cons, ModelRegistry.find?_cons]
    by_cases hk : k' = name
    · have hko : ¬ name = other := fun h => hne h.symm
      have hko' : ¬ k' = other := by rw [hk]; exact hko
      rw [if_pos hk, ModelRegistry.find?_cons, if_neg hko, if_neg hko', ih]
    · rw [if_neg hk, ModelRegistry.find?_cons, ih]

theorem ModelRegistry.find?_store_self (m : ModelRegistry F A Q) (name : String)
    (v : ModelMeta F A Q) (h : (ModelRegistry.find? m name).isSome) :
    ModelRegistry.find? (ModelRegistry.store m name v) name = some v := by
  induction m with
  | nil => simp [ModelRegistry.find?] at h
  | cons kv m ih =>
    obtain ⟨k', v'⟩ := kv
    rw [ModelRegistry.store_cons]
    by_cases hk : k' = name
    · rw [if_pos hk, ModelRegistry.find?_cons, if_pos rfl]
    · rw [ModelRegistry.find?_cons, if_neg hk] at h
      rw [if_neg hk, ModelRegistry.find?_cons, if_neg hk, ih h]

/-- After `model_registry_[name]` the key is present, with the entry that was stored
(or a value-initialized one), and no other key is affected. -/
theorem ModelRegistry.index_spec (m : ModelRegistry F A Q) (name : String) :
    (ModelRegistry.index m name).2 =
        (ModelRegistry.find? m name).getD ModelRegistry.empty_meta ∧
      ModelRegistry.find? (ModelRegistry.index m name).1 name =
        some ((ModelRegistry.find? m name).getD ModelRegistry.empty_meta) ∧
      ∀ other, other ≠ name →
        ModelRegistry.find? (ModelRegistry.index m name).1 other =
          ModelRegistry.find? m other := by
  unfold ModelRegistry.index
  rcases h : ModelRegistry.find? m name with _ | v
  · refine ⟨rfl, ?_, ?_⟩
    · simp [ModelRegistry.find?_append, h]
    · intro other hne
      have hne' : ¬ name = other := fun e => hne e.symm
      rw [ModelRegistry.find?_append]
      rcases ModelRegistry.find? m other with _ | x <;> simp [hne']
  · exact ⟨rfl, by simpa using h, fun _ _ => rfl⟩

theorem ModelRegistry.index_index (m : ModelRegistry F A Q) (name : String) :
    ModelRegistry.index (ModelRegistry.index m name).1 name =
      ((ModelRegistry.index m name).1, (ModelRegistry.index m name).2) := by
  obtain ⟨h1, h2, -⟩ := ModelRegistry.index_spec m name
  have key : ∀ (m1 : ModelRegistry F A Q) (v : ModelMeta F A Q),
      ModelRegistry.find? m1 name = some v → ModelRegistry.index m1 name = (m1, v) := by
    intro m1 v h
    unfold ModelRegistry.index
    rw [h]
  rw [key _ _ h2, h1]

/-- Assigning an entry through `model_registry_[name]`: the entry becomes the one
stored under `name` and no other key is affected. -/
theorem ModelRegistry.find?_store_index (m : ModelRegistry F A Q) (name : String)
    (v : ModelMeta F A Q) :
    ModelRegistry.find? (ModelRegistry.store (ModelRegistry.index m name).1 name v) name =
        some v ∧
      ∀ other, other ≠ name →
        ModelRegistry.find? (ModelRegistry.store (ModelRegistry.index m name).1 name v)
          other = ModelRegistry.find? m other := by
  obtain ⟨-, h2, h3⟩ := ModelRegistry.index_spec m name
  refine ⟨ModelRegistry.find?_store_self _ _ _ (by rw [h2]; rfl), ?_⟩
  intro other hne
  rw [ModelRegistry.find?_store_ne _ _ _ _ hne, h3 other hne]

/-- C19: `register_causallm_factory(name, f)` fails iff a non-null factory is
already stored under `name`; when none is stored it succeeds, after which
`get_causallm_factory(name)` returns `f`, the two loaders stored under `name` are
unchanged and so is every entry under any other name.  Likewise for
`register_model_args_loader` and `register_quant_args_loader`. -/
theorem registry_register_spec (m : ModelRegistry F A Q) (name : String)
    (f : Option F) (a : Option A) (q : Option Q) :
    ((ModelRegistry.register_causallm_factory m name f = none ↔
        ∃ g, ((ModelRegistry.find? m name).getD
          ModelRegistry.empty_meta).causal_lm_factory = some g) ∧
      (((ModelRegistry.find? m name).getD ModelRegistry.empty_meta).causal_lm_factory = none →
        ∃ m', ModelRegistry.register_causallm_factory m name f = some m' ∧
          (ModelRegistry.get_causallm_factory m' name).2 = f ∧
          ((ModelRegistry.find? m' name).getD ModelRegistry.empty_meta).model_args_loader =
            ((ModelRegistry.find? m name).getD ModelRegistry.empty_meta).model_args_loader ∧
          ((ModelRegistry.find? m' name).getD ModelRegistry.empty_meta).quant_args_loader =
            ((ModelRegistry.find? m name).getD ModelRegistry.empty_meta).quant_args_loader ∧
          ∀ other, other ≠ name →
            ModelRegistry.find? m' other = ModelRegistry.find? m other)) ∧
    ((ModelRegistry.register_model_args_loader m name a = none ↔
        ∃ g, ((ModelRegistry.find? m name).getD
          ModelRegistry.empty_meta).model_args_loader = some g) ∧
      (((ModelRegistry.find? m name).getD ModelRegistry.empty_meta).model_args_loader = none →
        ∃ m', ModelRegistry.register_model_args_loader m name a = some m' ∧
          (ModelRegistry.get_model_args_loader m' name).2 = a ∧
          ((ModelRegistry.find? m' name).getD ModelRegistry.empty_meta).causal_lm_factory =
            ((ModelRegistry.find? m name).getD ModelRegistry.empty_meta).causal_lm_factory ∧
          ((ModelRegistry.find? m' name).getD ModelRegistry.empty_meta).quant_args_loader =
            ((ModelRegistry.find? m name).getD ModelRegistry.empty_meta).quant_args_loader ∧
          ∀ other, other ≠ name →
            ModelRegistry.find? m' other = ModelRegistry.find? m other)) ∧
    ((ModelRegistry.register_quant_args_loader m name q = none ↔
        ∃ g, ((ModelRegistry.find? m name).getD
          ModelRegistry.empty_meta).quant_args_loader = some g) ∧
      (((ModelRegistry.find? m name).getD ModelRegistry.empty_meta).quant_args_loader = none →
        ∃ m', ModelRegistry.register_quant_args_loader m name q = some m' ∧
          (ModelRegistry.get_quant_args_loader m' name).2 = q ∧
          ((ModelRegistry.find? m' name).getD ModelRegistry.empty_meta).causal_lm_factory =
            ((ModelRegistry.find? m name).getD ModelRegistry.empty_meta).causal_lm_factory ∧
          ((ModelRegistry.find? m' name).getD ModelRegistry.empty_meta).model_args_loader =
            ((ModelRegistry.find? m name).getD ModelRegistry.empty_meta).model_args_loader ∧
          ∀ other, other ≠ name →
            ModelRegistry.find? m' other = ModelRegistry.find? m other)) := by
  obtain ⟨h1, -, -⟩ := ModelRegistry.index_spec m name
  have hget : ∀ v : ModelMeta F A Q,
      (ModelRegistry.index (ModelRegistry.store (ModelRegistry.index m name).1 name v)
        name).2 = v := by
    intro v
    rw [(ModelRegistry.index_spec _ name).1, (ModelRegistry.find?_store_index m name v).1]
    rfl
  refine ⟨⟨?_, ?_⟩, ⟨?_, ?_⟩, ⟨?_, ?_⟩⟩
  · unfold ModelRegistry.register_causallm_factory
    simp only [ModelRegistry.index_index, h1]
    rcases ((ModelRegistry.find? m name).getD ModelRegistry.empty_meta).causal_lm_factory
      with _ | g <;> simp
  · intro hnone
    unfold ModelRegistry.register_causallm_factory
    simp only [ModelRegistry.index_index, h1, hnone, Option.isNone_none, if_true]
    refine ⟨_, rfl, ?_, ?_, ?_, ?_⟩
    · simp only [ModelRegistry.get_causallm_factory, hget]
    · rw [(ModelRegistry.find?_store_index m name _).1]; rfl
    · rw [(ModelRegistry.find?_store_index m name _).1]; rfl
    · exact (ModelRegistry.find?_store_index m name _).2
  · unfold ModelRegistry.register_model_args_loader
    simp only [ModelRegistry.index_index, h1]
    rcases ((ModelRegistry.find? m name).getD ModelRegistry.empty_meta).model_args_loader
      with _ | g <;> simp
  · intro hnone
    unfold ModelRegistry.register_model_args_loader
    simp only [ModelRegistry.index_index, h1, hnone, Option.isNone_none, if_true]
    refine ⟨_, rfl, ?_, ?_, ?_, ?_⟩
    · simp only [ModelRegistry.get_model_args_loader, hget]
    · rw [(ModelRegistry.find?_store_index m name _).1]; rfl
    · rw [(ModelRegistry.find?_store_index m name _).1]; rfl
    · exact (ModelRegistry.find?_store_index m name _).2
  · unfold ModelRegistry.register_quant_args_loader
    simp only [ModelRegistry.index_index, h1]
    rcases ((ModelRegistry.find? m name).getD ModelRegistry.empty_meta).quant_args_loader
      with _ | g <;> simp
  · intro hnone
    unfold ModelRegistry.register_quant_args_loader
    simp only [ModelRegistry.index_index, h1, hnone, Option.isNone_none, if_true]
    refine ⟨_, rfl, ?_, ?_, ?_, ?_⟩
    · simp only [ModelRegistry.get_quant_args_loader, hget]
    · rw [(ModelRegistry.find?_store_index m name _).1]; rfl
    · rw [(ModelRegistry.find?_store_index m name _).1]; rfl
    · exact (ModelRegistry.find?_store_index m name _).2

/-- Witness of C19: in `demoRegistry` a second factory for `llama` is refused, while
its model-args loader can be registered. -/
theorem registry_register_spec_witness :
    ((ModelRegistry.register_causallm_factory demoRegistry "llama" (some 2) = none ↔
        ∃ g, ((ModelRegistry.find? demoRegistry "llama").getD
          ModelRegistry.empty_meta).causal_lm_factory = some g) ∧
      (((ModelRegistry.find? demoRegistry "llama").getD ModelRegistry.empty_meta).causal_lm_factory = none →
        ∃ m', ModelRegistry.register_causallm_factory demoRegistry "llama" (some 2) = some m' ∧
          (ModelRegistry.get_causallm_factory m' "llama").2 = some 2 ∧
          ((ModelRegistry.find? m' "llama").getD ModelRegistry.empty_meta).model_args_loader =
            ((ModelRegistry.find? demoRegistry "llama").getD ModelRegistry.empty_meta).model_args_loader ∧
          ((ModelRegistry.find? m' "llama").getD ModelRegistry.empty_meta).quant_args_loader =
            ((ModelRegistry.find? demoRegistry "llama").getD ModelRegistry.empty_meta).quant_args_loader ∧
          ∀ other, other ≠ "llama" →
            ModelRegistry.find? m' other = ModelRegistry.find? demoRegistry other)) ∧
    ((ModelRegistry.register_model_args_loader demoRegistry "llama" (some 7) = none ↔
        ∃ g, ((ModelRegistry.find? demoRegistry "llama").getD
          ModelRegistry.empty_meta).model_args_loader = some g) ∧
      (((ModelRegistry.find? demoRegistry "llama").getD ModelRegistry.empty_meta).model_args_loader = none →
        ∃ m', ModelRegistry.register_model_args_loader demoRegistry "llama" (some 7) = some m' ∧
          (ModelRegistry.get_model_args_loader m' "llama").2 = some 7 ∧
          ((ModelRegistry.find? m' "llama").getD ModelRegistry.empty_meta).causal_lm_factory =
            ((ModelRegistry.find? demoRegistry "llama").getD ModelRegistry.empty_meta).causal_lm_factory ∧
          ((ModelRegistry.find? m' "llama").getD ModelRegistry.empty_meta).quant_args_loader =
            ((ModelRegistry.find? demoRegistry "llama").getD ModelRegistry.empty_meta).quant_args_loader ∧
          ∀ other, other ≠ "llama" →
            ModelRegistry.find? m' other = ModelRegistry.find? demoRegistry other)) ∧
    ((ModelRegistry.register_quant_args_loader demoRegistry "llama" (some 9) = none ↔
        ∃ g, ((ModelRegistry.find? demoRegistry "llama").getD
          ModelRegistry.empty_meta).quant_args_loader = some g) ∧
      (((ModelRegistry.find? demoRegistry "llama").getD ModelRegistry.empty_meta).quant_args_loader = none →
        ∃ m', ModelRegistry.register_quant_args_loader demoRegistry "llama" (some 9) = some m' ∧
          (ModelRegistry.get_quant_args_loader m' "llama").2 = some 9 ∧
          ((ModelRegistry.find? m' "llama").getD ModelRegistry.empty_meta).causal_lm_factory =
            ((ModelRegistry.find? demoRegistry "llama").getD ModelRegistry.empty_meta).causal_lm_factory ∧
          ((ModelRegistry.find? m' "llama").getD ModelRegistry.empty_meta).model_args_loader =
            ((ModelRegistry.find? demoRegistry "llama").getD ModelRegistry.empty_meta).model_args_loader ∧
          ∀ other, other ≠ "llama" →
            ModelRegistry.find? m' other = ModelRegistry.find? demoRegistry other)) :=
  registry_register_spec demoRegistry "llama" (some 2) (some 7) (some 9)

end Registry

end llm
